import Mathlib

/-! Solar-system and robot-arm demos: transform composition and camera integration.

A shallow embedding of the per-frame computations of
`src/comp371-proj1-main/Assignment1.cpp` (also `src/Assignment1.cpp`, an earlier
revision of the same program) and `src/project1.cpp`.

Floating-point numbers are modelled by an arbitrary linearly ordered field `K`
(exact arithmetic); the C math library is passed explicitly as a `FloatMath K`,
so that every definition below is executable for, say, `K = ℚ`.  Theorems that
need trigonometric facts are stated over `ℝ` with the real cosine, sine, tangent,
square root and `π` (`realMath`): they are statements over the reals.  The others hold
for every `K` and every math library.

The rounding of the type `float` is modelled by `roundFloat32`, the conversion of an exact
value to binary32, and by the math library `float32Math`, whose functions return the
correctly rounded values.  They show where an exact value of the reals is not the value
that the programs compute: the cosine of `glm::radians(-90.0f)` is about `-4.37e-8`, not 0,
and a `float` timestamp can lie above the `double` clock reading it was taken from.
-/

/-- The C math-library functions the programs call (`cos`, `sin`, `tan`, `sqrt`) and the
constant `π` behind `glm::radians`, over the number type `K`. -/
structure FloatMath (K : Type) where
  cos : K → K
  sin : K → K
  tan : K → K
  sqrt : K → K
  pi : K

/-- The exact math library over the reals.  A theorem instantiated with it is a statement
over the reals; the values of the `float` library are those of `float32Math`. -/
noncomputable def realMath : FloatMath ℝ :=
  ⟨Real.cos, Real.sin, Real.tan, Real.sqrt, Real.pi⟩

/-- Rounding to the nearest integer, ties to the even one (the default rounding of
IEEE 754 arithmetic). -/
def roundHalfEven {K : Type} [LinearOrderedField K] [FloorRing K] (q : K) : ℤ :=
  if q - ⌊q⌋ < 1 / 2 then ⌊q⌋
  else if 1 / 2 < q - ⌊q⌋ then ⌊q⌋ + 1
  else if ⌊q⌋ % 2 = 0 then ⌊q⌋ else ⌊q⌋ + 1

/-- The conversion of an exact value to `float` (IEEE 754 binary32, round to nearest, ties
to even): the nearest multiple of `2 ^ (e - 23)`, with `e` the binary exponent of `x`, at
least -126 (below `2 ^ (-126)` the spacing stays `2 ^ (-149)`).  Values of magnitude
`2 ^ 128` and above, which binary32 maps to infinity, are rounded the same way. -/
def roundFloat32 {K : Type} [LinearOrderedField K] [FloorRing K] (x : K) : K :=
  if x = 0 then 0
  else (roundHalfEven (x / 2 ^ (max (Int.log 2 |x|) (-126) - 23)) : K) *
    2 ^ (max (Int.log 2 |x|) (-126) - 23)

/-- The math library in `float` precision: every function returns the exact value rounded
to binary32 (a correctly rounded `cos`, `sin`, `tan`, `sqrt` on `float`), and `π` is the
`float` nearest to it.  The arithmetic between the library calls stays that of the number
type, exact. -/
noncomputable def float32Math : FloatMath ℝ :=
  ⟨fun x => roundFloat32 (Real.cos x), fun x => roundFloat32 (Real.sin x),
   fun x => roundFloat32 (Real.tan x), fun x => roundFloat32 (Real.sqrt x),
   roundFloat32 Real.pi⟩

/-- The C++ function `std::max(a, b)`: `(a < b) ? b : a`. -/
def stdMax {K : Type} [LinearOrderedField K] (a b : K) : K :=
  if a < b then b else a

/-- The C++ function `std::min(a, b)`: `(b < a) ? b : a`. -/
def stdMin {K : Type} [LinearOrderedField K] (a b : K) : K :=
  if b < a then b else a

namespace glm

/-- GLM `vec3`. -/
@[ext]
structure vec3 (K : Type) where
  x : K
  y : K
  z : K
deriving DecidableEq

/-- GLM `vec4`. -/
@[ext]
structure vec4 (K : Type) where
  x : K
  y : K
  z : K
  w : K
deriving DecidableEq

/-- GLM `mat4`: four columns, `m[0]`, `m[1]`, `m[2]`, `m[3]` (column-major). -/
@[ext]
structure mat4 (K : Type) where
  c0 : vec4 K
  c1 : vec4 K
  c2 : vec4 K
  c3 : vec4 K
deriving DecidableEq

variable {K : Type} [LinearOrderedField K]

/-- The constructor `vec3(s)`: all three components equal to `s`. -/
def vec3.scalar (s : K) : vec3 K := ⟨s, s, s⟩

/-- Componentwise `vec3 + vec3`. -/
def vec3.add (a b : vec3 K) : vec3 K := ⟨a.x + b.x, a.y + b.y, a.z + b.z⟩

/-- Componentwise `vec3 - vec3`. -/
def vec3.sub (a b : vec3 K) : vec3 K := ⟨a.x - b.x, a.y - b.y, a.z - b.z⟩

/-- The product `vec3 * scalar`. -/
def vec3.muls (a : vec3 K) (s : K) : vec3 K := ⟨a.x * s, a.y * s, a.z * s⟩

/-- The product `scalar * vec3`. -/
def vec3.smul (s : K) (a : vec3 K) : vec3 K := ⟨s * a.x, s * a.y, s * a.z⟩

/-- Componentwise `vec4 + vec4`. -/
def vec4.add (a b : vec4 K) : vec4 K := ⟨a.x + b.x, a.y + b.y, a.z + b.z, a.w + b.w⟩

/-- The product `vec4 * scalar`. -/
def vec4.muls (a : vec4 K) (s : K) : vec4 K := ⟨a.x * s, a.y * s, a.z * s, a.w * s⟩

instance : Add (vec3 K) := ⟨vec3.add⟩
instance : Sub (vec3 K) := ⟨vec3.sub⟩
instance : HMul (vec3 K) K (vec3 K) := ⟨vec3.muls⟩
instance : HMul K (vec3 K) (vec3 K) := ⟨vec3.smul⟩
instance : Add (vec4 K) := ⟨vec4.add⟩
instance : HMul (vec4 K) K (vec4 K) := ⟨vec4.muls⟩

/-- The constructor `mat4(s)`: `s` on the diagonal, zero elsewhere (`mat4(1.0f)` is the
identity). -/
def mat4.scalar (s : K) : mat4 K :=
  ⟨⟨s, 0, 0, 0⟩, ⟨0, s, 0, 0⟩, ⟨0, 0, s, 0⟩, ⟨0, 0, 0, s⟩⟩

/-- GLM `mat4 * vec4`: the linear combination of the columns of `m` by the components
of `v`. -/
def mat4.mulVec (m : mat4 K) (v : vec4 K) : vec4 K :=
  m.c0 * v.x + m.c1 * v.y + m.c2 * v.z + m.c3 * v.w

/-- GLM `mat4 * mat4`: column `j` of the result is `a` applied to column `j` of `b`. -/
def mat4.mul (a b : mat4 K) : mat4 K :=
  ⟨a.c0 * b.c0.x + a.c1 * b.c0.y + a.c2 * b.c0.z + a.c3 * b.c0.w,
   a.c0 * b.c1.x + a.c1 * b.c1.y + a.c2 * b.c1.z + a.c3 * b.c1.w,
   a.c0 * b.c2.x + a.c1 * b.c2.y + a.c2 * b.c2.z + a.c3 * b.c2.w,
   a.c0 * b.c3.x + a.c1 * b.c3.y + a.c2 * b.c3.z + a.c3 * b.c3.w⟩

instance : Mul (mat4 K) := ⟨mat4.mul⟩
instance : HMul (mat4 K) (vec4 K) (vec4 K) := ⟨mat4.mulVec⟩

/-- The translation component of a matrix: the first three entries of its last column. -/
def mat4.position (m : mat4 K) : vec3 K := ⟨m.c3.x, m.c3.y, m.c3.z⟩

/-- Modelled from the spec: `glm::radians` belongs to the external Transform Utility (GLM),
which is not under src/; degrees are converted to radians, `degrees * π / 180`. -/
def radians (M : FloatMath K) (degrees : K) : K := degrees * (M.pi / 180)

/-- Modelled from the spec: `glm::dot` (GLM is not under src/), the inner product. -/
def dot (a b : vec3 K) : K := a.x * b.x + a.y * b.y + a.z * b.z

/-- Modelled from the spec: `glm::length` (GLM is not under src/), `sqrt(dot(v, v))`. -/
def length (M : FloatMath K) (v : vec3 K) : K := M.sqrt (dot v v)

/-- Modelled from the spec: `glm::normalize` (GLM is not under src/),
`v * inversesqrt(dot(v, v))` with `inversesqrt(x) = 1 / sqrt(x)`. -/
def normalize (M : FloatMath K) (v : vec3 K) : vec3 K := v * (1 / M.sqrt (dot v v))

/-- Modelled from the spec: `glm::translate(m, v)` (GLM is not under src/): `m` with its last
column replaced by `m[0]*v[0] + m[1]*v[1] + m[2]*v[2] + m[3]`. -/
def translate (m : mat4 K) (v : vec3 K) : mat4 K :=
  ⟨m.c0, m.c1, m.c2, m.c0 * v.x + m.c1 * v.y + m.c2 * v.z + m.c3⟩

/-- Modelled from the spec: `glm::scale(m, v)` (GLM is not under src/): the first three
columns of `m` scaled by the components of `v`. -/
def scale (m : mat4 K) (v : vec3 K) : mat4 K :=
  ⟨m.c0 * v.x, m.c1 * v.y, m.c2 * v.z, m.c3⟩

/-- Modelled from the spec: `glm::rotate(m, angle, v)` (GLM is not under src/): the
axis-angle rotation about `normalize(v)` by `angle` radians, applied on the right of `m`. -/
def rotate (M : FloatMath K) (m : mat4 K) (angle : K) (v : vec3 K) : mat4 K :=
  let c := M.cos angle
  let s := M.sin angle
  let axis := normalize M v
  let temp := (1 - c) * axis
  let r00 := c + temp.x * axis.x
  let r01 := temp.x * axis.y + s * axis.z
  let r02 := temp.x * axis.z - s * axis.y
  let r10 := temp.y * axis.x - s * axis.z
  let r11 := c + temp.y * axis.y
  let r12 := temp.y * axis.z + s * axis.x
  let r20 := temp.z * axis.x + s * axis.y
  let r21 := temp.z * axis.y - s * axis.x
  let r22 := c + temp.z * axis.z
  ⟨m.c0 * r00 + m.c1 * r01 + m.c2 * r02,
   m.c0 * r10 + m.c1 * r11 + m.c2 * r12,
   m.c0 * r20 + m.c1 * r21 + m.c2 * r22,
   m.c3⟩

end glm

namespace Assignment1

open glm

variable {K : Type} [LinearOrderedField K]

/-- The mutable locals of `main` in the solar-system program that survive from one
iteration of the frame loop to the next. -/
structure State (K : Type) where
  cameraPosition : vec3 K
  cameraLookAt : vec3 K
  cameraHorizontalAngle : K
  cameraVerticalAngle : K
  spinningAngle : K
  orbitalAngleMercury : K
  orbitalAngleVenus : K
  orbitalAngleEarth : K
  orbitalAngleMars : K
  orbitalAngleJupiter : K
  orbitalAngleSaturn : K
  orbitalAngleUranus : K
  orbitalAngleNeptune : K
  orbitalAngleMoon : K
  lastFrameTime : K
  lastMousePosX : K
  lastMousePosY : K

/-- The constant `cameraUp`, `vec3(0, 1, 0)`. -/
def cameraUp : vec3 K := ⟨0, 1, 0⟩

/-- The constant `cameraSpeed`. -/
def cameraSpeed : K := 1

/-- The constant `cameraFastSpeed = 4 * cameraSpeed`. -/
def cameraFastSpeed : K := 4 * cameraSpeed

/-- The locals of `main` as initialised before the loop; `t0` is the first clock reading
and `(mx0, my0)` the first cursor position. -/
def initialState (t0 mx0 my0 : K) : State K :=
  { cameraPosition := ⟨15, 1, 30⟩
    cameraLookAt := ⟨0, 0, -1⟩
    cameraHorizontalAngle := 90
    cameraVerticalAngle := 0
    spinningAngle := 0
    orbitalAngleMercury := 0
    orbitalAngleVenus := 0
    orbitalAngleEarth := 0
    orbitalAngleMars := 0
    orbitalAngleJupiter := 0
    orbitalAngleSaturn := 0
    orbitalAngleUranus := 0
    orbitalAngleNeptune := 0
    orbitalAngleMoon := 0
    lastFrameTime := t0
    lastMousePosX := mx0
    lastMousePosY := my0 }

/-- The constant `orbitalSpeedMercury = glm::radians(50.0f)`. -/
def orbitalSpeedMercury (M : FloatMath K) : K := radians M 50

/-- The constant `orbitalSpeedVenus = glm::radians(35.0f)`. -/
def orbitalSpeedVenus (M : FloatMath K) : K := radians M 35

/-- The constant `orbitalSpeedEarth = glm::radians(30.0f)`. -/
def orbitalSpeedEarth (M : FloatMath K) : K := radians M 30

/-- The constant `orbitalSpeedMars = glm::radians(24.0f)`. -/
def orbitalSpeedMars (M : FloatMath K) : K := radians M 24

/-- The constant `orbitalSpeedJupiter = glm::radians(13.0f)`. -/
def orbitalSpeedJupiter (M : FloatMath K) : K := radians M 13

/-- The constant `orbitalSpeedSaturn = glm::radians(9.0f)`. -/
def orbitalSpeedSaturn (M : FloatMath K) : K := radians M 9

/-- The constant `orbitalSpeedUranus = glm::radians(6.0f)`. -/
def orbitalSpeedUranus (M : FloatMath K) : K := radians M 6

/-- The constant `orbitalSpeedNeptune = glm::radians(5.0f)`. -/
def orbitalSpeedNeptune (M : FloatMath K) : K := radians M 5

/-- The constant `orbitalSpeedMoon = glm::radians(100.0f)`. -/
def orbitalSpeedMoon (M : FloatMath K) : K := radians M 100

/-- The animation update at the top of the loop body: the spin angle advances by
`45 * dt` and each orbital angle by its speed times `dt`. -/
def updateAngles (M : FloatMath K) (dt : K) (s : State K) : State K :=
  { s with
    spinningAngle := s.spinningAngle + 45 * dt
    orbitalAngleMercury := s.orbitalAngleMercury + orbitalSpeedMercury M * dt
    orbitalAngleVenus := s.orbitalAngleVenus + orbitalSpeedVenus M * dt
    orbitalAngleEarth := s.orbitalAngleEarth + orbitalSpeedEarth M * dt
    orbitalAngleMars := s.orbitalAngleMars + orbitalSpeedMars M * dt
    orbitalAngleJupiter := s.orbitalAngleJupiter + orbitalSpeedJupiter M * dt
    orbitalAngleSaturn := s.orbitalAngleSaturn + orbitalSpeedSaturn M * dt
    orbitalAngleUranus := s.orbitalAngleUranus + orbitalSpeedUranus M * dt
    orbitalAngleNeptune := s.orbitalAngleNeptune + orbitalSpeedNeptune M * dt
    orbitalAngleMoon := s.orbitalAngleMoon + orbitalSpeedMoon M * dt }

/-- The matrix `sunWorldMatrix` of a frame. -/
def sunWorldMatrix (M : FloatMath K) (s : State K) : mat4 K :=
  translate (mat4.scalar 1) ⟨0, 0, 0⟩ *
  rotate M (mat4.scalar 1) (radians M s.spinningAngle) ⟨0, 1, 0⟩ *
  rotate M (mat4.scalar 1) (radians M (-90)) ⟨1, 0, 0⟩ *
  scale (mat4.scalar 1) (vec3.scalar 0.2)

/-- The matrix `mercuryPositionMatrix` of a frame. -/
def mercuryPositionMatrix (M : FloatMath K) (s : State K) : mat4 K :=
  rotate M (mat4.scalar 1) s.orbitalAngleMercury ⟨0, 1, 0⟩ *
  translate (mat4.scalar 1) ⟨4, 0, 0⟩

/-- The matrix `mercuryWorldMatrix` of a frame. -/
def mercuryWorldMatrix (M : FloatMath K) (s : State K) : mat4 K :=
  mercuryPositionMatrix M s *
  rotate M (mat4.scalar 1) (radians M s.spinningAngle) ⟨0, 1, 0⟩ *
  rotate M (mat4.scalar 1) (radians M (-90)) ⟨1, 0, 0⟩ *
  scale (mat4.scalar 1) (vec3.scalar 0.03)

/-- The matrix `venusPositionMatrix` of a frame. -/
def venusPositionMatrix (M : FloatMath K) (s : State K) : mat4 K :=
  rotate M (mat4.scalar 1) s.orbitalAngleVenus ⟨0, 1, 0⟩ *
  translate (mat4.scalar 1) ⟨7, 0, 0⟩

/-- The matrix `venusWorldMatrix` of a frame. -/
def venusWorldMatrix (M : FloatMath K) (s : State K) : mat4 K :=
  venusPositionMatrix M s *
  rotate M (mat4.scalar 1) (radians M s.spinningAngle) ⟨0, 1, 0⟩ *
  rotate M (mat4.scalar 1) (radians M (-90)) ⟨1, 0, 0⟩ *
  scale (mat4.scalar 1) (vec3.scalar 0.05)

/-- The matrix `earthPositionMatrix` of a frame. -/
def earthPositionMatrix (M : FloatMath K) (s : State K) : mat4 K :=
  rotate M (mat4.scalar 1) s.orbitalAngleEarth ⟨0, 1, 0⟩ *
  translate (mat4.scalar 1) ⟨10, 0, 0⟩

/-- The matrix `earthWorldMatrix` of a frame. -/
def earthWorldMatrix (M : FloatMath K) (s : State K) : mat4 K :=
  earthPositionMatrix M s *
  rotate M (mat4.scalar 1) (radians M s.spinningAngle) ⟨0, 1, 0⟩ *
  rotate M (mat4.scalar 1) (radians M (-90)) ⟨1, 0, 0⟩ *
  scale (mat4.scalar 1) (vec3.scalar 0.05)

/-- The matrix `moonPositionMatrix` of a frame. -/
def moonPositionMatrix (M : FloatMath K) (s : State K) : mat4 K :=
  earthPositionMatrix M s *
  rotate M (mat4.scalar 1) s.orbitalAngleMoon ⟨0, 1, 0⟩ *
  translate (mat4.scalar 1) ⟨0.5, 0, 0⟩

/-- The matrix `moonWorldMatrix` of a frame. -/
def moonWorldMatrix (M : FloatMath K) (s : State K) : mat4 K :=
  moonPositionMatrix M s *
  rotate M (mat4.scalar 1) (radians M s.spinningAngle) ⟨0, 1, 0⟩ *
  rotate M (mat4.scalar 1) (radians M (-90)) ⟨1, 0, 0⟩ *
  scale (mat4.scalar 1) (vec3.scalar 0.015)

/-- The matrix `marsPositionMatrix` of a frame. -/
def marsPositionMatrix (M : FloatMath K) (s : State K) : mat4 K :=
  rotate M (mat4.scalar 1) s.orbitalAngleMars ⟨0, 1, 0⟩ *
  translate (mat4.scalar 1) ⟨12, 0, 0⟩

/-- The matrix `marsWorldMatrix` of a frame. -/
def marsWorldMatrix (M : FloatMath K) (s : State K) : mat4 K :=
  marsPositionMatrix M s *
  rotate M (mat4.scalar 1) (radians M s.spinningAngle) ⟨0, 1, 0⟩ *
  rotate M (mat4.scalar 1) (radians M (-90)) ⟨1, 0, 0⟩ *
  scale (mat4.scalar 1) (vec3.scalar 0.04)

/-- The matrix `jupiterPositionMatrix` of a frame. -/
def jupiterPositionMatrix (M : FloatMath K) (s : State K) : mat4 K :=
  rotate M (mat4.scalar 1) s.orbitalAngleJupiter ⟨0, 1, 0⟩ *
  translate (mat4.scalar 1) ⟨15, 0, 0⟩

/-- The matrix `jupiterWorldMatrix` of a frame. -/
def jupiterWorldMatrix (M : FloatMath K) (s : State K) : mat4 K :=
  jupiterPositionMatrix M s *
  rotate M (mat4.scalar 1) (radians M s.spinningAngle) ⟨0, 1, 0⟩ *
  rotate M (mat4.scalar 1) (radians M (-90)) ⟨1, 0, 0⟩ *
  scale (mat4.scalar 1) (vec3.scalar 0.15)

/-- The matrix `saturnPositionMatrix` of a frame. -/
def saturnPositionMatrix (M : FloatMath K) (s : State K) : mat4 K :=
  rotate M (mat4.scalar 1) s.orbitalAngleSaturn ⟨0, 1, 0⟩ *
  translate (mat4.scalar 1) ⟨19, 0, 0⟩

/-- The matrix `saturnWorldMatrix` of a frame. -/
def saturnWorldMatrix (M : FloatMath K) (s : State K) : mat4 K :=
  saturnPositionMatrix M s *
  rotate M (mat4.scalar 1) (radians M s.spinningAngle) ⟨0, 1, 0⟩ *
  rotate M (mat4.scalar 1) (radians M (-90)) ⟨1, 0, 0⟩ *
  scale (mat4.scalar 1) (vec3.scalar 0.14)

/-- The matrix `uranusPositionMatrix` of a frame. -/
def uranusPositionMatrix (M : FloatMath K) (s : State K) : mat4 K :=
  rotate M (mat4.scalar 1) s.orbitalAngleUranus ⟨0, 1, 0⟩ *
  translate (mat4.scalar 1) ⟨23, 0, 0⟩

/-- The matrix `uranusWorldMatrix` of a frame. -/
def uranusWorldMatrix (M : FloatMath K) (s : State K) : mat4 K :=
  uranusPositionMatrix M s *
  rotate M (mat4.scalar 1) (radians M s.spinningAngle) ⟨0, 1, 0⟩ *
  rotate M (mat4.scalar 1) (radians M (-90)) ⟨1, 0, 0⟩ *
  scale (mat4.scalar 1) (vec3.scalar 0.07)

/-- The matrix `neptunePositionMatrix` of a frame. -/
def neptunePositionMatrix (M : FloatMath K) (s : State K) : mat4 K :=
  rotate M (mat4.scalar 1) s.orbitalAngleNeptune ⟨0, 1, 0⟩ *
  translate (mat4.scalar 1) ⟨26, 0, 0⟩

/-- The matrix `neptuneWorldMatrix` of a frame. -/
def neptuneWorldMatrix (M : FloatMath K) (s : State K) : mat4 K :=
  neptunePositionMatrix M s *
  rotate M (mat4.scalar 1) (radians M s.spinningAngle) ⟨0, 1, 0⟩ *
  rotate M (mat4.scalar 1) (radians M (-90)) ⟨1, 0, 0⟩ *
  scale (mat4.scalar 1) (vec3.scalar 0.07)

/-- The constant `cameraAngularSpeed`. -/
def cameraAngularSpeed : K := 15

/-- The look update of the loop body, from the cursor read to the assignment of
`cameraLookAt`: `(mousePosX, mousePosY)` is the cursor position read in this iteration and
`dt` the frame time. -/
def updateLook (M : FloatMath K) (mousePosX mousePosY dt : K) (s : State K) : State K :=
  let dx := mousePosX - s.lastMousePosX
  let dy := mousePosY - s.lastMousePosY
  let cameraHorizontalAngle := s.cameraHorizontalAngle - dx * cameraAngularSpeed * dt
  let cameraVerticalAngle := s.cameraVerticalAngle - dy * cameraAngularSpeed * dt
  let cameraVerticalAngle := stdMax (-85) (stdMin 85 cameraVerticalAngle)
  let theta := radians M cameraHorizontalAngle
  let phi := radians M cameraVerticalAngle
  { s with
    lastMousePosX := mousePosX
    lastMousePosY := mousePosY
    cameraHorizontalAngle := cameraHorizontalAngle
    cameraVerticalAngle := cameraVerticalAngle
    cameraLookAt := ⟨M.cos phi * M.cos theta, M.sin phi, -M.cos phi * M.sin theta⟩ }

/-- A finite run of look updates, one per frame; each input is the cursor position read
in that frame and the frame time, `(mousePosX, mousePosY, dt)`. -/
def updateLooks (M : FloatMath K) (s : State K) (inputs : List (K × K × K)) : State K :=
  inputs.foldl (fun st u => updateLook M u.1 u.2.1 u.2.2 st) s

end Assignment1

namespace project1

open glm

variable {K : Type} [LinearOrderedField K]

/-- The camera globals of the robot-arm program. -/
structure State (K : Type) where
  cameraPos : vec3 K
  cameraFront : vec3 K
  cameraUp : vec3 K
  yaw : K
  pitch : K
  lastX : K
  lastY : K
  firstMouse : Bool
  deltaTime : K
  lastFrame : K

/-- The globals as initialised at program start. -/
def initialState : State K :=
  { cameraPos := ⟨0, 1, 5⟩
    cameraFront := ⟨0, 0, -1⟩
    cameraUp := ⟨0, 1, 0⟩
    yaw := -90
    pitch := 0
    lastX := 400
    lastY := 300
    firstMouse := true
    deltaTime := 0
    lastFrame := 0 }

/-- The cursor callback `mouse_callback(window, xpos, ypos)`. -/
def mouse_callback (M : FloatMath K) (s : State K) (xpos ypos : K) : State K :=
  let lastX := if s.firstMouse then xpos else s.lastX
  let lastY := if s.firstMouse then ypos else s.lastY
  let firstMouse := if s.firstMouse then false else s.firstMouse
  let xoffset := xpos - lastX
  let yoffset := lastY - ypos
  let lastX := xpos
  let lastY := ypos
  let sensitivity : K := 0.1
  let xoffset := xoffset * sensitivity
  let yoffset := yoffset * sensitivity
  let yaw := s.yaw + xoffset
  let pitch := s.pitch + yoffset
  let pitch := if pitch > 89 then 89 else pitch
  let pitch := if pitch < -89 then -89 else pitch
  let direction : vec3 K :=
    ⟨M.cos (radians M yaw) * M.cos (radians M pitch),
     M.sin (radians M pitch),
     M.sin (radians M yaw) * M.cos (radians M pitch)⟩
  { s with
    lastX := lastX
    lastY := lastY
    firstMouse := firstMouse
    yaw := yaw
    pitch := pitch
    cameraFront := normalize M direction }

/-- A finite run of `mouse_callback` calls; each input is a cursor position
`(xpos, ypos)`. -/
def mouse_callbacks (M : FloatMath K) (s : State K) (calls : List (K × K)) : State K :=
  calls.foldl (fun st p => mouse_callback M st p.1 p.2) s

end project1

namespace Spec

open glm

variable {K : Type} [LinearOrderedField K]

/-- The translation matrix `T(x, y, z)` of the specification: the identity with
`(x, y, z)` as translation column. -/
def T (x y z : K) : mat4 K :=
  ⟨⟨1, 0, 0, 0⟩, ⟨0, 1, 0, 0⟩, ⟨0, 0, 1, 0⟩, ⟨x, y, z, 1⟩⟩

/-- The non-uniform scale matrix `S(sx, sy, sz)` of the specification. -/
def S3 (sx sy sz : K) : mat4 K :=
  ⟨⟨sx, 0, 0, 0⟩, ⟨0, sy, 0, 0⟩, ⟨0, 0, sz, 0⟩, ⟨0, 0, 0, 1⟩⟩

/-- The uniform scale matrix `S(s)` of the specification. -/
def S (s : K) : mat4 K := S3 s s s

/-- The rotation `R_y(θ)` of the specification, about the y axis by `θ` radians
(column-vector convention): rows `(cos θ, 0, sin θ)`, `(0, 1, 0)`, `(-sin θ, 0, cos θ)`. -/
def R_y (M : FloatMath K) (θ : K) : mat4 K :=
  ⟨⟨M.cos θ, 0, -M.sin θ, 0⟩, ⟨0, 1, 0, 0⟩, ⟨M.sin θ, 0, M.cos θ, 0⟩, ⟨0, 0, 0, 1⟩⟩

/-- The rotation `R_x(θ)` of the specification, about the x axis by `θ` radians
(column-vector convention): rows `(1, 0, 0)`, `(0, cos θ, -sin θ)`, `(0, sin θ, cos θ)`. -/
def R_x (M : FloatMath K) (θ : K) : mat4 K :=
  ⟨⟨1, 0, 0, 0⟩, ⟨0, M.cos θ, M.sin θ, 0⟩, ⟨0, -M.sin θ, M.cos θ, 0⟩, ⟨0, 0, 0, 1⟩⟩

/-- A point rotated about the y axis by `θ` radians. -/
def rotY (M : FloatMath K) (θ : K) (v : vec3 K) : vec3 K :=
  ⟨M.cos θ * v.x + M.sin θ * v.z, v.y, -M.sin θ * v.x + M.cos θ * v.z⟩

end Spec

/-! ## Camera movement, frames and start-up -/

namespace glm

variable {K : Type} [LinearOrderedField K]

/-- Modelled from the spec: `glm::cross` (GLM is not under src/), the vector product
`(x.y*y.z - y.y*x.z, x.z*y.x - y.z*x.x, x.x*y.y - y.x*x.y)`. -/
def cross (x y : vec3 K) : vec3 K :=
  ⟨x.y * y.z - y.y * x.z, x.z * y.x - y.z * x.x, x.x * y.y - y.x * x.y⟩

/-- Modelled from the spec: `glm::lookAt(eye, center, up)` (GLM is not under src/), the
right-handed look-at construction: `f = normalize(center - eye)`,
`s = normalize(cross(f, up))`, `u = cross(s, f)`, rows `s`, `u`, `-f` and translation
column `(-dot(s, eye), -dot(u, eye), dot(f, eye))`. -/
def lookAt (M : FloatMath K) (eye center up : vec3 K) : mat4 K :=
  let f := normalize M (center - eye)
  let s := normalize M (cross f up)
  let u := cross s f
  ⟨⟨s.x, u.x, -f.x, 0⟩,
   ⟨s.y, u.y, -f.y, 0⟩,
   ⟨s.z, u.z, -f.z, 0⟩,
   ⟨-dot s eye, -dot u eye, dot f eye, 1⟩⟩

/-- The homogeneous point `vec4(v, 1.0)`. -/
def vec4.point (v : vec3 K) : vec4 K := ⟨v.x, v.y, v.z, 1⟩

end glm

namespace Assignment1

open glm

variable {K : Type} [LinearOrderedField K]

/-- What one iteration of the frame loop reads from the outside: the clock reading of
`glfwGetTime()` at the top of the body, and the key states and cursor position read after
`glfwPollEvents()` at its end. -/
structure FrameInput (K : Type) where
  time : K
  keyEscape : Bool
  keyLeftShift : Bool
  keyRightShift : Bool
  keyW : Bool
  keyS : Bool
  keyD : Bool
  keyA : Bool
  mousePosX : K
  mousePosY : K

/-- The view matrix `lookAt(cameraPosition, cameraPosition + cameraLookAt, cameraUp)` built
from the camera of a state. -/
def viewMatrix (M : FloatMath K) (s : State K) : mat4 K :=
  lookAt M s.cameraPosition (s.cameraPosition + s.cameraLookAt) cameraUp

/-- The input handling at the end of the loop body, from the shift-key read to the last
`if`: the look update followed by the W, S, D, A moves.  The statement
`glm::normalize(cameraSideVector);` discards the vector it returns, so `cameraSideVector`
stays `cross(cameraLookAt, (0, 1, 0))`.  (`cameraFastSpeed` is `4 * cameraSpeed` here and
`2 * cameraSpeed` in the earlier revision `src/Assignment1.cpp`.) -/
def handleInputs (M : FloatMath K) (inp : FrameInput K) (dt : K) (s : State K) : State K :=
  let fastCam := inp.keyLeftShift || inp.keyRightShift
  let currentCameraSpeed : K := if fastCam then cameraFastSpeed else cameraSpeed
  let s := updateLook M inp.mousePosX inp.mousePosY dt s
  let cameraSideVector := cross s.cameraLookAt ⟨0, 1, 0⟩
  let _discarded := normalize M cameraSideVector
  let cameraPosition := s.cameraPosition
  let cameraPosition :=
    if inp.keyW then cameraPosition + s.cameraLookAt * dt * currentCameraSpeed
    else cameraPosition
  let cameraPosition :=
    if inp.keyS then cameraPosition - s.cameraLookAt * dt * currentCameraSpeed
    else cameraPosition
  let cameraPosition :=
    if inp.keyD then cameraPosition + cameraSideVector * dt * currentCameraSpeed
    else cameraPosition
  let cameraPosition :=
    if inp.keyA then cameraPosition - cameraSideVector * dt * currentCameraSpeed
    else cameraPosition
  { s with cameraPosition := cameraPosition }

/-- The three phases of an iteration of the frame loop. -/
inductive Phase where
  | inputSampling
  | stateAdvancement
  | drawCalls
deriving DecidableEq

/-- What one iteration of the frame loop produces: the frame time `dt`, the matrices handed
to the renderer (`setViewMatrix`, and `setWorldMatrix` in draw order), the phases in the
order in which the body runs them, whether the window was asked to close, and the
locals after the iteration. -/
structure FrameResult (K : Type) where
  dt : K
  viewMatrix : mat4 K
  worldMatrices : List (mat4 K)
  phases : List Phase
  shouldClose : Bool
  state : State K

/-- One iteration of the `while` loop of `main`, in source order: frame time, animation
update, draw calls with the view matrix of the current camera, then (after buffer swap and
event poll) the key and cursor reads with the camera update.  The frame time is computed
over exact arithmetic, as everything else here; `frameTime` is the same calculation with
the conversion of the `double` clock reading to the `float` variables `dt` and
`lastFrameTime`. -/
def frame (M : FloatMath K) (inp : FrameInput K) (s : State K) : FrameResult K :=
  let dt := inp.time - s.lastFrameTime
  let s := { s with lastFrameTime := s.lastFrameTime + dt }
  let s := updateAngles M dt s
  let phases := [Phase.stateAdvancement]
  let viewMatrix := viewMatrix M s
  let worldMatrices :=
    [sunWorldMatrix M s, mercuryWorldMatrix M s, venusWorldMatrix M s, earthWorldMatrix M s,
     moonWorldMatrix M s, marsWorldMatrix M s, jupiterWorldMatrix M s, saturnWorldMatrix M s,
     uranusWorldMatrix M s, neptuneWorldMatrix M s]
  let phases := phases ++ [Phase.drawCalls]
  let s := handleInputs M inp dt s
  let phases := phases ++ [Phase.inputSampling]
  { dt := dt
    viewMatrix := viewMatrix
    worldMatrices := worldMatrices
    phases := phases
    shouldClose := inp.keyEscape
    state := s }

/-- The locals after a run of iterations of the frame loop, one input per iteration. -/
def frames (M : FloatMath K) (s : State K) (inputs : List (FrameInput K)) : State K :=
  inputs.foldl (fun st inp => (frame M inp st).state) s

/-- The frame times `dt` of a run of iterations of the frame loop, in order. -/
def frameDeltas (M : FloatMath K) : State K → List (FrameInput K) → List K
  | _, [] => []
  | s, inp :: rest => (frame M inp s).dt :: frameDeltas M (frame M inp s).state rest

/-- The timestamp stored before the loop, `float lastFrameTime = glfwGetTime();`: the
`double` clock reading converted to `float` by `toFloat`. -/
def initialFrameTime (toFloat : K → K) (reading : K) : K := toFloat reading

/-- The frame-time calculation at the top of the loop body,
`float dt = glfwGetTime() - lastFrameTime; lastFrameTime += dt;`, with the conversions to
`float` that the declared types imply made explicit by `toFloat`: the difference of the
`double` reading and the stored `float` is converted to the `float` `dt`, and the sum is
stored in the `float` `lastFrameTime`.  The result is the pair `(dt, lastFrameTime)`; with
`toFloat = id` it is the calculation of `frame`. -/
def frameTime (toFloat : K → K) (lastFrameTime reading : K) : K × K :=
  let dt := toFloat (reading - lastFrameTime)
  (dt, toFloat (lastFrameTime + dt))

/-- The frame times `dt` of a run of iterations with the given clock readings, under the
conversion `toFloat`. -/
def frameTimes (toFloat : K → K) : K → List K → List K
  | _, [] => []
  | lastFrameTime, reading :: rest =>
      (frameTime toFloat lastFrameTime reading).1 ::
        frameTimes toFloat (frameTime toFloat lastFrameTime reading).2 rest

/-- An observable effect of start-up: a diagnostic line written to `std::cerr` or
`std::cout`, a call of `glfwTerminate`, the entry into the frame loop, or the return from
`main` with an exit code. -/
inductive Effect where
  | print (msg : String)
  | glfwTerminate
  | frameLoop
  | ret (code : Int)
deriving DecidableEq

/-- The outcomes of the external calls made during start-up. -/
structure Env where
  windowCreated : Bool
  glewOk : Bool
  stbiLoaded : String → Bool
  textureName : String → Nat
  vertexCompiled : Bool
  fragmentCompiled : Bool
  linked : Bool
  shaderProgram : Int

/-- The function `loadTexture(filename)`: on a failed `stbi_load` it writes a diagnostic
and returns 0, otherwise it returns the generated texture name. -/
def loadTexture (env : Env) (filename : String) : List Effect × Nat :=
  if !env.stbiLoaded filename then
    ([Effect.print ("Failed to load texture: " ++ filename)], 0)
  else
    ([], env.textureName filename)

/-- The ten texture files loaded by `main`, in order. -/
def textureFiles : List String :=
  ["Textures/sun.jpg", "Textures/mercury.jpg", "Textures/venus.jpg", "Textures/earth.jpg",
   "Textures/mars.jpg", "Textures/jupiter.jpg", "Textures/saturn.jpg", "Textures/uranus.jpg",
   "Textures/neptune.jpg", "Textures/moon.jpg"]

/-- The function `compileAndLinkShaders`: each failed compile or link status writes a
diagnostic; the program id is returned in every case. -/
def compileAndLinkShaders (env : Env) : List Effect × Int :=
  let e1 := if !env.vertexCompiled then
    [Effect.print "ERROR::SHADER::VERTEX::COMPILATION_FAILED"] else []
  let e2 := if !env.fragmentCompiled then
    [Effect.print "ERROR::SHADER::FRAGMENT::COMPILATION_FAILED"] else []
  let e3 := if !env.linked then
    [Effect.print "ERROR::SHADER::PROGRAM::LINKING_FAILED"] else []
  (e1 ++ e2 ++ e3, env.shaderProgram)

/-- The function `main` up to the frame loop and after it, as the list of its observable
effects (the informational line with the working directory left out): window and GLEW
failures return -1 after `glfwTerminate`; the values returned by
`loadTexture` and `compileAndLinkShaders` are stored and not inspected. -/
def main (env : Env) : List Effect :=
  if !env.windowCreated then
    [Effect.print "Failed to create GLFW window", Effect.glfwTerminate, Effect.ret (-1)]
  else if !env.glewOk then
    [Effect.print "Failed to create GLEW", Effect.glfwTerminate, Effect.ret (-1)]
  else
    (textureFiles.map (fun f => (loadTexture env f).1)).flatten ++
    (compileAndLinkShaders env).1 ++
    [Effect.frameLoop, Effect.glfwTerminate, Effect.ret 0]

end Assignment1

namespace project1

open glm

variable {K : Type} [LinearOrderedField K]

/-- The function `processInput(window)`: `currentFrame` is the clock reading of
`glfwGetTime()` and `keyW`, `keyS`, `keyA`, `keyD` say which keys are pressed.  The
arithmetic is exact; `frameTime` is the frame-time calculation with the conversion of the
`double` clock reading to the `float` variable `currentFrame`. -/
def processInput (M : FloatMath K) (s : State K) (currentFrame : K)
    (keyW keyS keyA keyD : Bool) : State K :=
  let deltaTime := currentFrame - s.lastFrame
  let lastFrame := currentFrame
  let cameraSpeed := 2.5 * deltaTime
  let cameraPos := s.cameraPos
  let cameraPos := if keyW then cameraPos + cameraSpeed * s.cameraFront else cameraPos
  let cameraPos := if keyS then cameraPos - cameraSpeed * s.cameraFront else cameraPos
  let cameraPos :=
    if keyA then cameraPos - normalize M (cross s.cameraFront s.cameraUp) * cameraSpeed
    else cameraPos
  let cameraPos :=
    if keyD then cameraPos + normalize M (cross s.cameraFront s.cameraUp) * cameraSpeed
    else cameraPos
  { s with deltaTime := deltaTime, lastFrame := lastFrame, cameraPos := cameraPos }

/-- The view matrix `lookAt(cameraPos, cameraPos + cameraFront, cameraUp)` of the loop
body. -/
def view (M : FloatMath K) (s : State K) : mat4 K :=
  lookAt M s.cameraPos (s.cameraPos + s.cameraFront) s.cameraUp

/-- A call that changes the camera globals: the cursor callback or `processInput`. -/
inductive Event (K : Type) where
  | mouse (xpos ypos : K)
  | input (currentFrame : K) (keyW keyS keyA keyD : Bool)

/-- The effect of one call on the camera globals. -/
def step (M : FloatMath K) (s : State K) : Event K → State K
  | Event.mouse xpos ypos => mouse_callback M s xpos ypos
  | Event.input currentFrame keyW keyS keyA keyD =>
      processInput M s currentFrame keyW keyS keyA keyD

/-- The camera globals after a finite sequence of calls. -/
def run (M : FloatMath K) (s : State K) (events : List (Event K)) : State K :=
  events.foldl (step M) s

/-- The values of `deltaTime` after each of a run of `processInput` calls, one clock
reading and key state per call. -/
def deltaTimes (M : FloatMath K) :
    State K → List (K × Bool × Bool × Bool × Bool) → List K
  | _, [] => []
  | s, c :: rest =>
      (processInput M s c.1 c.2.1 c.2.2.1 c.2.2.2.1 c.2.2.2.2).deltaTime ::
        deltaTimes M (processInput M s c.1 c.2.1 c.2.2.1 c.2.2.2.1 c.2.2.2.2) rest

/-- The camera globals after a run of `processInput` calls. -/
def processInputs (M : FloatMath K) (s : State K)
    (calls : List (K × Bool × Bool × Bool × Bool)) : State K :=
  calls.foldl (fun st c => processInput M st c.1 c.2.1 c.2.2.1 c.2.2.2.1 c.2.2.2.2) s

/-- The frame-time lines of `processInput`,
`float currentFrame = glfwGetTime(); deltaTime = currentFrame - lastFrame;
lastFrame = currentFrame;`, with the conversions to `float` made explicit by `toFloat`: the
`double` reading is converted to the `float` `currentFrame`, and the difference of the two
`float` values is a `float`.  The result is the pair `(deltaTime, lastFrame)`; with
`toFloat = id` it is the calculation of `processInput`. -/
def frameTime (toFloat : K → K) (lastFrame reading : K) : K × K :=
  let currentFrame := toFloat reading
  (toFloat (currentFrame - lastFrame), currentFrame)

/-- The values of `deltaTime` of a run of `processInput` calls with the given clock
readings, under the conversion `toFloat`. -/
def frameTimes (toFloat : K → K) : K → List K → List K
  | _, [] => []
  | lastFrame, reading :: rest =>
      (frameTime toFloat lastFrame reading).1 ::
        frameTimes toFloat (frameTime toFloat lastFrame reading).2 rest

/-- An observable effect of start-up: a diagnostic line written to `std::cout`, a call of
`glfwTerminate`, the entry into the frame loop, or the return from `main` with an exit
code. -/
inductive Effect where
  | print (msg : String)
  | glfwTerminate
  | frameLoop
  | ret (code : Int)
deriving DecidableEq

/-- The outcomes of the external calls made during start-up; `program` is the value of
`glCreateProgram()`. -/
structure Env where
  glfwInitOk : Bool
  windowCreated : Bool
  glewOk : Bool
  vertexCompiled : Bool
  fragmentCompiled : Bool
  linked : Bool
  program : Nat

/-- The function `compileShader(type, source)`: on a failed compile it writes a diagnostic
and returns 0, otherwise the shader id `id`. -/
def compileShader (compiled : Bool) (kind : String) (id : Nat) : List Effect × Nat :=
  if !compiled then
    ([Effect.print ("Failed to compile " ++ kind ++ " shader: ")], 0)
  else
    ([], id)

/-- The function `createShaderProgram()`: the two shaders are compiled and attached whatever
`compileShader` returned; a failed link writes a diagnostic and returns 0, otherwise the
program id is returned.  (The shader ids themselves are not observable here; 1 and 2 stand
for them.) -/
def createShaderProgram (env : Env) : List Effect × Nat :=
  let vs := compileShader env.vertexCompiled "vertex" 1
  let fs := compileShader env.fragmentCompiled "fragment" 2
  if !env.linked then
    (vs.1 ++ fs.1 ++ [Effect.print "Failed to link shader program: "], 0)
  else
    (vs.1 ++ fs.1, env.program)

/-- The function `main` up to the frame loop and after it, as the list of its observable
effects. -/
def main (env : Env) : List Effect :=
  if !env.glfwInitOk then
    [Effect.print "Failed to initialize GLFW", Effect.ret (-1)]
  else if !env.windowCreated then
    [Effect.print "Failed to create GLFW window", Effect.glfwTerminate, Effect.ret (-1)]
  else if !env.glewOk then
    [Effect.print "Failed to initialize GLEW", Effect.ret (-1)]
  else
    let shaderProgram := createShaderProgram env
    if shaderProgram.2 = 0 then
      shaderProgram.1 ++ [Effect.print "Shader program creation failed", Effect.ret (-1)]
    else
      shaderProgram.1 ++ [Effect.frameLoop, Effect.glfwTerminate, Effect.ret 0]

end project1

/-! ## Projection, cube mesh, procedural textures and robot-arm model matrices -/

namespace glm

variable {K : Type} [LinearOrderedField K]

/-- GLM `vec2`. -/
@[ext]
structure vec2 (K : Type) where
  x : K
  y : K
deriving DecidableEq

/-- Modelled from the spec: `glm::perspective(fovy, aspect, zNear, zFar)` (GLM is not under
src/), the right-handed perspective projection with depth range -1 to 1; `fovy` is the
vertical field of view in radians, `tanHalfFovy = tan(fovy / 2)`. -/
def perspective (M : FloatMath K) (fovy aspect zNear zFar : K) : mat4 K :=
  let tanHalfFovy := M.tan (fovy / 2)
  ⟨⟨1 / (aspect * tanHalfFovy), 0, 0, 0⟩,
   ⟨0, 1 / tanHalfFovy, 0, 0⟩,
   ⟨0, 0, -(zFar + zNear) / (zFar - zNear), -1⟩,
   ⟨0, 0, -(2 * zFar * zNear) / (zFar - zNear), 0⟩⟩

end glm

namespace Assignment1

open glm

variable {K : Type} [LinearOrderedField K]

/-- The matrix `projectionMatrix` set once before the loop:
`glm::perspective(70.0f, 800.0f / 600.0f, 0.01f, 100.0f)`; the source comments the first
argument as "field of view in degrees". -/
def projectionMatrix (M : FloatMath K) : mat4 K :=
  perspective M 70 (800 / 600) 0.01 100

end Assignment1

namespace project1

open glm

variable {K : Type} [LinearOrderedField K]

/-- The vertex record `Vertex`. -/
structure Vertex (K : Type) where
  position : vec3 K
  texCoord : vec2 K
  normal : vec3 K

/-- The function `getCubeVertices()`: four vertices for each of the faces front, back, top,
bottom, right, left. -/
def getCubeVertices : List (Vertex K) :=
  [ -- Front face
    ⟨⟨-0.5, -0.5, 0.5⟩, ⟨0, 0⟩, ⟨0, 0, 1⟩⟩,
    ⟨⟨0.5, -0.5, 0.5⟩, ⟨1, 0⟩, ⟨0, 0, 1⟩⟩,
    ⟨⟨0.5, 0.5, 0.5⟩, ⟨1, 1⟩, ⟨0, 0, 1⟩⟩,
    ⟨⟨-0.5, 0.5, 0.5⟩, ⟨0, 1⟩, ⟨0, 0, 1⟩⟩,
    -- Back face
    ⟨⟨-0.5, -0.5, -0.5⟩, ⟨0, 0⟩, ⟨0, 0, -1⟩⟩,
    ⟨⟨0.5, -0.5, -0.5⟩, ⟨1, 0⟩, ⟨0, 0, -1⟩⟩,
    ⟨⟨0.5, 0.5, -0.5⟩, ⟨1, 1⟩, ⟨0, 0, -1⟩⟩,
    ⟨⟨-0.5, 0.5, -0.5⟩, ⟨0, 1⟩, ⟨0, 0, -1⟩⟩,
    -- Top face
    ⟨⟨-0.5, 0.5, -0.5⟩, ⟨0, 0⟩, ⟨0, 1, 0⟩⟩,
    ⟨⟨0.5, 0.5, -0.5⟩, ⟨1, 0⟩, ⟨0, 1, 0⟩⟩,
    ⟨⟨0.5, 0.5, 0.5⟩, ⟨1, 1⟩, ⟨0, 1, 0⟩⟩,
    ⟨⟨-0.5, 0.5, 0.5⟩, ⟨0, 1⟩, ⟨0, 1, 0⟩⟩,
    -- Bottom face
    ⟨⟨-0.5, -0.5, -0.5⟩, ⟨0, 0⟩, ⟨0, -1, 0⟩⟩,
    ⟨⟨0.5, -0.5, -0.5⟩, ⟨1, 0⟩, ⟨0, -1, 0⟩⟩,
    ⟨⟨0.5, -0.5, 0.5⟩, ⟨1, 1⟩, ⟨0, -1, 0⟩⟩,
    ⟨⟨-0.5, -0.5, 0.5⟩, ⟨0, 1⟩, ⟨0, -1, 0⟩⟩,
    -- Right face
    ⟨⟨0.5, -0.5, -0.5⟩, ⟨0, 0⟩, ⟨1, 0, 0⟩⟩,
    ⟨⟨0.5, 0.5, -0.5⟩, ⟨1, 0⟩, ⟨1, 0, 0⟩⟩,
    ⟨⟨0.5, 0.5, 0.5⟩, ⟨1, 1⟩, ⟨1, 0, 0⟩⟩,
    ⟨⟨0.5, -0.5, 0.5⟩, ⟨0, 1⟩, ⟨1, 0, 0⟩⟩,
    -- Left face
    ⟨⟨-0.5, -0.5, -0.5⟩, ⟨1, 0⟩, ⟨-1, 0, 0⟩⟩,
    ⟨⟨-0.5, 0.5, -0.5⟩, ⟨0, 0⟩, ⟨-1, 0, 0⟩⟩,
    ⟨⟨-0.5, 0.5, 0.5⟩, ⟨0, 1⟩, ⟨-1, 0, 0⟩⟩,
    ⟨⟨-0.5, -0.5, 0.5⟩, ⟨1, 1⟩, ⟨-1, 0, 0⟩⟩ ]

/-- The function `getCubeIndices()`: six indices for each of the faces front, back, top,
bottom, right, left. -/
def getCubeIndices : List Nat :=
  [ 0, 1, 2, 2, 3, 0,
    4, 5, 6, 6, 7, 4,
    8, 9, 10, 10, 11, 8,
    12, 13, 14, 14, 15, 12,
    16, 17, 18, 18, 19, 17,
    20, 21, 22, 22, 23, 20 ]

/-- The element count passed to every `glDrawElements` call of the loop. -/
def drawElementsCount : Nat := 36

/-- The normal carried by the vertex with index `i`, if `i` is in range. -/
def normalOf (K : Type) [LinearOrderedField K] (i : Nat) : Option (vec3 K) :=
  ((getCubeVertices : List (Vertex K))[i]?).map (fun v => v.normal)

/-- The constant `TEX_SIZE`. -/
def TEX_SIZE : Nat := 16

/-- The body of the loops of texture 1 (checkerboard red/white) at `(x, y)`: the three
stores `texData1[idx] = ..`, `texData1[idx+1] = ..`, `texData1[idx+2] = ..`, as
(index, value) pairs in source order. -/
def texel1 (x y : Nat) : List (Nat × Nat) :=
  let idx := (y * TEX_SIZE + x) * 3
  if (x / 4 + y / 4) % 2 = 0 then [(idx, 255), (idx + 1, 0), (idx + 2, 0)]
  else [(idx, 255), (idx + 1, 255), (idx + 2, 255)]

/-- The body of the loops of texture 2 (blue/green stripes) at `(x, y)`. -/
def texel2 (x y : Nat) : List (Nat × Nat) :=
  let idx := (y * TEX_SIZE + x) * 3
  if (x / 4) % 2 = 0 then [(idx, 0), (idx + 1, 0), (idx + 2, 255)]
  else [(idx, 0), (idx + 1, 255), (idx + 2, 0)]

/-- The body of the loops of texture 3 (yellow/black checker) at `(x, y)`. -/
def texel3 (x y : Nat) : List (Nat × Nat) :=
  let idx := (y * TEX_SIZE + x) * 3
  if (x / 4 + y / 4) % 2 = 0 then [(idx, 255), (idx + 1, 255), (idx + 2, 0)]
  else [(idx, 0), (idx + 1, 0), (idx + 2, 0)]

/-- The body of the loops of the floor texture (gray stripes) at `(x, y)`. -/
def texel4 (x y : Nat) : List (Nat × Nat) :=
  let idx := (y * TEX_SIZE + x) * 3
  if (y / 4) % 2 = 0 then [(idx, 128), (idx + 1, 128), (idx + 2, 128)]
  else [(idx, 64), (idx + 1, 64), (idx + 2, 64)]

/-- The stores made by the nested loops `for y .. for x ..` with the given body, in
execution order. -/
def loopStores (body : Nat → Nat → List (Nat × Nat)) : List (Nat × Nat) :=
  (List.range TEX_SIZE).flatMap (fun y => (List.range TEX_SIZE).flatMap (fun x => body x y))

/-- One store `buffer[index] = value` into a byte buffer; `none` is a byte not yet
written. -/
def store (buf : List (Option Nat)) (w : Nat × Nat) : List (Option Nat) :=
  buf.set w.1 (some w.2)

/-- The buffer `unsigned char texData[TEX_SIZE * TEX_SIZE * 3]` after the loops with the
given body, starting from an uninitialised buffer. -/
def texData (body : Nat → Nat → List (Nat × Nat)) : List (Option Nat) :=
  (loopStores body).foldl store (List.replicate (TEX_SIZE * TEX_SIZE * 3) none)

/-- The buffer `texData1` handed to `createProceduralTexture`. -/
def texData1 : List (Option Nat) := texData texel1

/-- The three bytes of the texel `(x, y)` of a buffer, at `(y*TEX_SIZE + x)*3 .. +2`. -/
def readTexel (buf : List (Option Nat)) (x y : Nat) : Option Nat × Option Nat × Option Nat :=
  (buf.getD ((y * TEX_SIZE + x) * 3) none,
   buf.getD ((y * TEX_SIZE + x) * 3 + 1) none,
   buf.getD ((y * TEX_SIZE + x) * 3 + 2) none)

/-- The matrix `modelBase` of the loop body. -/
def modelBase : mat4 K :=
  scale (mat4.scalar 1) ⟨1.5, 0.5, 1.5⟩

/-- The matrix `modelArm1` of the loop body; `time` is the clock reading
`glfwGetTime()` of the iteration. -/
def modelArm1 (M : FloatMath K) (time : K) : mat4 K :=
  modelBase * translate (mat4.scalar 1) ⟨0, 1, 0⟩ *
  rotate M (mat4.scalar 1) (time * 1) ⟨0, 1, 0⟩ *
  scale (mat4.scalar 1) ⟨0.5, 1, 0.5⟩

/-- The matrix `modelArm2` of the loop body. -/
def modelArm2 (M : FloatMath K) (time : K) : mat4 K :=
  modelArm1 M time * translate (mat4.scalar 1) ⟨0, 1, 0⟩ *
  rotate M (mat4.scalar 1) (time * 2) ⟨0, 1, 0⟩ *
  scale (mat4.scalar 1) ⟨0.5, 1, 0.5⟩

end project1

namespace project1

/-- The byte index map of the texture loops, `(x, y, c) ↦ (y*TEX_SIZE + x)*3 + c`. -/
def byteIndex (x y c : Nat) : Nat := (y * TEX_SIZE + x) * 3 + c

end project1

/-! ## Lemmas on the vector and matrix operations -/

namespace glm

variable {K : Type} [LinearOrderedField K]

theorem vec3_add_def (a b : vec3 K) : a + b = ⟨a.x + b.x, a.y + b.y, a.z + b.z⟩ := rfl

theorem vec3_sub_def (a b : vec3 K) : a - b = ⟨a.x - b.x, a.y - b.y, a.z - b.z⟩ := rfl

theorem vec3_muls_def (a : vec3 K) (s : K) : a * s = ⟨a.x * s, a.y * s, a.z * s⟩ := rfl

theorem vec3_smul_def (s : K) (a : vec3 K) : s * a = ⟨s * a.x, s * a.y, s * a.z⟩ := rfl

theorem vec4_add_def (a b : vec4 K) :
    a + b = ⟨a.x + b.x, a.y + b.y, a.z + b.z, a.w + b.w⟩ := rfl

theorem vec4_muls_def (a : vec4 K) (s : K) : a * s = ⟨a.x * s, a.y * s, a.z * s, a.w * s⟩ := rfl

theorem mat4_mulVec_def (m : mat4 K) (v : vec4 K) :
    m * v = m.c0 * v.x + m.c1 * v.y + m.c2 * v.z + m.c3 * v.w := rfl

theorem mat4_mul_def (a b : mat4 K) :
    a * b =
      ⟨a.c0 * b.c0.x + a.c1 * b.c0.y + a.c2 * b.c0.z + a.c3 * b.c0.w,
       a.c0 * b.c1.x + a.c1 * b.c1.y + a.c2 * b.c1.z + a.c3 * b.c1.w,
       a.c0 * b.c2.x + a.c1 * b.c2.y + a.c2 * b.c2.z + a.c3 * b.c2.w,
       a.c0 * b.c3.x + a.c1 * b.c3.y + a.c2 * b.c3.z + a.c3 * b.c3.w⟩ := rfl

/-- Column `j` of a product is the left factor applied to column `j` of the right one. -/
theorem mat4_mul_c3 (a b : mat4 K) : (a * b).c3 = a * b.c3 := rfl

/-- The product `mat4 * mat4` is associative. -/
theorem mat4_mul_assoc (a b c : mat4 K) : a * b * c = a * (b * c) := by
  simp only [mat4_mul_def, vec4_add_def, vec4_muls_def]
  ext <;> simp only <;> ring

/-- The result of `glm::translate` on the identity is the translation matrix of the specification. -/
theorem translate_one (x y z : K) : translate (mat4.scalar 1) ⟨x, y, z⟩ = Spec.T x y z := by
  simp [translate, mat4.scalar, Spec.T, vec4_add_def, vec4_muls_def]

/-- The result of `glm::scale` on the identity is the scale matrix of the specification. -/
theorem scale_one (v : vec3 K) : scale (mat4.scalar 1) v = Spec.S3 v.x v.y v.z := by
  simp [scale, mat4.scalar, Spec.S3, vec4_muls_def]

/-- The result of `glm::scale` on the identity with `vec3(s)` is the uniform scale of the specification. -/
theorem scale_one_scalar (s : K) : scale (mat4.scalar 1) (vec3.scalar s) = Spec.S s := by
  rw [scale_one]; rfl

/-- The result of `glm::rotate` on the identity about `(0, 1, 0)` is `R_y`. -/
theorem rotate_one_y (θ : ℝ) :
    rotate realMath (mat4.scalar 1) θ ⟨0, 1, 0⟩ = Spec.R_y realMath θ := by
  simp [rotate, normalize, dot, realMath, mat4.scalar, Spec.R_y, vec3_muls_def, vec3_smul_def,
    vec4_add_def, vec4_muls_def]

/-- The result of `glm::rotate` on the identity about `(1, 0, 0)` is `R_x`. -/
theorem rotate_one_x (θ : ℝ) :
    rotate realMath (mat4.scalar 1) θ ⟨1, 0, 0⟩ = Spec.R_x realMath θ := by
  simp [rotate, normalize, dot, realMath, mat4.scalar, Spec.R_x, vec3_muls_def, vec3_smul_def,
    vec4_add_def, vec4_muls_def]

end glm

/-! ## Solar system: world matrices -/

namespace Assignment1

open glm

/-- C1: for every state of a frame (one spin angle, arbitrary orbital angles) each of the
eight planets' world matrices equals
`R_y(a) * T(r,0,0) * R_y(radians(spinningAngle)) * R_x(radians(-90)) * S(s)`, multiplied
left to right, with `(r, s)` = Mercury (4, 0.03), Venus (7, 0.05), Earth (10, 0.05),
Mars (12, 0.04), Jupiter (15, 0.15), Saturn (19, 0.14), Uranus (23, 0.07),
Neptune (26, 0.07), `a` the planet's own orbital angle and the same `spinningAngle` in all
eight. -/
theorem planet_world_matrices (s : State ℝ) :
    mercuryWorldMatrix realMath s =
        Spec.R_y realMath s.orbitalAngleMercury * Spec.T 4 0 0 *
          Spec.R_y realMath (radians realMath s.spinningAngle) *
          Spec.R_x realMath (radians realMath (-90)) * Spec.S 0.03 ∧
    venusWorldMatrix realMath s =
        Spec.R_y realMath s.orbitalAngleVenus * Spec.T 7 0 0 *
          Spec.R_y realMath (radians realMath s.spinningAngle) *
          Spec.R_x realMath (radians realMath (-90)) * Spec.S 0.05 ∧
    earthWorldMatrix realMath s =
        Spec.R_y realMath s.orbitalAngleEarth * Spec.T 10 0 0 *
          Spec.R_y realMath (radians realMath s.spinningAngle) *
          Spec.R_x realMath (radians realMath (-90)) * Spec.S 0.05 ∧
    marsWorldMatrix realMath s =
        Spec.R_y realMath s.orbitalAngleMars * Spec.T 12 0 0 *
          Spec.R_y realMath (radians realMath s.spinningAngle) *
          Spec.R_x realMath (radians realMath (-90)) * Spec.S 0.04 ∧
    jupiterWorldMatrix realMath s =
        Spec.R_y realMath s.orbitalAngleJupiter * Spec.T 15 0 0 *
          Spec.R_y realMath (radians realMath s.spinningAngle) *
          Spec.R_x realMath (radians realMath (-90)) * Spec.S 0.15 ∧
    saturnWorldMatrix realMath s =
        Spec.R_y realMath s.orbitalAngleSaturn * Spec.T 19 0 0 *
          Spec.R_y realMath (radians realMath s.spinningAngle) *
          Spec.R_x realMath (radians realMath (-90)) * Spec.S 0.14 ∧
    uranusWorldMatrix realMath s =
        Spec.R_y realMath s.orbitalAngleUranus * Spec.T 23 0 0 *
          Spec.R_y realMath (radians realMath s.spinningAngle) *
          Spec.R_x realMath (radians realMath (-90)) * Spec.S 0.07 ∧
    neptuneWorldMatrix realMath s =
        Spec.R_y realMath s.orbitalAngleNeptune * Spec.T 26 0 0 *
          Spec.R_y realMath (radians realMath s.spinningAngle) *
          Spec.R_x realMath (radians realMath (-90)) * Spec.S 0.07 := by
  refine ⟨?_, ?_, ?_, ?_, ?_, ?_, ?_, ?_⟩
  · simp only [mercuryWorldMatrix, mercuryPositionMatrix, rotate_one_y, rotate_one_x,
      translate_one, scale_one_scalar]
  · simp only [venusWorldMatrix, venusPositionMatrix, rotate_one_y, rotate_one_x,
      translate_one, scale_one_scalar]
  · simp only [earthWorldMatrix, earthPositionMatrix, rotate_one_y, rotate_one_x,
      translate_one, scale_one_scalar]
  · simp only [marsWorldMatrix, marsPositionMatrix, rotate_one_y, rotate_one_x,
      translate_one, scale_one_scalar]
  · simp only [jupiterWorldMatrix, jupiterPositionMatrix, rotate_one_y, rotate_one_x,
      translate_one, scale_one_scalar]
  · simp only [saturnWorldMatrix, saturnPositionMatrix, rotate_one_y, rotate_one_x,
      translate_one, scale_one_scalar]
  · simp only [uranusWorldMatrix, uranusPositionMatrix, rotate_one_y, rotate_one_x,
      translate_one, scale_one_scalar]
  · simp only [neptuneWorldMatrix, neptunePositionMatrix, rotate_one_y, rotate_one_x,
      translate_one, scale_one_scalar]

end Assignment1

namespace Assignment1

open glm

/-- The translation column of a product of the five factors of a world matrix whose first
factor is a position matrix `P`: the spin, axis-alignment and scale factors leave it
unchanged. -/
theorem world_c3 (P : mat4 ℝ) (a b sc : ℝ) :
    (P * Spec.R_y realMath a * Spec.R_x realMath b * Spec.S sc).c3 = P.c3 := by
  simp only [mat4_mul_c3, Spec.S, Spec.S3, Spec.R_x, Spec.R_y, mat4_mulVec_def]
  simp only [vec4_add_def, vec4_muls_def]
  ext <;> simp

/-- C2, as stated, fails: at the initial state (all angles zero) the moon's world matrix
has translation column `(10.5, 0, 0)`, while the product that starts from the earth's full
world matrix has translation column `(10.025, 0, 0)`. -/
theorem moon_parent_is_not_earth_world :
    (moonWorldMatrix realMath (initialState 0 0 0)).position = ⟨10.5, 0, 0⟩ ∧
    (earthWorldMatrix realMath (initialState 0 0 0) *
        Spec.R_y realMath (initialState (0 : ℝ) 0 0).orbitalAngleMoon * Spec.T 0.5 0 0 *
        Spec.R_y realMath (radians realMath (initialState (0 : ℝ) 0 0).spinningAngle) *
        Spec.R_x realMath (radians realMath (-90)) * Spec.S 0.015).position
      = ⟨10.025, 0, 0⟩ ∧
    moonWorldMatrix realMath (initialState 0 0 0) ≠
      earthWorldMatrix realMath (initialState 0 0 0) *
        Spec.R_y realMath (initialState (0 : ℝ) 0 0).orbitalAngleMoon * Spec.T 0.5 0 0 *
        Spec.R_y realMath (radians realMath (initialState (0 : ℝ) 0 0).spinningAngle) *
        Spec.R_x realMath (radians realMath (-90)) * Spec.S 0.015 := by
  have h1 : (moonWorldMatrix realMath (initialState 0 0 0)).position = ⟨10.5, 0, 0⟩ := by
    simp only [moonWorldMatrix, moonPositionMatrix, earthPositionMatrix,
      rotate_one_y, rotate_one_x, translate_one, scale_one_scalar, world_c3, mat4.position]
    simp only [mat4_mul_def, Spec.R_y, Spec.T, vec4_add_def, vec4_muls_def, initialState,
      realMath]
    ext <;> norm_num
  have h2 : (earthWorldMatrix realMath (initialState 0 0 0) *
        Spec.R_y realMath (initialState (0 : ℝ) 0 0).orbitalAngleMoon * Spec.T 0.5 0 0 *
        Spec.R_y realMath (radians realMath (initialState (0 : ℝ) 0 0).spinningAngle) *
        Spec.R_x realMath (radians realMath (-90)) * Spec.S 0.015).position
      = ⟨10.025, 0, 0⟩ := by
    simp only [earthWorldMatrix, earthPositionMatrix,
      rotate_one_y, rotate_one_x, translate_one, scale_one_scalar, world_c3, mat4.position]
    simp only [mat4_mul_def, Spec.R_y, Spec.R_x, Spec.S, Spec.S3, Spec.T, vec4_add_def,
      vec4_muls_def, initialState, realMath, radians]
    ext <;> norm_num
  refine ⟨h1, h2, ?_⟩
  intro h
  rw [h, h2] at h1
  have hx := congrArg vec3.x h1
  norm_num at hx

/-- C2, amended: the moon's world matrix is built from the earth's position matrix of the
same frame, `earthPositionMatrix = R_y(orbitalAngleEarth) * T(10,0,0)` (orbit rotation and
translation only): `moonWorldMatrix = earthPositionMatrix * R_y(orbitalAngleMoon) *
T(0.5,0,0) * R_y(radians(spinningAngle)) * R_x(radians(-90)) * S(0.015)`. -/
theorem moon_world_matrix (s : State ℝ) :
    moonWorldMatrix realMath s =
        earthPositionMatrix realMath s *
          Spec.R_y realMath s.orbitalAngleMoon * Spec.T 0.5 0 0 *
          Spec.R_y realMath (radians realMath s.spinningAngle) *
          Spec.R_x realMath (radians realMath (-90)) * Spec.S 0.015 ∧
    earthPositionMatrix realMath s = Spec.R_y realMath s.orbitalAngleEarth * Spec.T 10 0 0 := by
  constructor
  · simp only [moonWorldMatrix, moonPositionMatrix, rotate_one_y, rotate_one_x,
      translate_one, scale_one_scalar]
  · simp only [earthPositionMatrix, rotate_one_y, translate_one]

end Assignment1

namespace Assignment1

open glm

/-- The earth's world position in terms of its orbital angle. -/
theorem earth_position_eq (s : State ℝ) :
    (earthWorldMatrix realMath s).position =
      ⟨10 * Real.cos s.orbitalAngleEarth, 0, -(10 * Real.sin s.orbitalAngleEarth)⟩ := by
  simp only [earthWorldMatrix, earthPositionMatrix, rotate_one_y, rotate_one_x,
    translate_one, scale_one_scalar, world_c3, mat4.position]
  simp only [mat4_mul_def, Spec.R_y, Spec.T, vec4_add_def, vec4_muls_def, realMath]
  ext <;> simp <;> ring

/-- The moon's world position in terms of the earth's and the moon's orbital angles. -/
theorem moon_position_eq (s : State ℝ) :
    (moonWorldMatrix realMath s).position =
      ⟨10 * Real.cos s.orbitalAngleEarth +
          0.5 * Real.cos (s.orbitalAngleEarth + s.orbitalAngleMoon), 0,
        -(10 * Real.sin s.orbitalAngleEarth) -
          0.5 * Real.sin (s.orbitalAngleEarth + s.orbitalAngleMoon)⟩ := by
  simp only [moonWorldMatrix, moonPositionMatrix, earthPositionMatrix, rotate_one_y,
    rotate_one_x, translate_one, scale_one_scalar, world_c3, mat4.position]
  simp only [mat4_mul_def, Spec.R_y, Spec.T, vec4_add_def, vec4_muls_def, realMath]
  ext <;> simp [Real.cos_add, Real.sin_add] <;> ring

/-- C3, as stated, fails: with the earth's orbital angle `π` and the moon's orbital angle
`0` the moon is at `(-10.5, 0, 0)`, whereas the earth's position `(-10, 0, 0)` plus the
offset `(0.5, 0, 0)` rotated by the moon's own angle `0` is `(-9.5, 0, 0)`. -/
theorem moon_offset_not_rotated_by_own_angle_only :
    (moonWorldMatrix realMath
        { initialState (0 : ℝ) 0 0 with orbitalAngleEarth := Real.pi }).position
      = ⟨-10.5, 0, 0⟩ ∧
    (earthWorldMatrix realMath
        { initialState (0 : ℝ) 0 0 with orbitalAngleEarth := Real.pi }).position +
      Spec.rotY realMath
        ({ initialState (0 : ℝ) 0 0 with orbitalAngleEarth := Real.pi }).orbitalAngleMoon
        ⟨0.5, 0, 0⟩
      = ⟨-9.5, 0, 0⟩ ∧
    (moonWorldMatrix realMath
        { initialState (0 : ℝ) 0 0 with orbitalAngleEarth := Real.pi }).position ≠
      (earthWorldMatrix realMath
        { initialState (0 : ℝ) 0 0 with orbitalAngleEarth := Real.pi }).position +
      Spec.rotY realMath
        ({ initialState (0 : ℝ) 0 0 with orbitalAngleEarth := Real.pi }).orbitalAngleMoon
        ⟨0.5, 0, 0⟩ := by
  have h1 : (moonWorldMatrix realMath
        { initialState (0 : ℝ) 0 0 with orbitalAngleEarth := Real.pi }).position
      = ⟨-10.5, 0, 0⟩ := by
    rw [moon_position_eq]
    ext <;> norm_num [initialState]
  have h2 : (earthWorldMatrix realMath
        { initialState (0 : ℝ) 0 0 with orbitalAngleEarth := Real.pi }).position +
      Spec.rotY realMath
        ({ initialState (0 : ℝ) 0 0 with orbitalAngleEarth := Real.pi }).orbitalAngleMoon
        ⟨0.5, 0, 0⟩
      = ⟨-9.5, 0, 0⟩ := by
    rw [earth_position_eq]
    ext <;> norm_num [initialState, Spec.rotY, realMath, vec3_add_def]
  refine ⟨h1, h2, ?_⟩
  rw [h1, h2]
  intro h
  have hx := congrArg vec3.x h
  norm_num at hx

/-- C3, amended: for every earth orbital angle `a` and moon orbital angle `b`, the moon's
world position equals the earth's world position plus the moon's local offset
`(0.5, 0, 0)` rotated about the y axis by `a + b`, the sum of the earth's and the moon's
orbital angles. -/
theorem moon_position_offset (s : State ℝ) :
    (moonWorldMatrix realMath s).position =
      (earthWorldMatrix realMath s).position +
        Spec.rotY realMath (s.orbitalAngleEarth + s.orbitalAngleMoon) ⟨0.5, 0, 0⟩ := by
  rw [moon_position_eq, earth_position_eq]
  ext <;> simp [Spec.rotY, realMath, vec3_add_def] <;> ring

/-- C4: with both orbital angles zero (and any spin angle) the earth's world position is
`(10, 0, 0)` and the moon's world position is the earth's plus `(0.5, 0, 0)`, that is
`(10.5, 0, 0)`. -/
theorem earth_moon_position_at_zero (s : State ℝ) (ha : s.orbitalAngleEarth = 0)
    (hb : s.orbitalAngleMoon = 0) :
    (earthWorldMatrix realMath s).position = ⟨10, 0, 0⟩ ∧
    (moonWorldMatrix realMath s).position =
      (earthWorldMatrix realMath s).position + ⟨0.5, 0, 0⟩ ∧
    (moonWorldMatrix realMath s).position = ⟨10.5, 0, 0⟩ := by
  rw [moon_position_eq, earth_position_eq, ha, hb]
  refine ⟨?_, ?_, ?_⟩
  · ext <;> simp
  · ext <;> simp [vec3_add_def]
  · ext <;> norm_num

/-- C4 witness: the state with spin angle 30 and all orbital angles zero. -/
theorem earth_moon_position_at_zero_witness :
    ({ initialState (0 : ℝ) 0 0 with spinningAngle := 30 }).orbitalAngleEarth = 0 ∧
    ({ initialState (0 : ℝ) 0 0 with spinningAngle := 30 }).orbitalAngleMoon = 0 ∧
    (earthWorldMatrix realMath { initialState (0 : ℝ) 0 0 with spinningAngle := 30 }).position
      = ⟨10, 0, 0⟩ ∧
    (moonWorldMatrix realMath { initialState (0 : ℝ) 0 0 with spinningAngle := 30 }).position
      = (earthWorldMatrix realMath
          { initialState (0 : ℝ) 0 0 with spinningAngle := 30 }).position + ⟨0.5, 0, 0⟩ ∧
    (moonWorldMatrix realMath { initialState (0 : ℝ) 0 0 with spinningAngle := 30 }).position
      = ⟨10.5, 0, 0⟩ :=
  ⟨rfl, rfl,
   earth_moon_position_at_zero { initialState (0 : ℝ) 0 0 with spinningAngle := 30 } rfl rfl⟩

end Assignment1

namespace Assignment1

open glm

variable {K : Type} [LinearOrderedField K]

/-- The function `glm::rotate` keeps the last column of the matrix it is applied to. -/
theorem rotate_c3 (M : FloatMath K) (m : mat4 K) (angle : K) (v : vec3 K) :
    (rotate M m angle v).c3 = m.c3 := rfl

/-- The last column of the identity matrix. -/
theorem scalar_one_c3 : (mat4.scalar (1 : K)).c3 = ⟨0, 0, 0, 1⟩ := rfl

/-- Every matrix maps the origin `(0, 0, 0, 1)` to its last column. -/
theorem mulVec_origin (m : mat4 K) : m * (⟨0, 0, 0, 1⟩ : vec4 K) = m.c3 := by
  simp only [mat4_mulVec_def, vec4_add_def, vec4_muls_def]
  ext <;> simp

/-- C5: for every spin angle the sun's world matrix has translation component exactly
`(0, 0, 0)`: translating the identity by the zero vector gives the identity, and the spin,
axis-alignment and scale matrices each map the origin `(0, 0, 0, 1)` to itself. -/
theorem sun_position_zero (M : FloatMath K) (s : State K) :
    (sunWorldMatrix M s).position = ⟨0, 0, 0⟩ ∧
    translate (mat4.scalar (1 : K)) ⟨0, 0, 0⟩ = mat4.scalar 1 ∧
    rotate M (mat4.scalar 1) (radians M s.spinningAngle) ⟨0, 1, 0⟩ * (⟨0, 0, 0, 1⟩ : vec4 K)
      = ⟨0, 0, 0, 1⟩ ∧
    rotate M (mat4.scalar 1) (radians M (-90)) ⟨1, 0, 0⟩ * (⟨0, 0, 0, 1⟩ : vec4 K)
      = ⟨0, 0, 0, 1⟩ ∧
    scale (mat4.scalar 1) (vec3.scalar (0.2 : K)) * (⟨0, 0, 0, 1⟩ : vec4 K) = ⟨0, 0, 0, 1⟩ := by
  have ht : translate (mat4.scalar (1 : K)) ⟨0, 0, 0⟩ = mat4.scalar 1 := by
    simp [glm.translate, mat4.scalar, vec4_add_def, vec4_muls_def]
  refine ⟨?_, ht, ?_, ?_, ?_⟩
  · simp only [sunWorldMatrix, mat4.position, mat4_mul_c3, glm.scale, rotate_c3, mulVec_origin,
      ht, scalar_one_c3]
  · rw [mulVec_origin, rotate_c3]; rfl
  · rw [mulVec_origin, rotate_c3]; rfl
  · rw [mulVec_origin]; rfl

/-- C6: one animation update adds `rate * dt` to each of the nine orbital angles, with
rates `radians(50, 35, 30, 24, 13, 9, 6, 5, 100)` for Mercury, Venus, Earth, Mars, Jupiter,
Saturn, Uranus, Neptune and the Moon; advancing by `dt1` and then `dt2` gives the same
state as advancing once by `dt1 + dt2`, and the two steps can be taken in either order. -/
theorem orbital_angles_advance (M : FloatMath K) (s : State K) (dt dt1 dt2 : K) :
    ((updateAngles M dt s).orbitalAngleMercury = s.orbitalAngleMercury + radians M 50 * dt ∧
     (updateAngles M dt s).orbitalAngleVenus = s.orbitalAngleVenus + radians M 35 * dt ∧
     (updateAngles M dt s).orbitalAngleEarth = s.orbitalAngleEarth + radians M 30 * dt ∧
     (updateAngles M dt s).orbitalAngleMars = s.orbitalAngleMars + radians M 24 * dt ∧
     (updateAngles M dt s).orbitalAngleJupiter = s.orbitalAngleJupiter + radians M 13 * dt ∧
     (updateAngles M dt s).orbitalAngleSaturn = s.orbitalAngleSaturn + radians M 9 * dt ∧
     (updateAngles M dt s).orbitalAngleUranus = s.orbitalAngleUranus + radians M 6 * dt ∧
     (updateAngles M dt s).orbitalAngleNeptune = s.orbitalAngleNeptune + radians M 5 * dt ∧
     (updateAngles M dt s).orbitalAngleMoon = s.orbitalAngleMoon + radians M 100 * dt) ∧
    updateAngles M dt2 (updateAngles M dt1 s) = updateAngles M (dt1 + dt2) s ∧
    updateAngles M dt2 (updateAngles M dt1 s) = updateAngles M dt1 (updateAngles M dt2 s) := by
  refine ⟨⟨rfl, rfl, rfl, rfl, rfl, rfl, rfl, rfl, rfl⟩, ?_, ?_⟩
  · simp only [updateAngles, State.mk.injEq, true_and, and_true]
    refine ⟨?_, ?_, ?_, ?_, ?_, ?_, ?_, ?_, ?_, ?_⟩ <;> ring
  · simp only [updateAngles, State.mk.injEq, true_and, and_true]
    refine ⟨?_, ?_, ?_, ?_, ?_, ?_, ?_, ?_, ?_, ?_⟩ <;> ring

end Assignment1

/-! ## Camera: pitch clamp and look direction -/

section Clamp

variable {K : Type} [LinearOrderedField K]

/-- The function `std::max` is the maximum. -/
theorem stdMax_eq_max (a b : K) : stdMax a b = max a b := by
  unfold stdMax
  split_ifs with h
  · exact (max_eq_right h.le).symm
  · exact (max_eq_left (not_lt.mp h)).symm

/-- The function `std::min` is the minimum. -/
theorem stdMin_eq_min (a b : K) : stdMin a b = min a b := by
  unfold stdMin
  split_ifs with h
  · exact (min_eq_right h.le).symm
  · exact (min_eq_left (not_lt.mp h)).symm

/-- The clamp expression of the solar-system camera stays within its bounds. -/
theorem clamp85_bounds (x : K) :
    -85 ≤ stdMax (-85) (stdMin 85 x) ∧ stdMax (-85) (stdMin 85 x) ≤ 85 := by
  rw [stdMax_eq_max, stdMin_eq_min]
  refine ⟨le_max_left _ _, max_le (by norm_num) (min_le_left _ _)⟩

/-- The clamp expression of the solar-system camera, with `min` outermost. -/
theorem clamp85_eq (x : K) : stdMax (-85) (stdMin 85 x) = min 85 (max (-85) x) := by
  rw [stdMax_eq_max, stdMin_eq_min]
  rcases le_total x (-85) with h | h
  · rw [max_eq_left h, min_eq_right (h.trans (by norm_num)), max_eq_left h,
      min_eq_right (by norm_num)]
  · rw [max_eq_right h]
    rcases le_total x 85 with h2 | h2
    · rw [min_eq_right h2, max_eq_right h]
    · rw [min_eq_left h2, max_eq_right (by norm_num)]

/-- The clamp expression of the solar-system camera leaves an in-range value unchanged. -/
theorem clamp85_of_mem (x : K) (h1 : -85 ≤ x) (h2 : x ≤ 85) :
    stdMax (-85) (stdMin 85 x) = x := by
  rw [stdMax_eq_max, stdMin_eq_min, min_eq_right h2, max_eq_right h1]

end Clamp

namespace Assignment1

open glm

variable {K : Type} [LinearOrderedField K]

/-- A run of look updates that ends with the input `u`. -/
theorem updateLooks_concat (M : FloatMath K) (s : State K) (us : List (K × K × K))
    (u : K × K × K) :
    updateLooks M s (us ++ [u]) = updateLook M u.1 u.2.1 u.2.2 (updateLooks M s us) := by
  simp [updateLooks, List.foldl_append]

/-- C7: after every look update of a run, whatever the starting vertical angle and the
inputs, `cameraVerticalAngle` lies in `[-85, 85]`; `us ++ [u]` ranges over all non-empty
runs, so the state named is the one after an arbitrary update `u` of an arbitrary run. -/
theorem vertical_angle_clamped (M : FloatMath K) (s : State K) (us : List (K × K × K))
    (u : K × K × K) :
    -85 ≤ (updateLooks M s (us ++ [u])).cameraVerticalAngle ∧
    (updateLooks M s (us ++ [u])).cameraVerticalAngle ≤ 85 := by
  rw [updateLooks_concat]
  exact clamp85_bounds _

/-- C10: the look update maps `(yaw, pitch)` and the input `(dx, dy, dt)` to
`yaw' = yaw - 15*dx*dt`, `pitch' = min(85, max(-85, pitch - 15*dy*dt))` and
`look' = (cos p cos y, sin p, -cos p sin y)` with `p`, `y` the new pitch and yaw in radians;
with `dt = 0`, or with `dx = dy = 0`, the yaw is unchanged and a pitch in `[-85, 85]` is
unchanged. -/
theorem look_update_spec (M : FloatMath K) (s : State K) (dx dy dt : K) :
    (updateLook M (s.lastMousePosX + dx) (s.lastMousePosY + dy) dt s).cameraHorizontalAngle
      = s.cameraHorizontalAngle - 15 * dx * dt ∧
    (updateLook M (s.lastMousePosX + dx) (s.lastMousePosY + dy) dt s).cameraVerticalAngle
      = min 85 (max (-85) (s.cameraVerticalAngle - 15 * dy * dt)) ∧
    (updateLook M (s.lastMousePosX + dx) (s.lastMousePosY + dy) dt s).cameraLookAt
      = ⟨M.cos (radians M (min 85 (max (-85) (s.cameraVerticalAngle - 15 * dy * dt)))) *
           M.cos (radians M (s.cameraHorizontalAngle - 15 * dx * dt)),
         M.sin (radians M (min 85 (max (-85) (s.cameraVerticalAngle - 15 * dy * dt)))),
         -M.cos (radians M (min 85 (max (-85) (s.cameraVerticalAngle - 15 * dy * dt)))) *
           M.sin (radians M (s.cameraHorizontalAngle - 15 * dx * dt))⟩ ∧
    (dt = 0 ∨ (dx = 0 ∧ dy = 0) →
      (updateLook M (s.lastMousePosX + dx) (s.lastMousePosY + dy) dt s).cameraHorizontalAngle
        = s.cameraHorizontalAngle ∧
      (-85 ≤ s.cameraVerticalAngle → s.cameraVerticalAngle ≤ 85 →
        (updateLook M (s.lastMousePosX + dx) (s.lastMousePosY + dy) dt s).cameraVerticalAngle
          = s.cameraVerticalAngle)) := by
  have hx : s.cameraHorizontalAngle - (s.lastMousePosX + dx - s.lastMousePosX) *
      cameraAngularSpeed * dt = s.cameraHorizontalAngle - 15 * dx * dt := by
    simp only [cameraAngularSpeed]; ring
  have hy : s.cameraVerticalAngle - (s.lastMousePosY + dy - s.lastMousePosY) *
      cameraAngularSpeed * dt = s.cameraVerticalAngle - 15 * dy * dt := by
    simp only [cameraAngularSpeed]; ring
  simp only [updateLook, hx, hy, clamp85_eq]
  refine ⟨trivial, trivial, trivial, ?_⟩
  intro h
  have h0 : 15 * dx * dt = 0 ∧ 15 * dy * dt = 0 := by
    rcases h with h | ⟨h1, h2⟩
    · simp [h]
    · simp [h1, h2]
  rw [h0.1, h0.2, sub_zero, sub_zero]
  refine ⟨rfl, fun h1 h2 => ?_⟩
  rw [max_eq_right h1, min_eq_right h2]

/-- C10 witness: from the initial state with the cursor unmoved (`dx = dy = 0`) over a
frame of 1/60 s, yaw and pitch keep their values 90 and 0. -/
theorem look_update_spec_witness :
    (((1 : ℝ) / 60 = 0 ∨ ((0 : ℝ) = 0 ∧ (0 : ℝ) = 0)) ∧
      -85 ≤ (initialState (0 : ℝ) 400 300).cameraVerticalAngle ∧
      (initialState (0 : ℝ) 400 300).cameraVerticalAngle ≤ 85) ∧
    (updateLook realMath ((initialState (0 : ℝ) 400 300).lastMousePosX + 0)
        ((initialState (0 : ℝ) 400 300).lastMousePosY + 0) (1 / 60)
        (initialState 0 400 300)).cameraHorizontalAngle = 90 ∧
    (updateLook realMath ((initialState (0 : ℝ) 400 300).lastMousePosX + 0)
        ((initialState (0 : ℝ) 400 300).lastMousePosY + 0) (1 / 60)
        (initialState 0 400 300)).cameraVerticalAngle = 0 :=
  ⟨⟨Or.inr ⟨rfl, rfl⟩, by norm_num [initialState], by norm_num [initialState]⟩,
   ((look_update_spec realMath (initialState 0 400 300) 0 0 (1 / 60)).2.2.2
      (Or.inr ⟨rfl, rfl⟩)).1,
   ((look_update_spec realMath (initialState 0 400 300) 0 0 (1 / 60)).2.2.2
      (Or.inr ⟨rfl, rfl⟩)).2 (by norm_num [initialState]) (by norm_num [initialState])⟩

end Assignment1

namespace project1

open glm

variable {K : Type} [LinearOrderedField K]

/-- A run of `mouse_callback` calls that ends with the call `p`. -/
theorem mouse_callbacks_concat (M : FloatMath K) (s : State K) (ps : List (K × K))
    (p : K × K) :
    mouse_callbacks M s (ps ++ [p]) = mouse_callback M (mouse_callbacks M s ps) p.1 p.2 := by
  simp [mouse_callbacks, List.foldl_append]

/-- One `mouse_callback` call leaves `pitch` in `[-89, 89]`, whatever the state before. -/
theorem mouse_callback_pitch_bounds (M : FloatMath K) (s : State K) (xpos ypos : K) :
    -89 ≤ (mouse_callback M s xpos ypos).pitch ∧ (mouse_callback M s xpos ypos).pitch ≤ 89 := by
  simp only [mouse_callback]
  split_ifs <;> constructor <;> linarith

/-- C8, as stated, fails: from the initial state, a first call at cursor `(400, 1000)`
followed by a call at `(400, 100)` leaves `pitch = 89`, which is above 85. -/
theorem robot_pitch_exceeds_85 :
    (mouse_callbacks realMath initialState [(400, 1000), (400, 100)]).pitch = 89 ∧
    ¬ ((mouse_callbacks realMath initialState [(400, 1000), (400, 100)]).pitch ≤ 85) := by
  have h : (mouse_callbacks realMath initialState [(400, 1000), (400, 100)]).pitch = 89 := by
    simp only [mouse_callbacks, List.foldl_cons, List.foldl_nil, mouse_callback, initialState]
    norm_num
  rw [h]
  exact ⟨rfl, by norm_num⟩

/-- C8, amended: after any sequence of `mouse_callback` calls from the initial state, with
arbitrary cursor positions, `pitch` lies in `[-89, 89]` degrees. -/
theorem robot_pitch_clamped (M : FloatMath K) (calls : List (K × K)) :
    -89 ≤ (mouse_callbacks M initialState calls).pitch ∧
    (mouse_callbacks M initialState calls).pitch ≤ 89 := by
  rcases List.eq_nil_or_concat calls with h | ⟨ps, p, h⟩
  · subst h
    simp [mouse_callbacks, initialState]
  · subst h
    rw [List.concat_eq_append, mouse_callbacks_concat]
    exact mouse_callback_pitch_bounds M _ _ _

/-- The direction assigned to `cameraFront` by a `mouse_callback` call, in terms of the
yaw and pitch the call leaves behind. -/
theorem mouse_callback_cameraFront (M : FloatMath K) (s : State K) (xpos ypos : K) :
    (mouse_callback M s xpos ypos).cameraFront =
      normalize M
        ⟨M.cos (radians M (mouse_callback M s xpos ypos).yaw) *
            M.cos (radians M (mouse_callback M s xpos ypos).pitch),
         M.sin (radians M (mouse_callback M s xpos ypos).pitch),
         M.sin (radians M (mouse_callback M s xpos ypos).yaw) *
            M.cos (radians M (mouse_callback M s xpos ypos).pitch)⟩ := rfl

end project1

/-! ## Look direction -/

/-- The spherical direction `(cos p cos y, sin p, ∓ cos p sin y)` has squared length 1. -/
theorem spherical_dot_one (p y : ℝ) :
    (Real.cos p * Real.cos y) * (Real.cos p * Real.cos y) + Real.sin p * Real.sin p +
      (Real.cos p * Real.sin y) * (Real.cos p * Real.sin y) = 1 := by
  have h1 := Real.sin_sq_add_cos_sq p
  have h2 := Real.sin_sq_add_cos_sq y
  nlinarith [h1, h2]

/-- Normalising the direction `(cos y cos p, sin p, sin y cos p)` gives a vector of
length 1. -/
theorem normalize_spherical_length (y p : ℝ) :
    glm.length realMath (glm.normalize realMath
      ⟨Real.cos y * Real.cos p, Real.sin p, Real.sin y * Real.cos p⟩) = 1 := by
  have h := spherical_dot_one p y
  have hd : Real.cos y * Real.cos p * (Real.cos y * Real.cos p) + Real.sin p * Real.sin p +
      Real.sin y * Real.cos p * (Real.sin y * Real.cos p) = 1 := by linarith
  simp only [glm.length, glm.normalize, glm.dot, realMath, glm.vec3_muls_def, hd,
    Real.sqrt_one, div_one, mul_one]

/-- C9: over the reals the look direction has Euclidean length 1 after every look update:
for all yaw `y` and pitch `p`, `(cos p cos y, sin p, -cos p sin y)` has length 1, so does
`cameraLookAt` after any solar-system look update, and so does `cameraFront` after any
`mouse_callback` call of the robot-arm program. -/
theorem look_direction_unit :
    (∀ p y : ℝ, glm.length realMath
        ⟨Real.cos p * Real.cos y, Real.sin p, -Real.cos p * Real.sin y⟩ = 1) ∧
    (∀ (s : Assignment1.State ℝ) (mousePosX mousePosY dt : ℝ),
      glm.length realMath
        (Assignment1.updateLook realMath mousePosX mousePosY dt s).cameraLookAt = 1) ∧
    (∀ (s : project1.State ℝ) (xpos ypos : ℝ),
      glm.length realMath (project1.mouse_callback realMath s xpos ypos).cameraFront = 1) := by
  have ha : ∀ p y : ℝ, glm.length realMath
      ⟨Real.cos p * Real.cos y, Real.sin p, -Real.cos p * Real.sin y⟩ = 1 := by
    intro p y
    have h := spherical_dot_one p y
    simp only [glm.length, glm.dot, realMath]
    rw [show -Real.cos p * Real.sin y * (-Real.cos p * Real.sin y) =
      (Real.cos p * Real.sin y) * (Real.cos p * Real.sin y) by ring, h, Real.sqrt_one]
  refine ⟨ha, ?_, ?_⟩
  · intro s mousePosX mousePosY dt
    exact ha _ _
  · intro s xpos ypos
    rw [project1.mouse_callback_cameraFront]
    exact normalize_spherical_length _ _

/-! ## Angles in radians -/

/-- The cosine of the exact math library. -/
theorem realMath_cos : realMath.cos = Real.cos := rfl

/-- The sine of the exact math library. -/
theorem realMath_sin : realMath.sin = Real.sin := rfl

/-- The square root of the exact math library. -/
theorem realMath_sqrt : realMath.sqrt = Real.sqrt := rfl

/-- The angle of 60 degrees is `π / 3`. -/
theorem radians_sixty : glm.radians realMath 60 = Real.pi / 3 := by
  simp only [glm.radians, realMath]; ring

/-- The angle of 90 degrees is `π / 2`. -/
theorem radians_ninety : glm.radians realMath 90 = Real.pi / 2 := by
  simp only [glm.radians, realMath]; ring

/-- The angle of -90 degrees is `-(π / 2)`. -/
theorem radians_neg_ninety : glm.radians realMath (-90) = -(Real.pi / 2) := by
  simp only [glm.radians, realMath]; ring

/-- The angle of 0 degrees is 0. -/
theorem radians_zero : glm.radians realMath 0 = 0 := by
  simp only [glm.radians, realMath]; ring

/-! ## Solar system: camera movement -/

namespace Assignment1

open glm

/-- C11, evaluated at the failing input: from the initial state, one iteration with frame
time 1 in which the cursor moves up by 4 (so the pitch becomes 60 degrees) and only D is
pressed displaces the camera by `(1/2, 0, 0)`, a vector of length `1/2 = cos 60°`, not of
length `currentCameraSpeed * dt = 1`: the side vector is not normalized. -/
theorem strafe_step_not_unit_speed :
    (handleInputs realMath ⟨1, false, false, false, false, false, true, false, 0, -4⟩ 1
        (initialState 0 0 0)).cameraVerticalAngle = 60 ∧
    (handleInputs realMath ⟨1, false, false, false, false, false, true, false, 0, -4⟩ 1
        (initialState 0 0 0)).cameraPosition - (initialState (0 : ℝ) 0 0).cameraPosition
      = ⟨1 / 2, 0, 0⟩ ∧
    glm.length realMath
      ((handleInputs realMath ⟨1, false, false, false, false, false, true, false, 0, -4⟩ 1
        (initialState 0 0 0)).cameraPosition - (initialState (0 : ℝ) 0 0).cameraPosition)
      = 1 / 2 ∧
    glm.length realMath
      ((handleInputs realMath ⟨1, false, false, false, false, false, true, false, 0, -4⟩ 1
        (initialState 0 0 0)).cameraPosition - (initialState (0 : ℝ) 0 0).cameraPosition)
      ≠ cameraSpeed * 1 := by
  have hp : stdMax (-85 : ℝ) (stdMin 85 (0 - (-4 - 0) * 15 * 1)) = 60 := by
    rw [clamp85_of_mem] <;> norm_num
  have hy : (90 : ℝ) - (0 - 0) * 15 * 1 = 90 := by norm_num
  have hd : (handleInputs realMath ⟨1, false, false, false, false, false, true, false, 0, -4⟩ 1
        (initialState 0 0 0)).cameraPosition - (initialState (0 : ℝ) 0 0).cameraPosition
      = ⟨1 / 2, 0, 0⟩ := by
    simp only [handleInputs, updateLook, initialState, cameraAngularSpeed, hp, hy,
      radians_sixty, radians_ninety, cameraSpeed, cross, vec3_add_def, vec3_sub_def,
      vec3_muls_def, realMath_cos, realMath_sin, Real.cos_pi_div_three, Real.cos_pi_div_two,
      Real.sin_pi_div_two, Bool.or_false, Bool.false_eq_true, if_false, if_true]
    ext <;> norm_num
  refine ⟨?_, hd, ?_, ?_⟩
  · simp only [handleInputs, updateLook, initialState, cameraAngularSpeed, hp]
  · rw [hd]
    simp only [glm.length, glm.dot, realMath]
    rw [show (1 / 2 : ℝ) * (1 / 2) + 0 * 0 + 0 * 0 = (1 / 2) ^ 2 by norm_num]
    exact Real.sqrt_sq (by norm_num)
  · rw [hd]
    simp only [glm.length, glm.dot, realMath, cameraSpeed]
    rw [show (1 / 2 : ℝ) * (1 / 2) + 0 * 0 + 0 * 0 = (1 / 2) ^ 2 by norm_num,
      Real.sqrt_sq (by norm_num)]
    norm_num

end Assignment1

/-! ## Robot arm: forward move and view matrix -/

namespace project1

open glm

variable {K : Type} [LinearOrderedField K]

/-- C12, as stated, fails: from the initial state, `processInput` with clock reading 1
(so `deltaTime = 1`) and only W pressed moves the camera to `(0, 1, 2.5)`, not to
`(0, 1, 4)`: the speed is the fixed 2.5 units per second. -/
theorem forward_move_is_not_speed_one :
    (processInput realMath initialState 1 true false false false).deltaTime = 1 ∧
    (processInput realMath initialState 1 true false false false).cameraPos = ⟨0, 1, 2.5⟩ ∧
    (processInput realMath initialState 1 true false false false).cameraPos ≠ ⟨0, 1, 4⟩ := by
  have h : (processInput realMath initialState 1 true false false false).cameraPos
      = ⟨0, 1, 2.5⟩ := by
    simp only [processInput, initialState, vec3_add_def, vec3_smul_def, if_true,
      Bool.false_eq_true, if_false]
    ext <;> norm_num
  refine ⟨by simp [processInput, initialState], h, ?_⟩
  rw [h]
  intro hc
  have hz := congrArg vec3.z hc
  norm_num at hz

/-- C12, amended: from the initial camera state (position `(0, 1, 5)`, yaw -90, pitch 0)
the look direction is `(0, 0, -1)`, and a forward move (W pressed) with `dt = 1` at the
program's fixed speed 2.5 yields position `(0, 1, 2.5)`. -/
theorem forward_move_scenario (M : FloatMath K) :
    (initialState : State K).cameraPos = ⟨0, 1, 5⟩ ∧
    (initialState : State K).yaw = -90 ∧
    (initialState : State K).pitch = 0 ∧
    (initialState : State K).cameraFront = ⟨0, 0, -1⟩ ∧
    (processInput M initialState 1 true false false false).deltaTime = 1 ∧
    (processInput M initialState 1 true false false false).cameraPos = ⟨0, 1, 2.5⟩ := by
  refine ⟨rfl, rfl, rfl, rfl, by simp [processInput, initialState], ?_⟩
  simp only [processInput, initialState, vec3_add_def, vec3_smul_def, if_true,
    Bool.false_eq_true, if_false]
  ext <;> norm_num

end project1

/-! ## View matrix -/

/-- The look-at matrix maps the eye point to the origin, whatever the three axes are. -/
theorem lookAt_eye {K : Type} [LinearOrderedField K] (M : FloatMath K)
    (eye center up : glm.vec3 K) :
    glm.lookAt M eye center up * glm.vec4.point eye = ⟨0, 0, 0, 1⟩ := by
  simp only [glm.lookAt, glm.vec4.point, glm.mat4_mulVec_def, glm.vec4_add_def,
    glm.vec4_muls_def, glm.dot]
  ext <;> simp only <;> ring

/-- A non-zero vector has positive squared length. -/
theorem dot_self_pos (v : glm.vec3 ℝ) (hv : v ≠ ⟨0, 0, 0⟩) : 0 < glm.dot v v := by
  have h0 : 0 ≤ glm.dot v v := by
    simp only [glm.dot]; nlinarith [mul_self_nonneg v.x, mul_self_nonneg v.y, mul_self_nonneg v.z]
  rcases h0.lt_or_eq with h | h
  · exact h
  · exfalso
    apply hv
    simp only [glm.dot] at h
    have hx : v.x * v.x = 0 := by
      nlinarith [mul_self_nonneg v.x, mul_self_nonneg v.y, mul_self_nonneg v.z]
    have hy : v.y * v.y = 0 := by
      nlinarith [mul_self_nonneg v.x, mul_self_nonneg v.y, mul_self_nonneg v.z]
    have hz : v.z * v.z = 0 := by
      nlinarith [mul_self_nonneg v.x, mul_self_nonneg v.y, mul_self_nonneg v.z]
    ext
    · exact mul_self_eq_zero.mp hx
    · exact mul_self_eq_zero.mp hy
    · exact mul_self_eq_zero.mp hz

/-- The length of a non-zero vector is not zero, so `glm::normalize` does not divide by
zero on it. -/
theorem sqrt_dot_self_ne_zero (v : glm.vec3 ℝ) (hv : v ≠ ⟨0, 0, 0⟩) :
    Real.sqrt (glm.dot v v) ≠ 0 :=
  (Real.sqrt_pos.mpr (dot_self_pos v hv)).ne'

/-- C13: for every eye position and every look direction that is non-zero and not parallel
to the up vector `(0, 1, 0)`, the two normalisations inside
`lookAt(position, position + look, up)` divide by non-zero lengths, and the view matrix
maps the homogeneous eye point `(position, 1)` to `(0, 0, 0, 1)`; this is the view matrix
of the solar-system loop and, the global `cameraUp` being `(0, 1, 0)`, of the robot-arm
loop. -/
theorem view_matrix_maps_eye_to_origin (position look : glm.vec3 ℝ)
    (hlook : look ≠ ⟨0, 0, 0⟩) (hpar : glm.cross look ⟨0, 1, 0⟩ ≠ ⟨0, 0, 0⟩) :
    (Real.sqrt (glm.dot (position + look - position) (position + look - position)) ≠ 0 ∧
      Real.sqrt
        (glm.dot (glm.cross (glm.normalize realMath (position + look - position)) ⟨0, 1, 0⟩)
          (glm.cross (glm.normalize realMath (position + look - position)) ⟨0, 1, 0⟩)) ≠ 0) ∧
    glm.lookAt realMath position (position + look) ⟨0, 1, 0⟩ * glm.vec4.point position
      = ⟨0, 0, 0, 1⟩ ∧
    (∀ s : Assignment1.State ℝ, s.cameraPosition = position → s.cameraLookAt = look →
      Assignment1.viewMatrix realMath s * glm.vec4.point s.cameraPosition = ⟨0, 0, 0, 1⟩) ∧
    (∀ s : project1.State ℝ, s.cameraPos = position → s.cameraFront = look →
      s.cameraUp = ⟨0, 1, 0⟩ →
      project1.view realMath s * glm.vec4.point s.cameraPos = ⟨0, 0, 0, 1⟩) := by
  have hsub : position + look - position = look := by
    simp only [glm.vec3_add_def, glm.vec3_sub_def]
    ext <;> simp
  have hn := sqrt_dot_self_ne_zero look hlook
  have hcross : glm.cross (glm.normalize realMath look) ⟨0, 1, 0⟩ ≠ ⟨0, 0, 0⟩ := by
    intro h
    apply hpar
    have hx := congrArg glm.vec3.x h
    have hz := congrArg glm.vec3.z h
    simp only [glm.cross, glm.normalize, glm.vec3_muls_def, realMath_sqrt] at hx hz
    simp only [glm.cross]
    have hi : (1 / Real.sqrt (glm.dot look look)) ≠ 0 := one_div_ne_zero hn
    ext
    · simp only [mul_zero, one_mul, zero_sub, neg_eq_zero, mul_eq_zero] at hx ⊢
      rcases hx with hx | hx
      · simp [hx]
      · exact absurd hx hi
    · simp
    · simp only [mul_one, zero_mul, sub_zero, mul_eq_zero] at hz ⊢
      rcases hz with hz | hz
      · exact hz
      · exact absurd hz hi
  refine ⟨⟨?_, ?_⟩, lookAt_eye realMath _ _ _, ?_, ?_⟩
  · rw [hsub]; exact hn
  · rw [hsub]; exact sqrt_dot_self_ne_zero _ hcross
  · intro s _ _
    exact lookAt_eye realMath _ _ _
  · intro s _ _ _
    exact lookAt_eye realMath _ _ _

/-- C13 witness: the initial camera of the robot-arm program, eye `(0, 1, 5)` and look
direction `(0, 0, -1)`. -/
theorem view_matrix_maps_eye_to_origin_witness :
    ((⟨0, 0, -1⟩ : glm.vec3 ℝ) ≠ ⟨0, 0, 0⟩ ∧
      glm.cross (⟨0, 0, -1⟩ : glm.vec3 ℝ) ⟨0, 1, 0⟩ ≠ ⟨0, 0, 0⟩) ∧
    glm.lookAt realMath ⟨0, 1, 5⟩ ((⟨0, 1, 5⟩ : glm.vec3 ℝ) + ⟨0, 0, -1⟩) ⟨0, 1, 0⟩ *
        glm.vec4.point (⟨0, 1, 5⟩ : glm.vec3 ℝ) = ⟨0, 0, 0, 1⟩ ∧
    project1.view realMath project1.initialState *
        glm.vec4.point (project1.initialState : project1.State ℝ).cameraPos = ⟨0, 0, 0, 1⟩ :=
  have h1 : (⟨0, 0, -1⟩ : glm.vec3 ℝ) ≠ ⟨0, 0, 0⟩ := by
    intro h; have := congrArg glm.vec3.z h; norm_num at this
  have h2 : glm.cross (⟨0, 0, -1⟩ : glm.vec3 ℝ) ⟨0, 1, 0⟩ ≠ ⟨0, 0, 0⟩ := by
    intro h; have := congrArg glm.vec3.x h; norm_num [glm.cross] at this
  ⟨⟨h1, h2⟩,
   (view_matrix_maps_eye_to_origin ⟨0, 1, 5⟩ ⟨0, 0, -1⟩ h1 h2).2.1,
   (view_matrix_maps_eye_to_origin ⟨0, 1, 5⟩ ⟨0, 0, -1⟩ h1 h2).2.2.2
     project1.initialState rfl rfl rfl⟩

/-! ## Robot arm: reachable camera states -/

namespace project1

open glm

/-- The direction `(cos y cos p, sin p, sin y cos p)` is its own normalisation. -/
theorem normalize_spherical (y p : ℝ) :
    normalize realMath ⟨Real.cos y * Real.cos p, Real.sin p, Real.sin y * Real.cos p⟩ =
      ⟨Real.cos y * Real.cos p, Real.sin p, Real.sin y * Real.cos p⟩ := by
  have h := spherical_dot_one p y
  have hd : Real.cos y * Real.cos p * (Real.cos y * Real.cos p) + Real.sin p * Real.sin p +
      Real.sin y * Real.cos p * (Real.sin y * Real.cos p) = 1 := by linarith
  simp only [glm.normalize, glm.dot, realMath_sqrt, glm.vec3_muls_def, hd, Real.sqrt_one,
    div_one, mul_one]

/-- The cosine of a pitch between -89 and 89 degrees is positive. -/
theorem cos_radians_pos (p : ℝ) (h1 : -89 ≤ p) (h2 : p ≤ 89) :
    0 < Real.cos (radians realMath p) := by
  apply Real.cos_pos_of_mem_Ioo
  simp only [radians, realMath]
  constructor <;> nlinarith [Real.pi_pos]

/-- The invariant of the camera globals: `cameraUp` is `(0, 1, 0)`, `pitch` is within
`[-89, 89]` and `cameraFront` is the spherical direction of `yaw` and `pitch`. -/
theorem run_invariant (events : List (Event ℝ)) (s : State ℝ)
    (hup : s.cameraUp = ⟨0, 1, 0⟩) (h1 : -89 ≤ s.pitch) (h2 : s.pitch ≤ 89)
    (hf : s.cameraFront =
      ⟨Real.cos (radians realMath s.yaw) * Real.cos (radians realMath s.pitch),
       Real.sin (radians realMath s.pitch),
       Real.sin (radians realMath s.yaw) * Real.cos (radians realMath s.pitch)⟩) :
    (run realMath s events).cameraUp = ⟨0, 1, 0⟩ ∧
    -89 ≤ (run realMath s events).pitch ∧ (run realMath s events).pitch ≤ 89 ∧
    (run realMath s events).cameraFront =
      ⟨Real.cos (radians realMath (run realMath s events).yaw) *
          Real.cos (radians realMath (run realMath s events).pitch),
       Real.sin (radians realMath (run realMath s events).pitch),
       Real.sin (radians realMath (run realMath s events).yaw) *
          Real.cos (radians realMath (run realMath s events).pitch)⟩ := by
  induction events generalizing s with
  | nil => exact ⟨hup, h1, h2, hf⟩
  | cons e es ih =>
    have hrun : run realMath s (e :: es) = run realMath (step realMath s e) es := rfl
    rw [hrun]
    cases e with
    | mouse xpos ypos =>
      apply ih
      · exact hup
      · exact (mouse_callback_pitch_bounds realMath s xpos ypos).1
      · exact (mouse_callback_pitch_bounds realMath s xpos ypos).2
      · show (mouse_callback realMath s xpos ypos).cameraFront = _
        rw [mouse_callback_cameraFront]
        exact normalize_spherical _ _
    | input currentFrame keyW keyS keyA keyD =>
      exact ih (processInput realMath s currentFrame keyW keyS keyA keyD) hup h1 h2 hf

/-- C14: in every camera state reachable from the initial state by a sequence of
`mouse_callback` and `processInput` calls, `cross(cameraFront, cameraUp)` has length
`cos(pitch)` (pitch in degrees), which is positive, so the `normalize` call of the A and D
moves divides by a non-zero length. -/
theorem strafe_normalize_defined (events : List (Event ℝ)) :
    glm.length realMath
        (cross (run realMath initialState events).cameraFront
          (run realMath initialState events).cameraUp)
      = Real.cos (radians realMath (run realMath initialState events).pitch) ∧
    0 < Real.cos (radians realMath (run realMath initialState events).pitch) ∧
    Real.sqrt
        (dot
          (cross (run realMath initialState events).cameraFront
            (run realMath initialState events).cameraUp)
          (cross (run realMath initialState events).cameraFront
            (run realMath initialState events).cameraUp)) ≠ 0 := by
  have hinit : (initialState : State ℝ).cameraFront =
      ⟨Real.cos (radians realMath (initialState : State ℝ).yaw) *
          Real.cos (radians realMath (initialState : State ℝ).pitch),
       Real.sin (radians realMath (initialState : State ℝ).pitch),
       Real.sin (radians realMath (initialState : State ℝ).yaw) *
          Real.cos (radians realMath (initialState : State ℝ).pitch)⟩ := by
    simp only [initialState, radians_neg_ninety, radians_zero, Real.cos_neg, Real.sin_neg,
      Real.cos_pi_div_two, Real.sin_pi_div_two, Real.cos_zero, Real.sin_zero]
    ext <;> norm_num
  obtain ⟨hup, h1, h2, hf⟩ := run_invariant events initialState rfl
    (by norm_num [initialState]) (by norm_num [initialState]) hinit
  have hpos := cos_radians_pos _ h1 h2
  have hlen : Real.sqrt
        (dot
          (cross (run realMath initialState events).cameraFront
            (run realMath initialState events).cameraUp)
          (cross (run realMath initialState events).cameraFront
            (run realMath initialState events).cameraUp))
      = Real.cos (radians realMath (run realMath initialState events).pitch) := by
    have hs := Real.sin_sq_add_cos_sq (radians realMath (run realMath initialState events).yaw)
    have hdot : dot
          (cross (run realMath initialState events).cameraFront
            (run realMath initialState events).cameraUp)
          (cross (run realMath initialState events).cameraFront
            (run realMath initialState events).cameraUp)
        = Real.cos (radians realMath (run realMath initialState events).pitch) ^ 2 := by
      rw [hup, hf]
      simp only [cross, dot]
      nlinarith [hs]
    rw [hdot, Real.sqrt_sq hpos.le]
  refine ⟨hlen, hpos, ?_⟩
  rw [hlen]
  exact hpos.ne'

end project1

/-! ## Start-up failures -/

namespace Assignment1

/-- Once the window and GLEW are set up, `main` reaches the frame loop whatever the texture
loads and the shader compilation report. -/
theorem main_reaches_frameLoop (env : Env) (hw : env.windowCreated = true)
    (hg : env.glewOk = true) :
    main env =
      (textureFiles.map (fun f => (loadTexture env f).1)).flatten ++
        (compileAndLinkShaders env).1 ++
        [Effect.frameLoop, Effect.glfwTerminate, Effect.ret 0] := by
  simp [main, hw, hg]

/-- C15, as stated, fails: when only the load of `Textures/sun.jpg` fails, `loadTexture`
writes its diagnostic and returns 0, and `main` goes on into the frame loop and returns 0
at the end. -/
theorem texture_failure_is_not_fatal :
    loadTexture ⟨true, true, fun f => f != "Textures/sun.jpg", fun _ => 1, true, true, true, 3⟩
        "Textures/sun.jpg"
      = ([Effect.print "Failed to load texture: Textures/sun.jpg"], 0) ∧
    main ⟨true, true, fun f => f != "Textures/sun.jpg", fun _ => 1, true, true, true, 3⟩
      = [Effect.print "Failed to load texture: Textures/sun.jpg", Effect.frameLoop,
         Effect.glfwTerminate, Effect.ret 0] ∧
    Effect.frameLoop ∈
      main ⟨true, true, fun f => f != "Textures/sun.jpg", fun _ => 1, true, true, true, 3⟩ := by
  have h : main ⟨true, true, fun f => f != "Textures/sun.jpg", fun _ => 1, true, true, true, 3⟩
      = [Effect.print "Failed to load texture: Textures/sun.jpg", Effect.frameLoop,
         Effect.glfwTerminate, Effect.ret 0] := by
    simp [main, textureFiles, loadTexture, compileAndLinkShaders]
  refine ⟨by simp [loadTexture], h, ?_⟩
  rw [h]
  simp

/-- C15, amended: when `stbi_load` fails for one of the ten textures, `loadTexture` writes
a diagnostic naming the file and returns texture id 0 to its caller; `main` does not
inspect the returned id, so with the window and GLEW set up the diagnostic is among its
effects and it still enters the frame loop. -/
theorem texture_failure_reported (env : Env) (hw : env.windowCreated = true)
    (hg : env.glewOk = true) (f : String) (hf : f ∈ textureFiles)
    (hfail : env.stbiLoaded f = false) :
    loadTexture env f = ([Effect.print ("Failed to load texture: " ++ f)], 0) ∧
    Effect.print ("Failed to load texture: " ++ f) ∈ main env ∧
    Effect.frameLoop ∈ main env := by
  have hl : loadTexture env f = ([Effect.print ("Failed to load texture: " ++ f)], 0) := by
    simp [loadTexture, hfail]
  rw [main_reaches_frameLoop env hw hg]
  refine ⟨hl, ?_, by simp⟩
  apply List.mem_append_left
  apply List.mem_append_left
  rw [List.mem_flatten]
  exact ⟨(loadTexture env f).1, List.mem_map.mpr ⟨f, hf, rfl⟩, by rw [hl]; simp⟩

/-- C15 witness: the start-up in which only `Textures/moon.jpg` fails to load. -/
theorem texture_failure_reported_witness :
    Effect.print "Failed to load texture: Textures/moon.jpg" ∈
      main ⟨true, true, fun f => f != "Textures/moon.jpg", fun _ => 1, true, true, true, 3⟩ ∧
    Effect.frameLoop ∈
      main ⟨true, true, fun f => f != "Textures/moon.jpg", fun _ => 1, true, true, true, 3⟩ :=
  (texture_failure_reported
    ⟨true, true, fun f => f != "Textures/moon.jpg", fun _ => 1, true, true, true, 3⟩ rfl rfl
    "Textures/moon.jpg" (by simp [textureFiles]) (by simp)).2

/-- C16, as stated, fails: when the vertex shader fails to compile (textures loaded, link
status good), `main` writes the diagnostic, goes on into the frame loop and returns 0 at
the end. -/
theorem shader_failure_is_not_fatal :
    main ⟨true, true, fun _ => true, fun _ => 1, false, true, true, 3⟩
      = [Effect.print "ERROR::SHADER::VERTEX::COMPILATION_FAILED", Effect.frameLoop,
         Effect.glfwTerminate, Effect.ret 0] ∧
    Effect.frameLoop ∈ main ⟨true, true, fun _ => true, fun _ => 1, false, true, true, 3⟩ := by
  have h : main ⟨true, true, fun _ => true, fun _ => 1, false, true, true, 3⟩
      = [Effect.print "ERROR::SHADER::VERTEX::COMPILATION_FAILED", Effect.frameLoop,
         Effect.glfwTerminate, Effect.ret 0] := by
    simp [main, textureFiles, loadTexture, compileAndLinkShaders]
  refine ⟨h, ?_⟩
  rw [h]
  simp

/-- C16, amended: when vertex-shader compilation, fragment-shader compilation or program
linking reports failure, the corresponding diagnostic is written; `compileAndLinkShaders`
returns the program id all the same and `main` does not test it, so with the window and
GLEW set up `main` still enters the frame loop. -/
theorem shader_failure_reported (env : Env) (hw : env.windowCreated = true)
    (hg : env.glewOk = true) :
    (env.vertexCompiled = false →
      Effect.print "ERROR::SHADER::VERTEX::COMPILATION_FAILED" ∈ main env) ∧
    (env.fragmentCompiled = false →
      Effect.print "ERROR::SHADER::FRAGMENT::COMPILATION_FAILED" ∈ main env) ∧
    (env.linked = false →
      Effect.print "ERROR::SHADER::PROGRAM::LINKING_FAILED" ∈ main env) ∧
    (compileAndLinkShaders env).2 = env.shaderProgram ∧
    Effect.frameLoop ∈ main env := by
  rw [main_reaches_frameLoop env hw hg]
  refine ⟨?_, ?_, ?_, rfl, by simp⟩
  · intro h
    apply List.mem_append_left
    apply List.mem_append_right
    simp [compileAndLinkShaders, h]
  · intro h
    apply List.mem_append_left
    apply List.mem_append_right
    simp [compileAndLinkShaders, h]
  · intro h
    apply List.mem_append_left
    apply List.mem_append_right
    simp [compileAndLinkShaders, h]

/-- C16 witness: the start-up in which linking fails. -/
theorem shader_failure_reported_witness :
    Effect.print "ERROR::SHADER::PROGRAM::LINKING_FAILED" ∈
      main ⟨true, true, fun _ => true, fun _ => 1, true, true, false, 3⟩ ∧
    Effect.frameLoop ∈ main ⟨true, true, fun _ => true, fun _ => 1, true, true, false, 3⟩ :=
  ⟨(shader_failure_reported ⟨true, true, fun _ => true, fun _ => 1, true, true, false, 3⟩
      rfl rfl).2.2.1 rfl,
   (shader_failure_reported ⟨true, true, fun _ => true, fun _ => 1, true, true, false, 3⟩
      rfl rfl).2.2.2.2⟩

end Assignment1

namespace project1

/-- C17, evaluated at the failing inputs: when GLEW initialisation fails, `main` writes its
diagnostic and returns -1 without a call of `glfwTerminate`, and likewise when the shader
program fails to link (`createShaderProgram` returns 0); only the window-creation failure
path calls `glfwTerminate` before returning -1.  None of the three enters the frame
loop. -/
theorem startup_failure_without_glfwTerminate :
    main ⟨true, true, false, true, true, true, 3⟩
      = [Effect.print "Failed to initialize GLEW", Effect.ret (-1)] ∧
    Effect.glfwTerminate ∉ main ⟨true, true, false, true, true, true, 3⟩ ∧
    main ⟨true, true, true, true, true, false, 3⟩
      = [Effect.print "Failed to link shader program: ",
         Effect.print "Shader program creation failed", Effect.ret (-1)] ∧
    Effect.glfwTerminate ∉ main ⟨true, true, true, true, true, false, 3⟩ ∧
    main ⟨true, false, true, true, true, true, 3⟩
      = [Effect.print "Failed to create GLFW window", Effect.glfwTerminate, Effect.ret (-1)] := by
  have h1 : main ⟨true, true, false, true, true, true, 3⟩
      = [Effect.print "Failed to initialize GLEW", Effect.ret (-1)] := by
    simp [main]
  have h2 : main ⟨true, true, true, true, true, false, 3⟩
      = [Effect.print "Failed to link shader program: ",
         Effect.print "Shader program creation failed", Effect.ret (-1)] := by
    simp [main, createShaderProgram, compileShader]
  refine ⟨h1, ?_, h2, ?_, by simp [main]⟩
  · rw [h1]; simp
  · rw [h2]; simp

end project1

/-! ## Float precision: the conversion to float and the math library -/

section Rounding

variable {K : Type} [LinearOrderedField K] [FloorRing K]

/-- The rounded value is the integer within less than one half of `q`. -/
theorem roundHalfEven_eq (q : K) (n : ℤ) (h : |q - n| < 1 / 2) : roundHalfEven q = n := by
  obtain ⟨h1, h2⟩ := abs_lt.mp h
  have hf1 : (⌊q⌋ : K) ≤ q := Int.floor_le q
  have hf2 : q < ⌊q⌋ + 1 := Int.lt_floor_add_one q
  unfold roundHalfEven
  by_cases c1 : q - ⌊q⌋ < 1 / 2
  · rw [if_pos c1]
    have a1 : (n : K) < ⌊q⌋ + 1 := by linarith
    have a2 : (⌊q⌋ : K) < n + 1 := by linarith
    have b1 : n < ⌊q⌋ + 1 := by exact_mod_cast a1
    have b2 : ⌊q⌋ < n + 1 := by exact_mod_cast a2
    omega
  · rw [if_neg c1]
    have c2 : 1 / 2 < q - ⌊q⌋ := by
      rcases lt_or_eq_of_le (not_lt.mp c1) with c | c
      · exact c
      · exfalso
        have a1 : (n : K) < ⌊q⌋ + 1 := by linarith
        have a2 : (⌊q⌋ : K) < n := by linarith
        have b1 : n < ⌊q⌋ + 1 := by exact_mod_cast a1
        have b2 : ⌊q⌋ < n := by exact_mod_cast a2
        omega
    rw [if_pos c2]
    have a1 : (n : K) < ⌊q⌋ + 1 + 1 := by linarith
    have a2 : (⌊q⌋ : K) < n := by linarith
    have b1 : n < ⌊q⌋ + 1 + 1 := by exact_mod_cast a1
    have b2 : ⌊q⌋ < n := by exact_mod_cast a2
    omega

/-- Rounding moves a value by at most one half. -/
theorem abs_roundHalfEven_sub_le (q : K) : |(roundHalfEven q : K) - q| ≤ 1 / 2 := by
  have hf1 : (⌊q⌋ : K) ≤ q := Int.floor_le q
  have hf2 : q < ⌊q⌋ + 1 := Int.lt_floor_add_one q
  unfold roundHalfEven
  rw [abs_le]
  by_cases c1 : q - ⌊q⌋ < 1 / 2
  · rw [if_pos c1]; constructor <;> linarith
  · rw [if_neg c1]
    by_cases c2 : 1 / 2 < q - ⌊q⌋
    · rw [if_pos c2]; push_cast; constructor <;> linarith
    · rw [if_neg c2]
      have c3 : q - ⌊q⌋ = 1 / 2 := le_antisymm (not_lt.mp c2) (not_lt.mp c1)
      by_cases c4 : ⌊q⌋ % 2 = 0
      · rw [if_pos c4]; constructor <;> linarith
      · rw [if_neg c4]; push_cast; constructor <;> linarith

/-- Within the binade `[2 ^ e, 2 ^ (e + 1))`, `e ≥ -126`, the conversion to `float` rounds
to a multiple of `2 ^ (e - 23)`. -/
theorem roundFloat32_of_binade (x : K) (e : ℤ) (he : -126 ≤ e) (h1 : (2 : K) ^ e ≤ |x|)
    (h2 : |x| < (2 : K) ^ (e + 1)) :
    roundFloat32 x = (roundHalfEven (x / 2 ^ (e - 23)) : K) * 2 ^ (e - 23) := by
  have hpos : (0 : K) < |x| := lt_of_lt_of_le (zpow_pos (by norm_num) e) h1
  have hx : x ≠ 0 := abs_pos.mp hpos
  have hlog : Int.log 2 |x| = e := by
    have a1 : e ≤ Int.log 2 |x| := by
      rw [← Int.zpow_le_iff_le_log (by norm_num) hpos]; exact_mod_cast h1
    have a2 : Int.log 2 |x| < e + 1 := by
      rw [← Int.lt_zpow_iff_log_lt (by norm_num) hpos]; exact_mod_cast h2
    omega
  unfold roundFloat32
  rw [if_neg hx, hlog, max_eq_left he]

/-- The value of the conversion to `float` from the binade of `x` and the nearest multiple
of the spacing. -/
theorem roundFloat32_eq (x : K) (e n : ℤ) (he : -126 ≤ e) (h1 : (2 : K) ^ e ≤ |x|)
    (h2 : |x| < (2 : K) ^ (e + 1)) (hn : |x / 2 ^ (e - 23) - n| < 1 / 2) :
    roundFloat32 x = n * 2 ^ (e - 23) := by
  rw [roundFloat32_of_binade x e he h1 h2, roundHalfEven_eq _ n hn]

/-- The conversion to `float` moves a value of the binade `[2 ^ e, 2 ^ (e + 1))` by at most
half the spacing `2 ^ (e - 23)`. -/
theorem roundFloat32_error (x : K) (e : ℤ) (he : -126 ≤ e) (h1 : (2 : K) ^ e ≤ |x|)
    (h2 : |x| < (2 : K) ^ (e + 1)) :
    |roundFloat32 x - x| ≤ 2 ^ (e - 24) := by
  rw [roundFloat32_of_binade x e he h1 h2]
  have hu : (0 : K) < 2 ^ (e - 23) := zpow_pos (by norm_num) _
  have h := abs_roundHalfEven_sub_le (x / 2 ^ (e - 23))
  have e1 : (roundHalfEven (x / 2 ^ (e - 23)) : K) * 2 ^ (e - 23) - x
      = ((roundHalfEven (x / 2 ^ (e - 23)) : K) - x / 2 ^ (e - 23)) * 2 ^ (e - 23) := by
    field_simp
  have e2 : (2 : K) ^ (e - 24) = 1 / 2 * 2 ^ (e - 23) := by
    have : e - 23 = (e - 24) + 1 := by ring
    rw [this, zpow_add_one₀ (by norm_num)]
    ring
  rw [e1, abs_mul, abs_of_pos hu, e2]
  exact mul_le_mul_of_nonneg_right h hu.le

/-- Rounding does not go below the floor. -/
theorem floor_le_roundHalfEven (q : K) : ⌊q⌋ ≤ roundHalfEven q := by
  unfold roundHalfEven
  split_ifs <;> omega

/-- Rounding does not go above the floor plus one. -/
theorem roundHalfEven_le_floor_add_one (q : K) : roundHalfEven q ≤ ⌊q⌋ + 1 := by
  unfold roundHalfEven
  split_ifs <;> omega

/-- Rounding to the nearest integer is monotone. -/
theorem roundHalfEven_mono {q₁ q₂ : K} (h : q₁ ≤ q₂) : roundHalfEven q₁ ≤ roundHalfEven q₂ := by
  have hf : ⌊q₁⌋ ≤ ⌊q₂⌋ := Int.floor_mono h
  rcases lt_or_eq_of_le hf with hlt | heq
  · have a := roundHalfEven_le_floor_add_one q₁
    have b := floor_le_roundHalfEven q₂
    omega
  · unfold roundHalfEven
    rw [← heq]
    have hr : q₁ - ⌊q₁⌋ ≤ q₂ - ⌊q₁⌋ := by linarith
    by_cases c1 : q₂ - ⌊q₁⌋ < 1 / 2
    · rw [if_pos c1, if_pos (lt_of_le_of_lt hr c1)]
    · rw [if_neg c1]
      by_cases d1 : q₁ - ⌊q₁⌋ < 1 / 2
      · rw [if_pos d1]; split_ifs <;> omega
      · rw [if_neg d1]
        by_cases d2 : 1 / 2 < q₁ - ⌊q₁⌋
        · rw [if_pos d2, if_pos (lt_of_lt_of_le d2 hr)]
        · rw [if_neg d2]
          by_cases c2 : 1 / 2 < q₂ - ⌊q₁⌋
          · rw [if_pos c2]; split_ifs <;> omega
          · rw [if_neg c2]

/-- An integer rounds to itself. -/
theorem roundHalfEven_intCast (n : ℤ) : roundHalfEven (n : K) = n :=
  roundHalfEven_eq _ n (by simp)

/-- The conversion to `float` of a non-negative value is non-negative. -/
theorem roundFloat32_nonneg {x : K} (h : 0 ≤ x) : 0 ≤ roundFloat32 x := by
  unfold roundFloat32
  split_ifs with h0
  · exact le_refl 0
  · have hu : (0 : K) < 2 ^ (max (Int.log 2 |x|) (-126) - 23) := zpow_pos (by norm_num) _
    have hq : (0 : K) ≤ x / 2 ^ (max (Int.log 2 |x|) (-126) - 23) := div_nonneg h hu.le
    have hr : (0 : ℤ) ≤ roundHalfEven (x / 2 ^ (max (Int.log 2 |x|) (-126) - 23)) :=
      le_trans (Int.floor_nonneg.mpr hq) (floor_le_roundHalfEven _)
    have hr2 : (0 : K) ≤ (roundHalfEven (x / 2 ^ (max (Int.log 2 |x|) (-126) - 23)) : K) := by
      exact_mod_cast hr
    exact mul_nonneg hr2 hu.le

/-- The conversion to `float` is monotone on the non-negative values. -/
theorem roundFloat32_mono {x y : K} (hx : 0 ≤ x) (h : x ≤ y) :
    roundFloat32 x ≤ roundFloat32 y := by
  rcases eq_or_lt_of_le hx with h0 | hpos
  · rw [← h0, show roundFloat32 (0 : K) = 0 from if_pos rfl]
    exact roundFloat32_nonneg (le_trans hx h)
  have hypos : 0 < y := lt_of_lt_of_le hpos h
  have ax : |x| = x := abs_of_pos hpos
  have ay : |y| = y := abs_of_pos hypos
  have hlog : Int.log 2 x ≤ Int.log 2 y := Int.log_mono_right hpos h
  have hxe : roundFloat32 x = (roundHalfEven (x / 2 ^ (max (Int.log 2 x) (-126) - 23)) : K) *
      2 ^ (max (Int.log 2 x) (-126) - 23) := by
    unfold roundFloat32; rw [if_neg hpos.ne', ax]
  have hye : roundFloat32 y = (roundHalfEven (y / 2 ^ (max (Int.log 2 y) (-126) - 23)) : K) *
      2 ^ (max (Int.log 2 y) (-126) - 23) := by
    unfold roundFloat32; rw [if_neg hypos.ne', ay]
  rw [hxe, hye]
  generalize hex : max (Int.log 2 x) (-126) = ex
  generalize hey : max (Int.log 2 y) (-126) = ey
  have hee : ex ≤ ey := by rw [← hex, ← hey]; exact max_le_max hlog (le_refl _)
  have hux : (0 : K) < 2 ^ (ex - 23) := zpow_pos (by norm_num) _
  have huy : (0 : K) < 2 ^ (ey - 23) := zpow_pos (by norm_num) _
  rcases eq_or_lt_of_le hee with heq | hlt
  · rw [← heq]
    have hq : x / 2 ^ (ex - 23) ≤ y / 2 ^ (ex - 23) := div_le_div_of_nonneg_right h hux.le
    have hr : (roundHalfEven (x / 2 ^ (ex - 23)) : K) ≤ roundHalfEven (y / 2 ^ (ex - 23)) := by
      exact_mod_cast roundHalfEven_mono hq
    exact mul_le_mul_of_nonneg_right hr hux.le
  · -- the value of `x` rounds to at most `2 ^ (ex + 1)`
    have hx1 : x < 2 ^ (ex + 1) := by
      have a := Int.lt_zpow_succ_log_self (b := 2) (by norm_num) x
      have b : ((2 : ℕ) : K) ^ (Int.log 2 x + 1) ≤ ((2 : ℕ) : K) ^ (ex + 1) := by
        apply zpow_le_zpow_right₀ (by norm_num)
        have : Int.log 2 x ≤ ex := by rw [← hex]; exact le_max_left _ _
        omega
      have c := lt_of_lt_of_le a b
      exact_mod_cast c
    have e1 : (2 : K) ^ (ex + 1) = 16777216 * 2 ^ (ex - 23) := by
      have : ex + 1 = (ex - 23) + 24 := by ring
      rw [this, zpow_add₀ (by norm_num)]
      norm_num
      ring
    have hqx : x / 2 ^ (ex - 23) ≤ ((16777216 : ℤ) : K) := by
      rw [div_le_iff₀ hux]; push_cast; rw [← e1]; exact hx1.le
    have hrx : roundHalfEven (x / 2 ^ (ex - 23)) ≤ 16777216 := by
      have := roundHalfEven_mono hqx
      rwa [roundHalfEven_intCast] at this
    have hfx : (roundHalfEven (x / 2 ^ (ex - 23)) : K) * 2 ^ (ex - 23) ≤ 2 ^ (ex + 1) := by
      rw [e1]
      have : (roundHalfEven (x / 2 ^ (ex - 23)) : K) ≤ 16777216 := by exact_mod_cast hrx
      exact mul_le_mul_of_nonneg_right this hux.le
    -- the value of `y` rounds to at least `2 ^ ey`
    have hey2 : Int.log 2 y = ey := by
      have h126 : -126 ≤ ex := by rw [← hex]; exact le_max_right _ _
      rcases max_choice (Int.log 2 y) (-126) with hc | hc
      · rw [← hey, hc]
      · rw [hc] at hey; omega
    have hy1 : (2 : K) ^ ey ≤ y := by
      have a := Int.zpow_log_le_self (b := 2) (by norm_num) hypos
      rw [hey2] at a
      exact_mod_cast a
    have e2 : (2 : K) ^ ey = 8388608 * 2 ^ (ey - 23) := by
      have : ey = (ey - 23) + 23 := by ring
      nth_rewrite 1 [this]
      rw [zpow_add₀ (by norm_num)]
      norm_num
      ring
    have hqy : ((8388608 : ℤ) : K) ≤ y / 2 ^ (ey - 23) := by
      rw [le_div_iff₀ huy]; push_cast; rw [← e2]; exact hy1
    have hry : 8388608 ≤ roundHalfEven (y / 2 ^ (ey - 23)) := by
      have := roundHalfEven_mono hqy
      rwa [roundHalfEven_intCast] at this
    have hfy : (2 : K) ^ ey ≤ (roundHalfEven (y / 2 ^ (ey - 23)) : K) * 2 ^ (ey - 23) := by
      rw [e2]
      have : (8388608 : K) ≤ (roundHalfEven (y / 2 ^ (ey - 23)) : K) := by exact_mod_cast hry
      exact mul_le_mul_of_nonneg_right this huy.le
    have hmid : (2 : K) ^ (ex + 1) ≤ 2 ^ ey := zpow_le_zpow_right₀ (by norm_num) (by omega)
    exact le_trans hfx (le_trans hmid hfy)

end Rounding


section Float32Math

/-- Zero is a `float`. -/
theorem roundFloat32_zero {K : Type} [LinearOrderedField K] [FloorRing K] :
    roundFloat32 (0 : K) = 0 := if_pos rfl

/-- The conversion to `float` keeps a value within less than `2 ^ (-24)` of 1. -/
theorem roundFloat32_near_one {K : Type} [LinearOrderedField K] [FloorRing K] (x : K)
    (h1 : 1 - 1 / 2 ^ 25 < x) (h2 : x < 1 + 1 / 2 ^ 24) : roundFloat32 x = 1 := by
  rcases lt_or_le x 1 with h | h
  · have hx : |x| = x := abs_of_pos (by linarith)
    have e := roundFloat32_eq x (-1) 16777216 (by norm_num)
      (by rw [hx]; norm_num; linarith) (by rw [hx]; norm_num; linarith)
      (by
        rw [abs_lt]
        norm_num
        constructor <;> linarith)
    rw [e]; norm_num
  · have hx : |x| = x := abs_of_pos (by linarith)
    have e := roundFloat32_eq x 0 8388608 (by norm_num)
      (by rw [hx]; norm_num; linarith) (by rw [hx]; norm_num; linarith)
      (by
        rw [abs_lt]
        norm_num
        constructor <;> linarith)
    rw [e]; norm_num

/-- The cosine of the `float` math library. -/
theorem float32Math_cos (x : ℝ) : float32Math.cos x = roundFloat32 (Real.cos x) := rfl

/-- The sine of the `float` math library. -/
theorem float32Math_sin (x : ℝ) : float32Math.sin x = roundFloat32 (Real.sin x) := rfl

/-- The square root of the `float` math library. -/
theorem float32Math_sqrt (x : ℝ) : float32Math.sqrt x = roundFloat32 (Real.sqrt x) := rfl

/-- The `float` nearest to `π` is `13176795 / 2 ^ 22 = 3.1415927410125732`. -/
theorem float32Math_pi : float32Math.pi = 13176795 / 4194304 := by
  have hp : |Real.pi| = Real.pi := abs_of_pos Real.pi_pos
  have h1 := Real.pi_gt_d20
  have h2 := Real.pi_lt_d20
  have e := roundFloat32_eq Real.pi 1 13176795 (by norm_num)
    (by rw [hp]; norm_num; linarith) (by rw [hp]; norm_num; linarith)
    (by
      rw [abs_lt]
      norm_num
      constructor <;> linarith)
  show roundFloat32 Real.pi = _
  rw [e]; norm_num

/-- The angle `glm::radians(-90.0f)` is the `float` nearest to `-π/2`, `-1.5707963705062866`. -/
theorem radians_float32_neg_ninety :
    glm.radians float32Math (-90) = -(13176795 / 8388608) := by
  rw [glm.radians, float32Math_pi]; norm_num

/-- The angle `glm::radians(0.0f)` is 0. -/
theorem radians_float32_zero : glm.radians float32Math 0 = 0 := by
  rw [glm.radians]; norm_num

/-- The `float` nearest to `π/2` exceeds `π/2` by about `4.3711e-8`. -/
theorem quarter_turn_excess :
    43711 / 10 ^ 12 < (13176795 / 8388608 : ℝ) - Real.pi / 2 ∧
    (13176795 / 8388608 : ℝ) - Real.pi / 2 < 43712 / 10 ^ 12 := by
  have h1 := Real.pi_gt_d20
  have h2 := Real.pi_lt_d20
  constructor <;> norm_num <;> linarith

/-- The exact cosine at the `float` nearest to `π/2` is about `-4.3711e-8`. -/
theorem cos_quarter_turn :
    -(43712 / 10 ^ 12) < Real.cos (13176795 / 8388608) ∧
    Real.cos (13176795 / 8388608) < -(43710 / 10 ^ 12) := by
  obtain ⟨h1, h2⟩ := quarter_turn_excess
  have e : Real.cos (13176795 / 8388608)
      = -Real.sin ((13176795 / 8388608 : ℝ) - Real.pi / 2) := by
    rw [← Real.cos_add_pi_div_two]; congr 1; ring
  have hpos : (0 : ℝ) < (13176795 / 8388608 : ℝ) - Real.pi / 2 := by
    refine lt_trans ?_ h1; norm_num
  have hle : (13176795 / 8388608 : ℝ) - Real.pi / 2 ≤ 1 := by
    refine le_trans h2.le ?_; norm_num
  have s1 := Real.sin_lt hpos
  have s2 := Real.sin_gt_sub_cube hpos hle
  have hc : ((13176795 / 8388608 : ℝ) - Real.pi / 2) ^ 3 ≤ (43712 / 10 ^ 12) ^ 3 :=
    pow_le_pow_left₀ hpos.le h2.le 3
  rw [e]
  constructor
  · linarith
  · have : (43712 / 10 ^ 12 : ℝ) ^ 3 / 4 < 1 / 10 ^ 12 := by norm_num
    linarith

/-- The exact sine at the `float` nearest to `π/2` is within `1e-15` of 1. -/
theorem sin_quarter_turn :
    1 - 1 / 10 ^ 15 < Real.sin (13176795 / 8388608) ∧
    Real.sin (13176795 / 8388608) ≤ 1 := by
  obtain ⟨h1, h2⟩ := quarter_turn_excess
  have e : Real.sin (13176795 / 8388608)
      = Real.cos ((13176795 / 8388608 : ℝ) - Real.pi / 2) := by
    rw [← Real.sin_add_pi_div_two]; congr 1; ring
  have hpos : (0 : ℝ) < (13176795 / 8388608 : ℝ) - Real.pi / 2 := by
    refine lt_trans ?_ h1; norm_num
  have c1 := Real.one_sub_sq_div_two_le_cos (x := (13176795 / 8388608 : ℝ) - Real.pi / 2)
  have hc : ((13176795 / 8388608 : ℝ) - Real.pi / 2) ^ 2 ≤ (43712 / 10 ^ 12) ^ 2 :=
    pow_le_pow_left₀ hpos.le h2.le 2
  rw [e]
  refine ⟨?_, Real.cos_le_one _⟩
  have : (43712 / 10 ^ 12 : ℝ) ^ 2 / 2 < 1 / 10 ^ 15 := by norm_num
  linarith

/-- The cosine of the `float` math library at the `float` nearest to `π/2` is a small
negative number, about `-4.371e-8`, not zero. -/
theorem float32_cos_quarter_turn :
    -(438 / 10 ^ 10) < roundFloat32 (Real.cos (13176795 / 8388608)) ∧
    roundFloat32 (Real.cos (13176795 / 8388608)) < -(437 / 10 ^ 10) := by
  obtain ⟨h1, h2⟩ := cos_quarter_turn
  have hx : |Real.cos (13176795 / 8388608)| = -Real.cos (13176795 / 8388608) :=
    abs_of_neg (by refine lt_trans h2 ?_; norm_num)
  have e := roundFloat32_error (Real.cos (13176795 / 8388608)) (-25) (by norm_num)
    (by rw [hx]; norm_num; linarith) (by rw [hx]; norm_num; linarith)
  rw [abs_le] at e
  norm_num at e
  constructor
  · have : (43712 / 10 ^ 12 : ℝ) + 1 / 562949953421312 < 438 / 10 ^ 10 := by norm_num
    linarith [e.1]
  · have : (437 / 10 ^ 10 : ℝ) + 1 / 562949953421312 < 43710 / 10 ^ 12 := by norm_num
    linarith [e.2]

/-- The sine of the `float` math library at the `float` nearest to `π/2` is exactly 1. -/
theorem float32_sin_quarter_turn : roundFloat32 (Real.sin (13176795 / 8388608)) = 1 := by
  obtain ⟨h1, h2⟩ := sin_quarter_turn
  apply roundFloat32_near_one
  · have : (1 : ℝ) - 1 / 2 ^ 25 < 1 - 1 / 10 ^ 15 := by norm_num
    linarith
  · have : (1 : ℝ) < 1 + 1 / 2 ^ 24 := by norm_num
    linarith

/-- The conversion to `float` keeps a value within less than `2 ^ (-24)` of -1. -/
theorem roundFloat32_near_neg_one {K : Type} [LinearOrderedField K] [FloorRing K] (x : K)
    (h1 : -1 - 1 / 2 ^ 24 < x) (h2 : x < -1 + 1 / 2 ^ 25) : roundFloat32 x = -1 := by
  rcases lt_or_le (-1) x with h | h
  · have hx : |x| = -x := abs_of_neg (by linarith)
    have e := roundFloat32_eq x (-1) (-16777216) (by norm_num)
      (by rw [hx]; norm_num; linarith) (by rw [hx]; norm_num; linarith)
      (by
        rw [abs_lt]
        norm_num
        constructor <;> linarith)
    rw [e]; norm_num
  · have hx : |x| = -x := abs_of_neg (by linarith)
    have e := roundFloat32_eq x 0 (-8388608) (by norm_num)
      (by rw [hx]; norm_num; linarith) (by rw [hx]; norm_num; linarith)
      (by
        rw [abs_lt]
        norm_num
        constructor <;> linarith)
    rw [e]; norm_num

end Float32Math

namespace glm

variable {K : Type} [LinearOrderedField K]

/-- A matrix applied to the point `(0, 0, 0, 1)` gives its last column. -/
theorem mat4_mulVec_origin (m : mat4 K) : m * (⟨0, 0, 0, 1⟩ : vec4 K) = m.c3 := by
  simp only [mat4_mulVec_def, vec4_add_def, vec4_muls_def]
  ext <;> simp

/-- The translation column of a position matrix is not changed by the spin, alignment and
scale factors of a world matrix, whatever the math library. -/
theorem world_c3_any (M : FloatMath K) (P : mat4 K) (a b : K) (u v w : vec3 K) :
    (P * rotate M (mat4.scalar 1) a u * rotate M (mat4.scalar 1) b v *
        scale (mat4.scalar 1) w).c3 = P.c3 := by
  have h1 : (scale (mat4.scalar 1) w : mat4 K).c3 = ⟨0, 0, 0, 1⟩ := rfl
  have h2 : (rotate M (mat4.scalar 1) b v).c3 = ⟨0, 0, 0, 1⟩ := rfl
  have h3 : (rotate M (mat4.scalar 1) a u).c3 = ⟨0, 0, 0, 1⟩ := rfl
  rw [mat4_mul_c3, h1, mat4_mulVec_origin, mat4_mul_c3, h2, mat4_mulVec_origin, mat4_mul_c3, h3,
    mat4_mulVec_origin]

end glm

/-! ## Solar system: orbital distances -/

namespace Assignment1

open glm

/-- The translation of `R_y(a) * T(r, 0, 0)` followed by spin, alignment and scale is
`(r cos a, 0, -r sin a)`. -/
theorem orbit_position (a r b c sc : ℝ) :
    (Spec.R_y realMath a * Spec.T r 0 0 * Spec.R_y realMath b * Spec.R_x realMath c *
        Spec.S sc).position
      = ⟨r * Real.cos a, 0, -(r * Real.sin a)⟩ := by
  simp only [world_c3, mat4.position]
  simp only [mat4_mul_def, Spec.R_y, Spec.T, vec4_add_def, vec4_muls_def, realMath]
  ext <;> simp <;> ring

/-- The point `(r cos a, 0, -r sin a)` is at distance `r` from the origin when `r ≥ 0`. -/
theorem orbit_length (a r : ℝ) (hr : 0 ≤ r) :
    glm.length realMath ⟨r * Real.cos a, 0, -(r * Real.sin a)⟩ = r := by
  simp only [glm.length, glm.dot, realMath]
  have h : r * Real.cos a * (r * Real.cos a) + 0 * 0 + -(r * Real.sin a) * -(r * Real.sin a)
      = r ^ 2 := by
    nlinarith [Real.sin_sq_add_cos_sq a]
  rw [h, Real.sqrt_sq hr]

/-- C18: over the reals (exact cosine, sine and square root, exact arithmetic), for all
orbital angles each planet's world position is `(r cos a, 0, -r sin a)` with `r` = 4, 7,
10, 12, 15, 19, 23, 26 and `a` its orbital angle, hence in the plane `y = 0` and at
distance `r` from the world origin, and the moon's world position is at distance 0.5 from
the earth's. -/
theorem orbital_distances (s : State ℝ) :
    ((mercuryWorldMatrix realMath s).position =
        ⟨4 * Real.cos s.orbitalAngleMercury, 0, -(4 * Real.sin s.orbitalAngleMercury)⟩ ∧
      glm.length realMath (mercuryWorldMatrix realMath s).position = 4) ∧
    ((venusWorldMatrix realMath s).position =
        ⟨7 * Real.cos s.orbitalAngleVenus, 0, -(7 * Real.sin s.orbitalAngleVenus)⟩ ∧
      glm.length realMath (venusWorldMatrix realMath s).position = 7) ∧
    ((earthWorldMatrix realMath s).position =
        ⟨10 * Real.cos s.orbitalAngleEarth, 0, -(10 * Real.sin s.orbitalAngleEarth)⟩ ∧
      glm.length realMath (earthWorldMatrix realMath s).position = 10) ∧
    ((marsWorldMatrix realMath s).position =
        ⟨12 * Real.cos s.orbitalAngleMars, 0, -(12 * Real.sin s.orbitalAngleMars)⟩ ∧
      glm.length realMath (marsWorldMatrix realMath s).position = 12) ∧
    ((jupiterWorldMatrix realMath s).position =
        ⟨15 * Real.cos s.orbitalAngleJupiter, 0, -(15 * Real.sin s.orbitalAngleJupiter)⟩ ∧
      glm.length realMath (jupiterWorldMatrix realMath s).position = 15) ∧
    ((saturnWorldMatrix realMath s).position =
        ⟨19 * Real.cos s.orbitalAngleSaturn, 0, -(19 * Real.sin s.orbitalAngleSaturn)⟩ ∧
      glm.length realMath (saturnWorldMatrix realMath s).position = 19) ∧
    ((uranusWorldMatrix realMath s).position =
        ⟨23 * Real.cos s.orbitalAngleUranus, 0, -(23 * Real.sin s.orbitalAngleUranus)⟩ ∧
      glm.length realMath (uranusWorldMatrix realMath s).position = 23) ∧
    ((neptuneWorldMatrix realMath s).position =
        ⟨26 * Real.cos s.orbitalAngleNeptune, 0, -(26 * Real.sin s.orbitalAngleNeptune)⟩ ∧
      glm.length realMath (neptuneWorldMatrix realMath s).position = 26) ∧
    glm.length realMath
      ((moonWorldMatrix realMath s).position - (earthWorldMatrix realMath s).position) = 0.5 := by
  have hme : (mercuryWorldMatrix realMath s).position =
      ⟨4 * Real.cos s.orbitalAngleMercury, 0, -(4 * Real.sin s.orbitalAngleMercury)⟩ := by
    simp only [mercuryWorldMatrix, mercuryPositionMatrix, rotate_one_y, rotate_one_x,
      translate_one, scale_one_scalar, orbit_position]
  have hve : (venusWorldMatrix realMath s).position =
      ⟨7 * Real.cos s.orbitalAngleVenus, 0, -(7 * Real.sin s.orbitalAngleVenus)⟩ := by
    simp only [venusWorldMatrix, venusPositionMatrix, rotate_one_y, rotate_one_x,
      translate_one, scale_one_scalar, orbit_position]
  have hea : (earthWorldMatrix realMath s).position =
      ⟨10 * Real.cos s.orbitalAngleEarth, 0, -(10 * Real.sin s.orbitalAngleEarth)⟩ := by
    simp only [earthWorldMatrix, earthPositionMatrix, rotate_one_y, rotate_one_x,
      translate_one, scale_one_scalar, orbit_position]
  have hma : (marsWorldMatrix realMath s).position =
      ⟨12 * Real.cos s.orbitalAngleMars, 0, -(12 * Real.sin s.orbitalAngleMars)⟩ := by
    simp only [marsWorldMatrix, marsPositionMatrix, rotate_one_y, rotate_one_x,
      translate_one, scale_one_scalar, orbit_position]
  have hju : (jupiterWorldMatrix realMath s).position =
      ⟨15 * Real.cos s.orbitalAngleJupiter, 0, -(15 * Real.sin s.orbitalAngleJupiter)⟩ := by
    simp only [jupiterWorldMatrix, jupiterPositionMatrix, rotate_one_y, rotate_one_x,
      translate_one, scale_one_scalar, orbit_position]
  have hsa : (saturnWorldMatrix realMath s).position =
      ⟨19 * Real.cos s.orbitalAngleSaturn, 0, -(19 * Real.sin s.orbitalAngleSaturn)⟩ := by
    simp only [saturnWorldMatrix, saturnPositionMatrix, rotate_one_y, rotate_one_x,
      translate_one, scale_one_scalar, orbit_position]
  have hur : (uranusWorldMatrix realMath s).position =
      ⟨23 * Real.cos s.orbitalAngleUranus, 0, -(23 * Real.sin s.orbitalAngleUranus)⟩ := by
    simp only [uranusWorldMatrix, uranusPositionMatrix, rotate_one_y, rotate_one_x,
      translate_one, scale_one_scalar, orbit_position]
  have hne : (neptuneWorldMatrix realMath s).position =
      ⟨26 * Real.cos s.orbitalAngleNeptune, 0, -(26 * Real.sin s.orbitalAngleNeptune)⟩ := by
    simp only [neptuneWorldMatrix, neptunePositionMatrix, rotate_one_y, rotate_one_x,
      translate_one, scale_one_scalar, orbit_position]
  have hmoon : (moonWorldMatrix realMath s).position - (earthWorldMatrix realMath s).position
      = ⟨0.5 * Real.cos (s.orbitalAngleEarth + s.orbitalAngleMoon), 0,
         -(0.5 * Real.sin (s.orbitalAngleEarth + s.orbitalAngleMoon))⟩ := by
    rw [moon_position_eq, earth_position_eq]
    simp only [vec3_sub_def]
    ext <;> simp only <;> ring
  refine ⟨⟨hme, ?_⟩, ⟨hve, ?_⟩, ⟨hea, ?_⟩, ⟨hma, ?_⟩, ⟨hju, ?_⟩, ⟨hsa, ?_⟩, ⟨hur, ?_⟩,
    ⟨hne, ?_⟩, ?_⟩
  · rw [hme]; exact orbit_length _ _ (by norm_num)
  · rw [hve]; exact orbit_length _ _ (by norm_num)
  · rw [hea]; exact orbit_length _ _ (by norm_num)
  · rw [hma]; exact orbit_length _ _ (by norm_num)
  · rw [hju]; exact orbit_length _ _ (by norm_num)
  · rw [hsa]; exact orbit_length _ _ (by norm_num)
  · rw [hur]; exact orbit_length _ _ (by norm_num)
  · rw [hne]; exact orbit_length _ _ (by norm_num)
  · rw [hmoon]; exact orbit_length _ _ (by norm_num)

/-- C18, as stated, fails in `float` precision: with Mercury's orbital angle the `float`
nearest to `π/2` its world position is `(4c, 0, -4)` with `c` about `-4.37e-8`, the rounded
cosine of that angle; this is not `(4 cos a, 0, -4 sin a)` and its distance from the world
origin exceeds 4. -/
theorem mercury_off_orbit_float32 :
    (mercuryWorldMatrix float32Math
        { initialState (0 : ℝ) 0 0 with orbitalAngleMercury := 13176795 / 8388608 }).position
      = ⟨4 * roundFloat32 (Real.cos (13176795 / 8388608)), 0, -4⟩ ∧
    (mercuryWorldMatrix float32Math
        { initialState (0 : ℝ) 0 0 with orbitalAngleMercury := 13176795 / 8388608 }).position
      ≠ ⟨4 * Real.cos (13176795 / 8388608), 0, -(4 * Real.sin (13176795 / 8388608))⟩ ∧
    4 < glm.length realMath
      (mercuryWorldMatrix float32Math
        { initialState (0 : ℝ) 0 0 with orbitalAngleMercury := 13176795 / 8388608 }).position := by
  obtain ⟨c1, c2⟩ := float32_cos_quarter_turn
  have hone : roundFloat32 (1 : ℝ) = 1 := roundFloat32_near_one 1 (by norm_num) (by norm_num)
  have hpos : (mercuryWorldMatrix float32Math
        { initialState (0 : ℝ) 0 0 with orbitalAngleMercury := 13176795 / 8388608 }).position
      = ⟨4 * roundFloat32 (Real.cos (13176795 / 8388608)), 0, -4⟩ := by
    simp only [mat4.position, mercuryWorldMatrix, world_c3_any]
    simp only [mercuryPositionMatrix, mat4_mul_c3, glm.translate, glm.rotate, glm.normalize,
      glm.dot, mat4.scalar, mat4_mulVec_def, vec4_add_def, vec4_muls_def, vec3_muls_def,
      vec3_smul_def, float32Math_cos, float32Math_sin, float32Math_sqrt,
      float32_sin_quarter_turn]
    norm_num [hone]
    ring
  refine ⟨hpos, ?_, ?_⟩
  · rw [hpos]
    intro h
    have hz := congrArg vec3.z h
    simp only at hz
    have hs : Real.sin (13176795 / 8388608) = 1 := by linarith
    have hsq := Real.sin_sq_add_cos_sq (13176795 / 8388608)
    rw [hs] at hsq
    obtain ⟨d1, d2⟩ := cos_quarter_turn
    have hcz : Real.cos (13176795 / 8388608) = 0 := by
      have : Real.cos (13176795 / 8388608) ^ 2 = 0 := by linarith
      exact pow_eq_zero_iff (by norm_num) |>.mp this
    rw [hcz] at d2
    norm_num at d2
  · rw [hpos]
    simp only [glm.length, glm.dot, realMath_sqrt]
    have hc : roundFloat32 (Real.cos (13176795 / 8388608)) ≠ 0 := by
      have : (437 / 10 ^ 10 : ℝ) > 0 := by norm_num
      intro h; rw [h] at c2; linarith
    have hp : 0 < roundFloat32 (Real.cos (13176795 / 8388608)) ^ 2 := by positivity
    apply Real.lt_sqrt_of_sq_lt
    nlinarith

end Assignment1

/-! ## Solar system: the frame loop -/

namespace Assignment1

open glm

variable {K : Type} [LinearOrderedField K]

/-- The view matrix drawn in an iteration is built from the camera the iteration starts
with. -/
theorem frame_viewMatrix (M : FloatMath K) (inp : FrameInput K) (s : State K) :
    (frame M inp s).viewMatrix = viewMatrix M s := rfl

/-- The z entry of the translation column of the view matrix. -/
theorem viewMatrix_c3_z (M : FloatMath K) (s : State K) :
    (viewMatrix M s).c3.z =
      dot (normalize M (s.cameraPosition + s.cameraLookAt - s.cameraPosition))
        s.cameraPosition := rfl

/-- C19, as stated, fails: in the first iteration from the initial state, with clock
reading 1, the cursor unmoved and only W pressed, the phases run in the order state
advancement, draw calls, input sampling; the view matrix drawn has translation z-entry
-30 (camera at `(15, 1, 30)`), while the camera after the iteration's input is at
`(15, 1, 29)` and its view matrix has z-entry -29. -/
theorem drawn_view_ignores_same_frame_input :
    (frame realMath ⟨1, false, false, false, true, false, false, false, 0, 0⟩
        (initialState 0 0 0)).phases
      ≠ [Phase.inputSampling, Phase.stateAdvancement, Phase.drawCalls] ∧
    (frame realMath ⟨1, false, false, false, true, false, false, false, 0, 0⟩
        (initialState 0 0 0)).viewMatrix.c3.z = -30 ∧
    (frame realMath ⟨1, false, false, false, true, false, false, false, 0, 0⟩
        (initialState 0 0 0)).state.cameraPosition = ⟨15, 1, 29⟩ ∧
    (viewMatrix realMath
      (frame realMath ⟨1, false, false, false, true, false, false, false, 0, 0⟩
        (initialState 0 0 0)).state).c3.z = -29 ∧
    (frame realMath ⟨1, false, false, false, true, false, false, false, 0, 0⟩
        (initialState 0 0 0)).viewMatrix
      ≠ viewMatrix realMath
          (frame realMath ⟨1, false, false, false, true, false, false, false, 0, 0⟩
            (initialState 0 0 0)).state := by
  have hp : stdMax (-85 : ℝ) (stdMin 85 (0 - (0 - 0) * 15 * (1 - 0))) = 0 := by
    rw [clamp85_of_mem] <;> norm_num
  have hy : (90 : ℝ) - (0 - 0) * 15 * (1 - 0) = 90 := by norm_num
  have hlook : (frame realMath ⟨1, false, false, false, true, false, false, false, 0, 0⟩
        (initialState 0 0 0)).state.cameraLookAt = ⟨0, 0, -1⟩ := by
    simp only [frame, handleInputs, updateLook, updateAngles, initialState, cameraAngularSpeed,
      hp, hy, radians_zero, radians_ninety, realMath_cos, realMath_sin, Real.cos_pi_div_two,
      Real.sin_pi_div_two, Real.cos_zero, Real.sin_zero]
    ext <;> norm_num
  have hpos : (frame realMath ⟨1, false, false, false, true, false, false, false, 0, 0⟩
        (initialState 0 0 0)).state.cameraPosition = ⟨15, 1, 29⟩ := by
    simp only [frame, handleInputs, updateLook, updateAngles, initialState, cameraAngularSpeed,
      hp, hy, radians_zero, radians_ninety, realMath_cos, realMath_sin, Real.cos_pi_div_two,
      Real.sin_pi_div_two, Real.cos_zero, Real.sin_zero, cameraSpeed, vec3_add_def,
      vec3_muls_def, Bool.or_false, Bool.false_eq_true, if_false, if_true]
    ext <;> norm_num
  have h1 : (frame realMath ⟨1, false, false, false, true, false, false, false, 0, 0⟩
        (initialState 0 0 0)).viewMatrix.c3.z = -30 := by
    rw [frame_viewMatrix, viewMatrix_c3_z]
    simp only [initialState, glm.normalize, glm.dot, vec3_add_def, vec3_sub_def,
      vec3_muls_def, realMath_sqrt]
    norm_num
  have h2 : (viewMatrix realMath
      (frame realMath ⟨1, false, false, false, true, false, false, false, 0, 0⟩
        (initialState 0 0 0)).state).c3.z = -29 := by
    rw [viewMatrix_c3_z, hlook, hpos]
    simp only [glm.normalize, glm.dot, vec3_add_def, vec3_sub_def, vec3_muls_def,
      realMath_sqrt]
    norm_num
  refine ⟨by simp [frame], h1, hpos, h2, ?_⟩
  intro h
  rw [h, h2] at h1
  norm_num at h1

/-- C19, amended: in every iteration of the frame loop the phases occur in the order state
advancement, draw calls, input sampling.  The world matrices drawn are those of the angles
advanced in this iteration; the view matrix drawn is that of the camera the iteration
starts with, so it reflects the input sampled in the previous iteration (the initial
camera in the first one), and the input sampled in this iteration shows in the view
matrix drawn by the next. -/
theorem frame_phase_order (M : FloatMath K) (inp next : FrameInput K) (s : State K) :
    (frame M inp s).phases = [Phase.stateAdvancement, Phase.drawCalls, Phase.inputSampling] ∧
    (frame M inp s).viewMatrix = viewMatrix M s ∧
    (frame M inp s).worldMatrices =
      [sunWorldMatrix M (updateAngles M (inp.time - s.lastFrameTime) s),
       mercuryWorldMatrix M (updateAngles M (inp.time - s.lastFrameTime) s),
       venusWorldMatrix M (updateAngles M (inp.time - s.lastFrameTime) s),
       earthWorldMatrix M (updateAngles M (inp.time - s.lastFrameTime) s),
       moonWorldMatrix M (updateAngles M (inp.time - s.lastFrameTime) s),
       marsWorldMatrix M (updateAngles M (inp.time - s.lastFrameTime) s),
       jupiterWorldMatrix M (updateAngles M (inp.time - s.lastFrameTime) s),
       saturnWorldMatrix M (updateAngles M (inp.time - s.lastFrameTime) s),
       uranusWorldMatrix M (updateAngles M (inp.time - s.lastFrameTime) s),
       neptuneWorldMatrix M (updateAngles M (inp.time - s.lastFrameTime) s)] ∧
    (frame M inp s).state.cameraPosition =
      (handleInputs M inp (inp.time - s.lastFrameTime) s).cameraPosition ∧
    (frame M inp s).state.cameraLookAt =
      (handleInputs M inp (inp.time - s.lastFrameTime) s).cameraLookAt ∧
    (frame M next (frame M inp s).state).viewMatrix = viewMatrix M (frame M inp s).state :=
  ⟨rfl, rfl, rfl, rfl, rfl, rfl⟩

end Assignment1

/-! ## Frame clock -/

namespace Assignment1

open glm

variable {K : Type} [LinearOrderedField K]

/-- The frame time of an iteration is the clock reading minus the stored timestamp. -/
theorem frame_dt (M : FloatMath K) (inp : FrameInput K) (s : State K) :
    (frame M inp s).dt = inp.time - s.lastFrameTime := rfl

/-- After an iteration the stored timestamp is the clock reading of that iteration. -/
theorem frame_lastFrameTime (M : FloatMath K) (inp : FrameInput K) (s : State K) :
    (frame M inp s).state.lastFrameTime = inp.time := by
  show s.lastFrameTime + (inp.time - s.lastFrameTime) = inp.time
  ring

/-- A run of iterations that ends with the input `inp`. -/
theorem frames_concat (M : FloatMath K) (s : State K) (inputs : List (FrameInput K))
    (inp : FrameInput K) :
    frames M s (inputs ++ [inp]) = (frame M inp (frames M s inputs)).state := by
  simp [frames, List.foldl_append]

/-- The frame clock of the solar-system loop over a run of iterations with non-decreasing
clock readings. -/
theorem frames_clock (M : FloatMath K) (inputs : List (FrameInput K)) (s : State K)
    (h : List.Chain (· ≤ ·) s.lastFrameTime (inputs.map (fun i => i.time))) :
    (∀ d ∈ frameDeltas M s inputs, 0 ≤ d) ∧
    (frameDeltas M s inputs).sum = (frames M s inputs).lastFrameTime - s.lastFrameTime := by
  induction inputs generalizing s with
  | nil => simp [frameDeltas, frames]
  | cons inp rest ih =>
    simp only [List.map_cons, List.chain_cons] at h
    have h2 : List.Chain (· ≤ ·) (frame M inp s).state.lastFrameTime
        (rest.map (fun i => i.time)) := by
      rw [frame_lastFrameTime]; exact h.2
    obtain ⟨ih1, ih2⟩ := ih (frame M inp s).state h2
    have hf : frames M s (inp :: rest) = frames M (frame M inp s).state rest := rfl
    constructor
    · intro d hd
      simp only [frameDeltas, List.mem_cons] at hd
      rcases hd with hd | hd
      · rw [hd, frame_dt]; exact sub_nonneg.mpr h.1
      · exact ih1 d hd
    · simp only [frameDeltas, List.sum_cons]
      rw [ih2, hf, frame_dt, frame_lastFrameTime]
      ring

end Assignment1

namespace project1

open glm

variable {K : Type} [LinearOrderedField K]

/-- A run of `processInput` calls that ends with the call `c`. -/
theorem processInputs_concat (M : FloatMath K) (s : State K)
    (calls : List (K × Bool × Bool × Bool × Bool)) (c : K × Bool × Bool × Bool × Bool) :
    processInputs M s (calls ++ [c]) =
      processInput M (processInputs M s calls) c.1 c.2.1 c.2.2.1 c.2.2.2.1 c.2.2.2.2 := by
  simp [processInputs, List.foldl_append]

/-- The frame clock of `processInput` over a run of calls with non-decreasing clock
readings. -/
theorem processInputs_clock (M : FloatMath K) (calls : List (K × Bool × Bool × Bool × Bool))
    (s : State K) (h : List.Chain (· ≤ ·) s.lastFrame (calls.map (fun c => c.1))) :
    (∀ d ∈ deltaTimes M s calls, 0 ≤ d) ∧
    (deltaTimes M s calls).sum = (processInputs M s calls).lastFrame - s.lastFrame := by
  induction calls generalizing s with
  | nil => simp [deltaTimes, processInputs]
  | cons c rest ih =>
    simp only [List.map_cons, List.chain_cons] at h
    have hl : (processInput M s c.1 c.2.1 c.2.2.1 c.2.2.2.1 c.2.2.2.2).lastFrame = c.1 := rfl
    have hd : (processInput M s c.1 c.2.1 c.2.2.1 c.2.2.2.1 c.2.2.2.2).deltaTime
        = c.1 - s.lastFrame := rfl
    have h2 : List.Chain (· ≤ ·)
        (processInput M s c.1 c.2.1 c.2.2.1 c.2.2.2.1 c.2.2.2.2).lastFrame
        (rest.map (fun c => c.1)) := by
      rw [hl]; exact h.2
    obtain ⟨ih1, ih2⟩ := ih _ h2
    have hf : processInputs M s (c :: rest) =
        processInputs M (processInput M s c.1 c.2.1 c.2.2.1 c.2.2.2.1 c.2.2.2.2) rest := rfl
    constructor
    · intro d hmem
      simp only [deltaTimes, List.mem_cons] at hmem
      rcases hmem with hmem | hmem
      · rw [hmem, hd]; exact sub_nonneg.mpr h.1
      · exact ih1 d hmem
    · simp only [deltaTimes, List.sum_cons]
      rw [ih2, hf, hd, hl]
      ring

end project1

namespace Assignment1

open glm

/-- Without conversion the frame-time calculation is that of `frame`. -/
theorem frameTime_exact {K : Type} [LinearOrderedField K] (M : FloatMath K)
    (inp : FrameInput K) (s : State K) :
    frameTime id s.lastFrameTime inp.time
      = ((frame M inp s).dt, (frame M inp s).state.lastFrameTime) := rfl

end Assignment1

namespace project1

open glm

/-- Without conversion the frame-time lines are those of `processInput`. -/
theorem processInput_frameTime_exact {K : Type} [LinearOrderedField K] (M : FloatMath K)
    (s : State K) (currentFrame : K) (keyW keyS keyA keyD : Bool) :
    frameTime id s.lastFrame currentFrame
      = ((processInput M s currentFrame keyW keyS keyA keyD).deltaTime,
         (processInput M s currentFrame keyW keyS keyA keyD).lastFrame) := rfl

/-- In `float` precision the values of `deltaTime` are non-negative when the clock readings
are non-decreasing from a non-negative one: the conversion to `float` is monotone. -/
theorem frameTimes_float32_nonneg {K : Type} [LinearOrderedField K] [FloorRing K]
    (readings : List K) (prev : K) (h0 : 0 ≤ prev) (h : List.Chain (· ≤ ·) prev readings) :
    ∀ d ∈ frameTimes roundFloat32 (roundFloat32 prev) readings, 0 ≤ d := by
  induction readings generalizing prev with
  | nil => simp [frameTimes]
  | cons r rest ih =>
    simp only [List.chain_cons] at h
    intro d hd
    simp only [frameTimes, List.mem_cons] at hd
    rcases hd with hd | hd
    · rw [hd]
      exact roundFloat32_nonneg (sub_nonneg.mpr (roundFloat32_mono h0 h.1))
    · exact ih r (le_trans h0 h.1) h.2 d hd

end project1

/-- The `float` nearest to the clock reading 0.1 is `13421773 / 2 ^ 27`, above 0.1. -/
theorem roundFloat32_tenth : roundFloat32 (1 / 10 : ℚ) = 13421773 / 134217728 := by
  have hx : |(1 / 10 : ℚ)| = 1 / 10 := abs_of_pos (by norm_num)
  have e := roundFloat32_eq (1 / 10 : ℚ) (-4) 13421773 (by norm_num)
    (by rw [hx]; norm_num) (by rw [hx]; norm_num)
    (by rw [abs_lt]; norm_num)
  rw [e]; norm_num

/-- C20, as stated, fails for the solar-system program in `float` precision: with the clock
reading 0.1 before the loop the stored `float` timestamp is
`13421773 / 2 ^ 27 = 0.10000000149...`, above the reading; the same reading 0.1 in the first
iteration (non-decreasing readings) gives the frame time `-13421773 / 2 ^ 53`, about
`-1.49e-9`, and the later reading `0.1 + 1e-9` gives `-8829147 / 2 ^ 54`, about `-4.9e-10`:
both negative. -/
theorem solar_frame_time_negative_float32 :
    (List.Chain (· ≤ ·) (1 / 10 : ℚ) [1 / 10] ∧
      List.Chain (· ≤ ·) (1 / 10 : ℚ) [1 / 10 + 1 / 10 ^ 9]) ∧
    Assignment1.initialFrameTime roundFloat32 (1 / 10 : ℚ) = 13421773 / 134217728 ∧
    Assignment1.frameTimes roundFloat32
        (Assignment1.initialFrameTime roundFloat32 (1 / 10 : ℚ)) [1 / 10]
      = [-(13421773 / 9007199254740992)] ∧
    Assignment1.frameTimes roundFloat32
        (Assignment1.initialFrameTime roundFloat32 (1 / 10 : ℚ)) [1 / 10 + 1 / 10 ^ 9]
      = [-(8829147 / 18014398509481984)] ∧
    (Assignment1.frameTime roundFloat32
        (Assignment1.initialFrameTime roundFloat32 (1 / 10 : ℚ)) (1 / 10)).1 < 0 := by
  have hd : roundFloat32 ((1 / 10 : ℚ) - 13421773 / 134217728)
      = -(13421773 / 9007199254740992) := by
    have hx : |((1 / 10 : ℚ) - 13421773 / 134217728)| = 1 / 671088640 := by
      rw [abs_of_neg (by norm_num)]; norm_num
    have e := roundFloat32_eq ((1 / 10 : ℚ) - 13421773 / 134217728) (-30) (-13421773)
      (by norm_num) (by rw [hx]; norm_num) (by rw [hx]; norm_num)
      (by rw [abs_lt]; norm_num)
    rw [e]; norm_num
  have hd2 : roundFloat32 ((1 / 10 : ℚ) + 1 / 10 ^ 9 - 13421773 / 134217728)
      = -(8829147 / 18014398509481984) := by
    have hx : |((1 / 10 : ℚ) + 1 / 10 ^ 9 - 13421773 / 134217728)|
        = 128481 / 262144000000000 := by
      rw [abs_of_neg (by norm_num)]; norm_num
    have e := roundFloat32_eq ((1 / 10 : ℚ) + 1 / 10 ^ 9 - 13421773 / 134217728) (-31)
      (-8829147) (by norm_num) (by rw [hx]; norm_num) (by rw [hx]; norm_num)
      (by rw [abs_lt]; norm_num)
    rw [e]; norm_num
  refine ⟨⟨by simp, by simp⟩, roundFloat32_tenth, ?_, ?_, ?_⟩
  · simp only [Assignment1.frameTimes, Assignment1.frameTime, Assignment1.initialFrameTime,
      roundFloat32_tenth, hd]
  · simp only [Assignment1.frameTimes, Assignment1.frameTime, Assignment1.initialFrameTime,
      roundFloat32_tenth, hd2]
  · simp only [Assignment1.frameTime, Assignment1.initialFrameTime, roundFloat32_tenth, hd]
    norm_num

/-- C20: over exact arithmetic, in both programs, when successive clock readings are
non-decreasing (starting from the timestamp stored before the loop in the solar system, and
from 0 in the robot arm), every frame's delta time is non-negative, after the frame-time
update of each frame the stored last-frame timestamp equals the clock reading taken in that
frame, and the deltas of the frames of a run sum to the last stored timestamp minus the
initial one; in the robot-arm program the delta times are non-negative in `float` precision
too (readings converted to `float`, difference of two `float` values). -/
theorem frame_clock {K : Type} [LinearOrderedField K] {F : Type} [LinearOrderedField F]
    [FloorRing F] (M : FloatMath K)
    (s : Assignment1.State K) (inputs : List (Assignment1.FrameInput K))
    (calls : List (K × Bool × Bool × Bool × Bool)) (readings : List F)
    (hsolar : List.Chain (· ≤ ·) s.lastFrameTime (inputs.map (fun i => i.time)))
    (hrobot : List.Chain (· ≤ ·) (0 : K) (calls.map (fun c => c.1)))
    (hreadings : List.Chain (· ≤ ·) (0 : F) readings) :
    ((∀ d ∈ Assignment1.frameDeltas M s inputs, 0 ≤ d) ∧
      (∀ (before : List (Assignment1.FrameInput K)) (inp : Assignment1.FrameInput K),
        (Assignment1.frames M s (before ++ [inp])).lastFrameTime = inp.time) ∧
      (Assignment1.frameDeltas M s inputs).sum =
        (Assignment1.frames M s inputs).lastFrameTime - s.lastFrameTime) ∧
    ((∀ d ∈ project1.deltaTimes M project1.initialState calls, 0 ≤ d) ∧
      (∀ (before : List (K × Bool × Bool × Bool × Bool)) (c : K × Bool × Bool × Bool × Bool),
        (project1.processInputs M project1.initialState (before ++ [c])).lastFrame = c.1) ∧
      (project1.deltaTimes M project1.initialState calls).sum =
        (project1.processInputs M project1.initialState calls).lastFrame -
          (project1.initialState : project1.State K).lastFrame) ∧
    (∀ d ∈ project1.frameTimes roundFloat32
        (project1.initialState : project1.State F).lastFrame readings, 0 ≤ d) := by
  obtain ⟨a1, a2⟩ := Assignment1.frames_clock M inputs s hsolar
  obtain ⟨b1, b2⟩ := project1.processInputs_clock M calls project1.initialState hrobot
  refine ⟨⟨a1, ?_, a2⟩, ⟨b1, ?_, b2⟩, ?_⟩
  · intro before inp
    rw [Assignment1.frames_concat, Assignment1.frame_lastFrameTime]
  · intro before c
    rw [project1.processInputs_concat]
    rfl
  · have h := project1.frameTimes_float32_nonneg readings (0 : F) (le_refl 0) hreadings
    rw [roundFloat32_zero] at h
    exact h

/-- C20 witness: two solar-system iterations with clock readings 1 and 3 after the stored
timestamp 0 (frame times 1 and 2), two `processInput` calls with readings 1 and 3, and
two `processInput` calls in `float` precision with the clock readings 0.1 and 0.1. -/
theorem frame_clock_witness :
    (List.Chain (· ≤ ·) (Assignment1.initialState (0 : ℝ) 0 0).lastFrameTime
        ([(⟨1, false, false, false, true, false, false, false, 0, 0⟩ :
            Assignment1.FrameInput ℝ),
          ⟨3, false, false, false, false, false, false, false, 0, 0⟩].map (fun i => i.time)) ∧
      List.Chain (· ≤ ·) (0 : ℝ)
        ([((1 : ℝ), true, false, false, false), (3, false, false, false, false)].map
          (fun c => c.1)) ∧
      List.Chain (· ≤ ·) (0 : ℚ) [1 / 10, 1 / 10]) ∧
    (Assignment1.frameDeltas realMath (Assignment1.initialState 0 0 0)
        [⟨1, false, false, false, true, false, false, false, 0, 0⟩,
         ⟨3, false, false, false, false, false, false, false, 0, 0⟩]).sum
      = (Assignment1.frames realMath (Assignment1.initialState 0 0 0)
          [⟨1, false, false, false, true, false, false, false, 0, 0⟩,
           ⟨3, false, false, false, false, false, false, false, 0, 0⟩]).lastFrameTime
        - (Assignment1.initialState (0 : ℝ) 0 0).lastFrameTime ∧
    (project1.deltaTimes realMath project1.initialState
        [((1 : ℝ), true, false, false, false), (3, false, false, false, false)]).sum
      = (project1.processInputs realMath project1.initialState
          [((1 : ℝ), true, false, false, false), (3, false, false, false, false)]).lastFrame
        - (project1.initialState : project1.State ℝ).lastFrame ∧
    (∀ d ∈ project1.frameTimes roundFloat32
        (project1.initialState : project1.State ℚ).lastFrame [1 / 10, 1 / 10], 0 ≤ d) :=
  have h1 : List.Chain (· ≤ ·) (Assignment1.initialState (0 : ℝ) 0 0).lastFrameTime
      ([(⟨1, false, false, false, true, false, false, false, 0, 0⟩ :
          Assignment1.FrameInput ℝ),
        ⟨3, false, false, false, false, false, false, false, 0, 0⟩].map (fun i => i.time)) := by
    simp [Assignment1.initialState]
  have h2 : List.Chain (· ≤ ·) (0 : ℝ)
      ([((1 : ℝ), true, false, false, false), (3, false, false, false, false)].map
        (fun c => c.1)) := by
    simp
  have h3 : List.Chain (· ≤ ·) (0 : ℚ) [1 / 10, 1 / 10] := by
    simp
  ⟨⟨h1, h2, h3⟩,
   (frame_clock realMath (Assignment1.initialState 0 0 0)
      [⟨1, false, false, false, true, false, false, false, 0, 0⟩,
       ⟨3, false, false, false, false, false, false, false, 0, 0⟩]
      [((1 : ℝ), true, false, false, false), (3, false, false, false, false)]
      [(1 / 10 : ℚ), 1 / 10] h1 h2 h3).1.2.2,
   (frame_clock realMath (Assignment1.initialState 0 0 0)
      [⟨1, false, false, false, true, false, false, false, 0, 0⟩,
       ⟨3, false, false, false, false, false, false, false, 0, 0⟩]
      [((1 : ℝ), true, false, false, false), (3, false, false, false, false)]
      [(1 / 10 : ℚ), 1 / 10] h1 h2 h3).2.1.2.2,
   (frame_clock realMath (Assignment1.initialState 0 0 0)
      [⟨1, false, false, false, true, false, false, false, 0, 0⟩,
       ⟨3, false, false, false, false, false, false, false, 0, 0⟩]
      [((1 : ℝ), true, false, false, false), (3, false, false, false, false)]
      [(1 / 10 : ℚ), 1 / 10] h1 h2 h3).2.2⟩

/-! ## Robot arm: the cursor callback at the initial angles -/

namespace project1

open glm

variable {K : Type} [LinearOrderedField K]

/-- The spherical direction of yaw -90 and pitch 0 degrees is `(0, 0, -1)`. -/
theorem initial_direction :
    (⟨Real.cos (radians realMath (-90)) * Real.cos (radians realMath 0),
      Real.sin (radians realMath 0),
      Real.sin (radians realMath (-90)) * Real.cos (radians realMath 0)⟩ : vec3 ℝ)
      = ⟨0, 0, -1⟩ := by
  simp only [radians_neg_ninety, radians_zero, Real.cos_neg, Real.sin_neg,
    Real.cos_pi_div_two, Real.sin_pi_div_two, Real.cos_zero, Real.sin_zero]
  ext <;> norm_num

/-- The vector `(0, 0, -1)` is its own normalisation. -/
theorem normalize_neg_z : normalize realMath (⟨0, 0, -1⟩ : vec3 ℝ) = ⟨0, 0, -1⟩ := by
  simp only [glm.normalize, glm.dot, realMath_sqrt, vec3_muls_def]
  ext <;> norm_num

/-- The direction computed by `mouse_callback` at yaw -90 and pitch 0 degrees. -/
theorem normalize_initial_direction :
    normalize realMath
        ⟨realMath.cos (radians realMath (-90)) * realMath.cos (radians realMath 0),
         realMath.sin (radians realMath 0),
         realMath.sin (radians realMath (-90)) * realMath.cos (radians realMath 0)⟩
      = ⟨0, 0, -1⟩ := by
  simp only [realMath_cos, realMath_sin]
  rw [initial_direction, normalize_neg_z]

/-- In `float` precision the first cursor callback leaves `cameraFront = (c, 0, -1)` with
`c` the `float` cosine of `glm::radians(-90.0f)`, about `-4.371e-8`. -/
theorem first_callback_front_float32 (xpos ypos : ℝ) :
    (mouse_callback float32Math initialState xpos ypos).cameraFront
      = ⟨roundFloat32 (Real.cos (13176795 / 8388608)), 0, -1⟩ := by
  obtain ⟨c1, c2⟩ := float32_cos_quarter_turn
  obtain ⟨s1, s2⟩ := sin_quarter_turn
  have hy : (mouse_callback float32Math initialState xpos ypos).yaw = -90 := by
    simp [mouse_callback, initialState]
  have hp : (mouse_callback float32Math initialState xpos ypos).pitch = 0 := by
    norm_num [mouse_callback, initialState]
  have hone : roundFloat32 (1 : ℝ) = 1 := roundFloat32_near_one 1 (by norm_num) (by norm_num)
  have hsin : roundFloat32 (-Real.sin (13176795 / 8388608)) = -1 := by
    apply roundFloat32_near_neg_one
    · have : (0 : ℝ) < 1 / 2 ^ 24 := by norm_num
      linarith
    · have : (1 : ℝ) / 10 ^ 15 < 1 / 2 ^ 25 := by norm_num
      linarith
  have hsq : roundFloat32 (Real.cos (13176795 / 8388608)) ^ 2 < 1 / 2 ^ 25 := by
    have : roundFloat32 (Real.cos (13176795 / 8388608)) ^ 2 < (438 / 10 ^ 10) ^ 2 := by
      apply sq_lt_sq'
      · linarith
      · refine lt_trans c2 ?_; norm_num
    refine lt_trans this ?_; norm_num
  have hsqrt : roundFloat32 (Real.sqrt (roundFloat32 (Real.cos (13176795 / 8388608)) ^ 2 + 1))
      = 1 := by
    apply roundFloat32_near_one
    · have : (1 : ℝ) ≤ Real.sqrt (roundFloat32 (Real.cos (13176795 / 8388608)) ^ 2 + 1) := by
        rw [Real.one_le_sqrt]; nlinarith
      have : (0 : ℝ) < 1 / 2 ^ 25 := by norm_num
      linarith
    · rw [Real.sqrt_lt' (by norm_num)]
      have : (1 : ℝ) + 1 / 2 ^ 25 < (1 + 1 / 2 ^ 24) ^ 2 := by norm_num
      linarith
  rw [mouse_callback_cameraFront, hy, hp, radians_float32_neg_ninety, radians_float32_zero]
  simp only [float32Math_cos, float32Math_sin, Real.cos_neg, Real.sin_neg, Real.cos_zero,
    Real.sin_zero, roundFloat32_zero, hone, hsin, glm.normalize, glm.dot, float32Math_sqrt,
    vec3_muls_def]
  have e : roundFloat32 (Real.cos (13176795 / 8388608)) * 1 *
        (roundFloat32 (Real.cos (13176795 / 8388608)) * 1) + 0 * 0 + -1 * 1 * (-1 * 1)
      = roundFloat32 (Real.cos (13176795 / 8388608)) ^ 2 + 1 := by ring
  rw [e, hsqrt]
  ext <;> norm_num

/-- C21, as stated, fails in `float` precision: at the initial angles yaw = -90 and
pitch = 0 degrees the direction computed by the first `mouse_callback` call is
`(c, 0, -1)` with `c` about `-4.37e-8`, the rounded cosine of the `float` nearest to
`-π/2`, and not `(0, 0, -1)`, the initial `cameraFront`. -/
theorem first_callback_direction_float32 :
    (mouse_callback float32Math initialState 400 300).yaw = -90 ∧
    (mouse_callback float32Math initialState 400 300).pitch = 0 ∧
    (mouse_callback float32Math initialState 400 300).cameraFront
      = ⟨roundFloat32 (Real.cos (13176795 / 8388608)), 0, -1⟩ ∧
    -(438 / 10 ^ 10) < (mouse_callback float32Math initialState 400 300).cameraFront.x ∧
    (mouse_callback float32Math initialState 400 300).cameraFront.x < -(437 / 10 ^ 10) ∧
    (mouse_callback float32Math initialState 400 300).cameraFront
      ≠ (initialState : State ℝ).cameraFront := by
  obtain ⟨c1, c2⟩ := float32_cos_quarter_turn
  have hy : (mouse_callback float32Math initialState 400 300).yaw = -90 := by
    simp [mouse_callback, initialState]
  have hp : (mouse_callback float32Math initialState 400 300).pitch = 0 := by
    norm_num [mouse_callback, initialState]
  refine ⟨hy, hp, first_callback_front_float32 400 300, ?_, ?_, ?_⟩
  · rw [first_callback_front_float32]; exact c1
  · rw [first_callback_front_float32]; exact c2
  · rw [first_callback_front_float32]
    intro h
    have hx := congrArg vec3.x h
    simp only [initialState] at hx
    have : (437 / 10 ^ 10 : ℝ) > 0 := by norm_num
    linarith

/-- C21: over the reals (exact cosine, sine and square root), at the initial angles
yaw = -90 and pitch = 0 degrees the direction computed by `mouse_callback`,
`(cos(yaw)cos(pitch), sin(pitch), sin(yaw)cos(pitch))` normalized, is exactly `(0, 0, -1)`,
the initial `cameraFront`; so a `mouse_callback` call that leaves these angles in place
(the first call) leaves `cameraFront` equal to it. -/
theorem initial_direction_is_neg_z :
    (initialState : State ℝ).yaw = -90 ∧ (initialState : State ℝ).pitch = 0 ∧
    normalize realMath
        ⟨Real.cos (radians realMath (-90)) * Real.cos (radians realMath 0),
         Real.sin (radians realMath 0),
         Real.sin (radians realMath (-90)) * Real.cos (radians realMath 0)⟩
      = ⟨0, 0, -1⟩ ∧
    normalize realMath
        ⟨Real.cos (radians realMath (-90)) * Real.cos (radians realMath 0),
         Real.sin (radians realMath 0),
         Real.sin (radians realMath (-90)) * Real.cos (radians realMath 0)⟩
      = (initialState : State ℝ).cameraFront ∧
    (∀ xpos ypos : ℝ,
      (mouse_callback realMath initialState xpos ypos).cameraFront = ⟨0, 0, -1⟩) := by
  have h : normalize realMath
        ⟨Real.cos (radians realMath (-90)) * Real.cos (radians realMath 0),
         Real.sin (radians realMath 0),
         Real.sin (radians realMath (-90)) * Real.cos (radians realMath 0)⟩
      = ⟨0, 0, -1⟩ := by
    exact normalize_initial_direction
  refine ⟨rfl, rfl, h, h, ?_⟩
  intro xpos ypos
  have hy : (mouse_callback realMath initialState xpos ypos).yaw = -90 := by
    simp [mouse_callback, initialState]
  have hp : (mouse_callback realMath initialState xpos ypos).pitch = 0 := by
    norm_num [mouse_callback, initialState]
  rw [mouse_callback_cameraFront, hy, hp]
  exact h

/-- C29: the look and move operations have disjoint effects: `mouse_callback` never
changes `cameraPos`, `cameraUp`, `deltaTime` or `lastFrame`, and `processInput` never
changes `yaw`, `pitch`, `cameraFront`, `lastX`, `lastY` or `firstMouse`, for all inputs
and key states. -/
theorem look_and_move_disjoint (M : FloatMath K) (s : State K) (xpos ypos currentFrame : K)
    (keyW keyS keyA keyD : Bool) :
    ((mouse_callback M s xpos ypos).cameraPos = s.cameraPos ∧
      (mouse_callback M s xpos ypos).cameraUp = s.cameraUp ∧
      (mouse_callback M s xpos ypos).deltaTime = s.deltaTime ∧
      (mouse_callback M s xpos ypos).lastFrame = s.lastFrame) ∧
    ((processInput M s currentFrame keyW keyS keyA keyD).yaw = s.yaw ∧
      (processInput M s currentFrame keyW keyS keyA keyD).pitch = s.pitch ∧
      (processInput M s currentFrame keyW keyS keyA keyD).cameraFront = s.cameraFront ∧
      (processInput M s currentFrame keyW keyS keyA keyD).lastX = s.lastX ∧
      (processInput M s currentFrame keyW keyS keyA keyD).lastY = s.lastY ∧
      (processInput M s currentFrame keyW keyS keyA keyD).firstMouse = s.firstMouse) :=
  ⟨⟨rfl, rfl, rfl, rfl⟩, ⟨rfl, rfl, rfl, rfl, rfl, rfl⟩⟩

/-- C30: the first `mouse_callback` call (from the initial state, `firstMouse = true`)
leaves yaw = -90, pitch = 0 and `cameraFront = (0, 0, -1)` for every cursor position, sets
`(lastX, lastY)` to the cursor position and `firstMouse` to false; a later call
(`firstMouse = false`) adds `0.1 * (xpos - lastX)` to yaw and `0.1 * (lastY - ypos)` to the
pitch before the clamp to `[-89, 89]`, and records the cursor position. -/
theorem first_mouse_no_jump (xpos ypos : ℝ) (s : State ℝ) (hs : s.firstMouse = false) :
    ((mouse_callback realMath initialState xpos ypos).yaw = -90 ∧
      (mouse_callback realMath initialState xpos ypos).pitch = 0 ∧
      (mouse_callback realMath initialState xpos ypos).cameraFront = ⟨0, 0, -1⟩ ∧
      (mouse_callback realMath initialState xpos ypos).lastX = xpos ∧
      (mouse_callback realMath initialState xpos ypos).lastY = ypos ∧
      (mouse_callback realMath initialState xpos ypos).firstMouse = false) ∧
    ((mouse_callback realMath s xpos ypos).yaw = s.yaw + 0.1 * (xpos - s.lastX) ∧
      (mouse_callback realMath s xpos ypos).pitch =
        max (-89) (min 89 (s.pitch + 0.1 * (s.lastY - ypos))) ∧
      (mouse_callback realMath s xpos ypos).lastX = xpos ∧
      (mouse_callback realMath s xpos ypos).lastY = ypos ∧
      (mouse_callback realMath s xpos ypos).firstMouse = false) := by
  have hy : (mouse_callback realMath initialState xpos ypos).yaw = -90 := by
    simp [mouse_callback, initialState]
  have hp : (mouse_callback realMath initialState xpos ypos).pitch = 0 := by
    norm_num [mouse_callback, initialState]
  refine ⟨⟨hy, hp, ?_, rfl, rfl, rfl⟩, ⟨?_, ?_, rfl, rfl, ?_⟩⟩
  · rw [mouse_callback_cameraFront, hy, hp]
    exact normalize_initial_direction
  · simp only [mouse_callback, hs, Bool.false_eq_true, if_false]
    ring
  · simp only [mouse_callback, hs, Bool.false_eq_true, if_false, gt_iff_lt]
    have e : s.pitch + (s.lastY - ypos) * 0.1 = s.pitch + 0.1 * (s.lastY - ypos) := by ring
    rw [e]
    generalize s.pitch + 0.1 * (s.lastY - ypos) = p
    by_cases h1 : 89 < p
    · rw [if_pos h1, if_neg (by norm_num), min_eq_left h1.le, max_eq_right (by norm_num)]
    · rw [if_neg h1, min_eq_right (not_lt.mp h1)]
      by_cases h2 : p < -89
      · rw [if_pos h2, max_eq_left h2.le]
      · rw [if_neg h2, max_eq_right (not_lt.mp h2)]
  · simp [mouse_callback, hs]

/-- C30 witness: the state left by a first call at cursor `(400, 300)`, followed by a call
at `(410, 280)`: yaw becomes -89 and pitch 2. -/
theorem first_mouse_no_jump_witness :
    (mouse_callback realMath initialState (400 : ℝ) 300).firstMouse = false ∧
    (mouse_callback realMath (mouse_callback realMath initialState 400 300) 410 280).yaw
      = (mouse_callback realMath initialState (400 : ℝ) 300).yaw +
          0.1 * (410 - (mouse_callback realMath initialState (400 : ℝ) 300).lastX) ∧
    (mouse_callback realMath (mouse_callback realMath initialState 400 300) 410 280).pitch
      = max (-89) (min 89 ((mouse_callback realMath initialState (400 : ℝ) 300).pitch +
          0.1 * ((mouse_callback realMath initialState (400 : ℝ) 300).lastY - 280))) :=
  ⟨rfl,
   (first_mouse_no_jump 410 280 (mouse_callback realMath initialState 400 300) rfl).2.1,
   (first_mouse_no_jump 410 280 (mouse_callback realMath initialState 400 300) rfl).2.2.1⟩

end project1

/-! ## Robot arm: camera moves -/

namespace project1

open glm

/-- The camera globals reachable from the initial state keep `cameraUp = (0, 1, 0)`, a
pitch within `[-89, 89]` and a `cameraFront` equal to the spherical direction of yaw and
pitch. -/
theorem reachable_invariant (events : List (Event ℝ)) :
    (run realMath initialState events).cameraUp = ⟨0, 1, 0⟩ ∧
    -89 ≤ (run realMath initialState events).pitch ∧
    (run realMath initialState events).pitch ≤ 89 ∧
    (run realMath initialState events).cameraFront =
      ⟨Real.cos (radians realMath (run realMath initialState events).yaw) *
          Real.cos (radians realMath (run realMath initialState events).pitch),
       Real.sin (radians realMath (run realMath initialState events).pitch),
       Real.sin (radians realMath (run realMath initialState events).yaw) *
          Real.cos (radians realMath (run realMath initialState events).pitch)⟩ :=
  run_invariant events initialState rfl (by norm_num [initialState])
    (by norm_num [initialState]) initial_direction.symm

/-- A step `v * c` with `v` of squared length 1 and `c ≥ 0` has length `c`. -/
theorem length_step (v : vec3 ℝ) (c : ℝ) (hv : dot v v = 1) (hc : 0 ≤ c) :
    Real.sqrt (dot (v * c) (v * c)) = c := by
  have h : dot (v * c) (v * c) = c ^ 2 := by
    simp only [glm.dot, vec3_muls_def] at hv ⊢
    nlinarith [hv]
  rw [h, Real.sqrt_sq hc]

/-- Normalising a vector of positive squared length gives squared length 1. -/
theorem dot_normalize (v : vec3 ℝ) (hv : 0 < dot v v) :
    dot (normalize realMath v) (normalize realMath v) = 1 := by
  have hs : Real.sqrt (dot v v) ≠ 0 := (Real.sqrt_pos.mpr hv).ne'
  have hsq : Real.sqrt (dot v v) * Real.sqrt (dot v v) = dot v v :=
    Real.mul_self_sqrt hv.le
  have h : dot (normalize realMath v) (normalize realMath v)
      = dot v v * (1 / Real.sqrt (dot v v)) ^ 2 := by
    simp only [glm.normalize, glm.dot, vec3_muls_def, realMath_sqrt]
    ring
  rw [h]
  field_simp

/-- The difference of two positions as a vector expression. -/
theorem vec3_add_sub_self (p v : vec3 ℝ) : p + v - p = v := by
  simp only [vec3_add_def, vec3_sub_def]
  ext <;> simp

/-- The squared length of a backward step equals that of the forward step. -/
theorem vec3_dot_sub_self (p v : vec3 ℝ) : dot (p - v - p) (p - v - p) = dot v v := by
  simp only [vec3_sub_def, glm.dot]
  ring

/-- C22: over the reals (exact cosine, sine and square root, exact arithmetic), in every
camera state reachable from the initial state, `processInput` with frame delta
`dt = currentFrame - lastFrame` moves the camera by `+2.5*dt*cameraFront` for W alone,
`-2.5*dt*cameraFront` for S alone and `±2.5*dt*normalize(cross(cameraFront, cameraUp))` for
D/A alone; with a non-negative frame delta each single-key step has length exactly
`2.5*dt`, and a D/A step is perpendicular to both `cameraFront` and `cameraUp`. -/
theorem single_key_steps (events : List (Event ℝ)) (currentFrame : ℝ)
    (hdt : (run realMath initialState events).lastFrame ≤ currentFrame) :
    ((processInput realMath (run realMath initialState events) currentFrame
          true false false false).cameraPos
        = (run realMath initialState events).cameraPos +
            (2.5 * (currentFrame - (run realMath initialState events).lastFrame)) *
              (run realMath initialState events).cameraFront ∧
      (processInput realMath (run realMath initialState events) currentFrame
          false true false false).cameraPos
        = (run realMath initialState events).cameraPos -
            (2.5 * (currentFrame - (run realMath initialState events).lastFrame)) *
              (run realMath initialState events).cameraFront ∧
      (processInput realMath (run realMath initialState events) currentFrame
          false false true false).cameraPos
        = (run realMath initialState events).cameraPos -
            normalize realMath (cross (run realMath initialState events).cameraFront
              (run realMath initialState events).cameraUp) *
              (2.5 * (currentFrame - (run realMath initialState events).lastFrame)) ∧
      (processInput realMath (run realMath initialState events) currentFrame
          false false false true).cameraPos
        = (run realMath initialState events).cameraPos +
            normalize realMath (cross (run realMath initialState events).cameraFront
              (run realMath initialState events).cameraUp) *
              (2.5 * (currentFrame - (run realMath initialState events).lastFrame))) ∧
    (glm.length realMath
        ((processInput realMath (run realMath initialState events) currentFrame
            true false false false).cameraPos - (run realMath initialState events).cameraPos)
        = 2.5 * (currentFrame - (run realMath initialState events).lastFrame) ∧
      glm.length realMath
        ((processInput realMath (run realMath initialState events) currentFrame
            false true false false).cameraPos - (run realMath initialState events).cameraPos)
        = 2.5 * (currentFrame - (run realMath initialState events).lastFrame) ∧
      glm.length realMath
        ((processInput realMath (run realMath initialState events) currentFrame
            false false true false).cameraPos - (run realMath initialState events).cameraPos)
        = 2.5 * (currentFrame - (run realMath initialState events).lastFrame) ∧
      glm.length realMath
        ((processInput realMath (run realMath initialState events) currentFrame
            false false false true).cameraPos - (run realMath initialState events).cameraPos)
        = 2.5 * (currentFrame - (run realMath initialState events).lastFrame)) ∧
    (dot
        (normalize realMath (cross (run realMath initialState events).cameraFront
            (run realMath initialState events).cameraUp) *
          (2.5 * (currentFrame - (run realMath initialState events).lastFrame)))
        (run realMath initialState events).cameraFront = 0 ∧
      dot
        (normalize realMath (cross (run realMath initialState events).cameraFront
            (run realMath initialState events).cameraUp) *
          (2.5 * (currentFrame - (run realMath initialState events).lastFrame)))
        (run realMath initialState events).cameraUp = 0) := by
  obtain ⟨hup, h1, h2, hf⟩ := reachable_invariant events
  generalize run realMath initialState events = s at *
  have hc : 0 ≤ 2.5 * (currentFrame - s.lastFrame) := by
    have := sub_nonneg.mpr hdt
    positivity
  have hpos := cos_radians_pos _ h1 h2
  have hfront : dot s.cameraFront s.cameraFront = 1 := by
    rw [hf]
    have h := spherical_dot_one (radians realMath s.pitch) (radians realMath s.yaw)
    simp only [glm.dot]
    linarith
  have hcross : 0 < dot (cross s.cameraFront s.cameraUp) (cross s.cameraFront s.cameraUp) := by
    have hs := Real.sin_sq_add_cos_sq (radians realMath s.yaw)
    have e : dot (cross s.cameraFront s.cameraUp) (cross s.cameraFront s.cameraUp)
        = Real.cos (radians realMath s.pitch) ^ 2 := by
      rw [hup, hf]
      simp only [cross, glm.dot]
      nlinarith [hs]
    rw [e]
    positivity
  have hside := dot_normalize _ hcross
  have hW : (processInput realMath s currentFrame true false false false).cameraPos
      = s.cameraPos + (2.5 * (currentFrame - s.lastFrame)) * s.cameraFront := by
    simp [processInput]
  have hS : (processInput realMath s currentFrame false true false false).cameraPos
      = s.cameraPos - (2.5 * (currentFrame - s.lastFrame)) * s.cameraFront := by
    simp [processInput]
  have hA : (processInput realMath s currentFrame false false true false).cameraPos
      = s.cameraPos - normalize realMath (cross s.cameraFront s.cameraUp) *
          (2.5 * (currentFrame - s.lastFrame)) := by
    simp [processInput]
  have hD : (processInput realMath s currentFrame false false false true).cameraPos
      = s.cameraPos + normalize realMath (cross s.cameraFront s.cameraUp) *
          (2.5 * (currentFrame - s.lastFrame)) := by
    simp [processInput]
  have hsm : ∀ (c : ℝ) (v : vec3 ℝ), c * v = v * c := by
    intro c v
    simp only [vec3_smul_def, vec3_muls_def]
    ext <;> ring
  refine ⟨⟨hW, hS, hA, hD⟩, ⟨?_, ?_, ?_, ?_⟩, ⟨?_, ?_⟩⟩
  · rw [hW, vec3_add_sub_self, hsm]
    exact length_step _ _ hfront hc
  · rw [hS]
    simp only [glm.length, realMath_sqrt]
    rw [vec3_dot_sub_self, hsm]
    exact length_step _ _ hfront hc
  · rw [hA]
    simp only [glm.length, realMath_sqrt]
    rw [vec3_dot_sub_self]
    exact length_step _ _ hside hc
  · rw [hD, vec3_add_sub_self]
    exact length_step _ _ hside hc
  · simp only [glm.normalize, glm.dot, cross, vec3_muls_def, realMath_sqrt]
    ring
  · simp only [glm.normalize, glm.dot, cross, vec3_muls_def, realMath_sqrt]
    ring

/-- C22 witness: the initial state (no call yet, `lastFrame = 0`) with clock reading 1. -/
theorem single_key_steps_witness :
    (run realMath initialState ([] : List (Event ℝ))).lastFrame ≤ 1 ∧
    (processInput realMath (run realMath initialState []) 1 true false false false).cameraPos
      = (run realMath initialState ([] : List (Event ℝ))).cameraPos +
          (2.5 * (1 - (run realMath initialState ([] : List (Event ℝ))).lastFrame)) *
            (run realMath initialState ([] : List (Event ℝ))).cameraFront ∧
    glm.length realMath
        ((processInput realMath (run realMath initialState []) 1
            false false false true).cameraPos
          - (run realMath initialState ([] : List (Event ℝ))).cameraPos)
      = 2.5 * (1 - (run realMath initialState ([] : List (Event ℝ))).lastFrame) :=
  have h : (run realMath initialState ([] : List (Event ℝ))).lastFrame ≤ 1 := by
    norm_num [run, initialState]
  ⟨h, (single_key_steps [] 1 h).1.1, (single_key_steps [] 1 h).2.1.2.2.2⟩

/-- C22, as stated, fails in `float` precision: after the first cursor callback
(`cameraFront = (c, 0, -1)`, `c` about `-4.37e-8`) a W step with frame delta 1 has a
negative x component next to its z component -2.5, so it is longer than `2.5 * dt = 2.5`. -/
theorem forward_step_length_float32 :
    (processInput float32Math (run float32Math initialState [Event.mouse 400 300]) 1
        true false false false).deltaTime = 1 ∧
    ((processInput float32Math (run float32Math initialState [Event.mouse 400 300]) 1
          true false false false).cameraPos
        - (run float32Math initialState [Event.mouse 400 300]).cameraPos).x < 0 ∧
    ((processInput float32Math (run float32Math initialState [Event.mouse 400 300]) 1
          true false false false).cameraPos
        - (run float32Math initialState [Event.mouse 400 300]).cameraPos).y = 0 ∧
    ((processInput float32Math (run float32Math initialState [Event.mouse 400 300]) 1
          true false false false).cameraPos
        - (run float32Math initialState [Event.mouse 400 300]).cameraPos).z = -2.5 ∧
    2.5 * (processInput float32Math (run float32Math initialState [Event.mouse 400 300]) 1
        true false false false).deltaTime
      < glm.length realMath
          ((processInput float32Math (run float32Math initialState [Event.mouse 400 300]) 1
              true false false false).cameraPos
            - (run float32Math initialState [Event.mouse 400 300]).cameraPos) := by
  obtain ⟨c1, c2⟩ := float32_cos_quarter_turn
  have hrun : run float32Math initialState [Event.mouse 400 300]
      = mouse_callback float32Math initialState 400 300 := rfl
  have hdt : (processInput float32Math (run float32Math initialState [Event.mouse 400 300]) 1
        true false false false).deltaTime = 1 := by
    rw [hrun]
    norm_num [processInput, mouse_callback, initialState]
  have hstep : (processInput float32Math (run float32Math initialState [Event.mouse 400 300]) 1
        true false false false).cameraPos
      - (run float32Math initialState [Event.mouse 400 300]).cameraPos
      = ⟨2.5 * roundFloat32 (Real.cos (13176795 / 8388608)), 0, -2.5⟩ := by
    have hW : (processInput float32Math (mouse_callback float32Math initialState 400 300) 1
        true false false false).cameraPos
        = (mouse_callback float32Math initialState 400 300).cameraPos +
          (2.5 * (1 - (mouse_callback float32Math initialState 400 300).lastFrame)) *
            (mouse_callback float32Math initialState 400 300).cameraFront := by
      simp [processInput]
    rw [hrun, hW, first_callback_front_float32]
    simp only [vec3_add_def, vec3_sub_def, vec3_smul_def, mouse_callback, initialState]
    ext <;> norm_num
  have hneg : roundFloat32 (Real.cos (13176795 / 8388608)) < 0 := by
    refine lt_trans c2 ?_; norm_num
  refine ⟨hdt, ?_, ?_, ?_, ?_⟩
  · rw [hstep]
    show 2.5 * roundFloat32 (Real.cos (13176795 / 8388608)) < 0
    linarith
  · rw [hstep]
  · rw [hstep]
  · rw [hdt, hstep]
    simp only [glm.length, glm.dot, realMath_sqrt]
    have hpos : 0 < roundFloat32 (Real.cos (13176795 / 8388608)) ^ 2 := by
      rw [sq]; exact mul_pos_of_neg_of_neg hneg hneg
    apply Real.lt_sqrt_of_sq_lt
    nlinarith

end project1

/-! ## Solar system: projection matrix -/

namespace Assignment1

open glm

/-- The tangent of 35 radians is positive and smaller than the tangent of 35 degrees. -/
theorem tan_thirtyfive :
    0 < Real.tan 35 ∧ Real.tan 35 < Real.tan (radians realMath 70 / 2) := by
  have h1 := Real.pi_gt_d2
  have h2 := Real.pi_lt_d2
  have hper : Real.tan (35 - (11 : ℕ) * Real.pi) = Real.tan 35 := Real.tan_sub_nat_mul_pi 35 11
  have hr : radians realMath 70 / 2 = 7 * Real.pi / 36 := by
    simp only [radians, realMath]; ring
  rw [hr, ← hper]
  push_cast
  constructor
  · apply Real.tan_pos_of_pos_of_lt_pi_div_two <;> linarith
  · apply Real.tan_lt_tan_of_lt_of_lt_pi_div_two <;> linarith

/-- C23, evaluated: the projection matrix is `perspective(70, 800/600, 0.01, 100)` with 70
read as radians; its entry `[1][1]` is `1 / tan(35)` (35 radians), larger than the
`1 / tan(35°)` of `perspective(radians(70), 4/3, 0.01, 100)`, so the two matrices
differ. -/
theorem projection_is_not_seventy_degrees :
    (projectionMatrix realMath).c1.y = 1 / Real.tan 35 ∧
    (perspective realMath (radians realMath 70) (4 / 3) 0.01 100).c1.y
      = 1 / Real.tan (radians realMath 70 / 2) ∧
    1 / Real.tan (radians realMath 70 / 2) < 1 / Real.tan 35 ∧
    projectionMatrix realMath ≠ perspective realMath (radians realMath 70) (4 / 3) 0.01 100 := by
  obtain ⟨hpos, hlt⟩ := tan_thirtyfive
  have e1 : (projectionMatrix realMath).c1.y = 1 / Real.tan 35 := by
    simp only [projectionMatrix, perspective, realMath]
    norm_num
  have e2 : (perspective realMath (radians realMath 70) (4 / 3) 0.01 100).c1.y
      = 1 / Real.tan (radians realMath 70 / 2) := rfl
  have hlt2 : 1 / Real.tan (radians realMath 70 / 2) < 1 / Real.tan 35 :=
    one_div_lt_one_div_of_lt hpos hlt
  refine ⟨e1, e2, hlt2, ?_⟩
  intro h
  rw [h, e2] at e1
  exact absurd e1 hlt2.ne

end Assignment1

/-! ## Robot arm: procedural textures -/

namespace project1

/-- Storing into the first byte of the unwritten part of a buffer. -/
theorem store_next (pre tail : List (Option Nat)) (t : Option Nat) (v : Nat) :
    store (pre ++ t :: tail) (pre.length, v) = (pre ++ [some v]) ++ tail := by
  simp [store]

/-- Stores at consecutive indices, starting at the first unwritten byte, fill the buffer
with the stored values in order. -/
theorem foldl_store_consecutive (ws : List (Nat × Nat)) :
    ∀ (pre tail : List (Option Nat)),
      ws.map (fun w => w.1) = List.range' pre.length ws.length →
      tail.length = ws.length →
      ws.foldl store (pre ++ tail) = pre ++ ws.map (fun w => some w.2) := by
  induction ws with
  | nil =>
    intro pre tail _ ht
    simp only [List.length_nil, List.length_eq_zero] at ht
    simp [ht]
  | cons w ws ih =>
    intro pre tail hidx ht
    cases tail with
    | nil => simp at ht
    | cons t tail =>
      simp only [List.map_cons, List.length_cons, List.range'_succ, List.cons.injEq] at hidx
      have hw : w = (pre.length, w.2) := by
        rw [← hidx.1]
      simp only [List.foldl_cons]
      rw [hw, store_next]
      have hlen : (pre ++ [some w.2]).length = pre.length + 1 := by simp
      rw [ih (pre ++ [some w.2]) tail (by rw [hlen]; exact hidx.2) (by simpa using ht)]
      simp

/-- A buffer of `n` unwritten bytes filled by stores at the indices `0, 1, .., n-1` in
order holds the stored values. -/
theorem texData_eq (body : Nat → Nat → List (Nat × Nat))
    (h : (loopStores body).map (fun w => w.1) = List.range (TEX_SIZE * TEX_SIZE * 3)) :
    texData body = (loopStores body).map (fun w => some w.2) := by
  have hlen : (loopStores body).length = TEX_SIZE * TEX_SIZE * 3 := by
    have := congrArg List.length h
    simpa using this
  have h2 := foldl_store_consecutive (loopStores body) []
    (List.replicate (TEX_SIZE * TEX_SIZE * 3) none)
    (by rw [hlen, List.length_nil, ← List.range_eq_range']; exact h)
    (by rw [List.length_replicate, hlen])
  simpa [texData] using h2

/-- The length of the concatenation of `n` blocks of `k` elements. -/
theorem flatMap_range_length {α : Type} (f : Nat → List α) (k : Nat)
    (hf : ∀ a, (f a).length = k) (n : Nat) :
    ((List.range n).flatMap f).length = n * k := by
  induction n with
  | zero => simp
  | succ n ih =>
    rw [List.range_succ, List.flatMap_append, List.length_append, ih, List.flatMap_singleton,
      hf]
    ring

/-- Element `a * k + j` of the concatenation of `n` blocks of `k` elements is element `j`
of block `a`. -/
theorem flatMap_range_getD {α : Type} (f : Nat → List α) (k : Nat)
    (hf : ∀ a, (f a).length = k) (d : α) (n a j : Nat) (ha : a < n) (hj : j < k) :
    ((List.range n).flatMap f).getD (a * k + j) d = (f a).getD j d := by
  induction n with
  | zero => omega
  | succ n ih =>
    rw [List.range_succ, List.flatMap_append, List.flatMap_singleton]
    rcases Nat.lt_succ_iff_lt_or_eq.mp ha with h | h
    · have hlt : a * k + j < ((List.range n).flatMap f).length := by
        rw [flatMap_range_length f k hf]
        have : (a + 1) * k ≤ n * k := Nat.mul_le_mul_right k h
        nlinarith
      rw [List.getD_append _ _ _ _ hlt, ih h]
    · subst h
      have hle : ((List.range a).flatMap f).length ≤ a * k + j := by
        rw [flatMap_range_length f k hf]; omega
      rw [List.getD_append_right _ _ _ _ hle, flatMap_range_length f k hf]
      congr 1
      omega

/-- The byte at `(y * TEX_SIZE + x) * 3 + c` of the values stored by the loops is the
`c`-th value stored by the body at `(x, y)`. -/
theorem loopStores_getD (body : Nat → Nat → List (Nat × Nat))
    (hb : ∀ x y, (body x y).length = 3) (x y c : Nat) (hx : x < 16) (hy : y < 16)
    (hc : c < 3) :
    ((loopStores body).map (fun w => some w.2)).getD ((y * TEX_SIZE + x) * 3 + c) none
      = ((body x y).map (fun w => some w.2)).getD c none := by
  have e : (y * TEX_SIZE + x) * 3 + c = y * 48 + (x * 3 + c) := by
    simp only [TEX_SIZE]; ring
  have hinner : ∀ y', ((List.range 16).flatMap
      (fun x' => (body x' y').map (fun w => some w.2))).length = 48 := by
    intro y'
    rw [flatMap_range_length _ 3 (by intro a; simp [hb])]
  simp only [loopStores, TEX_SIZE, List.map_flatMap] at *
  rw [e, flatMap_range_getD _ 48 hinner none 16 y (x * 3 + c) hy (by omega),
    flatMap_range_getD _ 3 (by intro a; simp [hb]) none 16 x c hx hc]

set_option maxRecDepth 100000 in
/-- The index pattern of the stores of one texel covers the indices 0 to 767 in order over
the two loops. -/
theorem loop_indices :
    (List.range TEX_SIZE).flatMap (fun y => (List.range TEX_SIZE).flatMap (fun x =>
        [(y * TEX_SIZE + x) * 3, (y * TEX_SIZE + x) * 3 + 1, (y * TEX_SIZE + x) * 3 + 2]))
      = List.range (TEX_SIZE * TEX_SIZE * 3) := by
  decide

/-- The stores of loops whose body writes `idx`, `idx + 1`, `idx + 2` hit the indices 0 to
767 in order. -/
theorem stores_indices (body : Nat → Nat → List (Nat × Nat))
    (hb : ∀ x y, (body x y).map (fun w => w.1) =
      [(y * TEX_SIZE + x) * 3, (y * TEX_SIZE + x) * 3 + 1, (y * TEX_SIZE + x) * 3 + 2]) :
    (loopStores body).map (fun w => w.1) = List.range (TEX_SIZE * TEX_SIZE * 3) := by
  rw [← loop_indices]
  simp only [loopStores, List.map_flatMap, hb]

/-- The index pattern of the body of texture 1. -/
theorem texel1_indices (x y : Nat) : (texel1 x y).map (fun w => w.1) =
    [(y * TEX_SIZE + x) * 3, (y * TEX_SIZE + x) * 3 + 1, (y * TEX_SIZE + x) * 3 + 2] := by
  unfold texel1; split_ifs <;> rfl

/-- The index pattern of the body of texture 2. -/
theorem texel2_indices (x y : Nat) : (texel2 x y).map (fun w => w.1) =
    [(y * TEX_SIZE + x) * 3, (y * TEX_SIZE + x) * 3 + 1, (y * TEX_SIZE + x) * 3 + 2] := by
  unfold texel2; split_ifs <;> rfl

/-- The index pattern of the body of texture 3. -/
theorem texel3_indices (x y : Nat) : (texel3 x y).map (fun w => w.1) =
    [(y * TEX_SIZE + x) * 3, (y * TEX_SIZE + x) * 3 + 1, (y * TEX_SIZE + x) * 3 + 2] := by
  unfold texel3; split_ifs <;> rfl

/-- The index pattern of the body of the floor texture. -/
theorem texel4_indices (x y : Nat) : (texel4 x y).map (fun w => w.1) =
    [(y * TEX_SIZE + x) * 3, (y * TEX_SIZE + x) * 3 + 1, (y * TEX_SIZE + x) * 3 + 2] := by
  unfold texel4; split_ifs <;> rfl

/-- The texel `(x, y)` of texture 1 read back from the buffer. -/
theorem readTexel_texData1 (x y : Nat) (hx : x < 16) (hy : y < 16) :
    readTexel texData1 x y =
      if (x / 4 + y / 4) % 2 = 0 then (some 255, some 0, some 0)
      else (some 255, some 255, some 255) := by
  have hlen : ∀ x y, (texel1 x y).length = 3 := by
    intro x y; unfold texel1; split_ifs <;> rfl
  have h0 := loopStores_getD texel1 hlen x y 0 hx hy (by norm_num)
  have h1 := loopStores_getD texel1 hlen x y 1 hx hy (by norm_num)
  have h2 := loopStores_getD texel1 hlen x y 2 hx hy (by norm_num)
  rw [Nat.add_zero] at h0
  simp only [readTexel, texData1, texData_eq texel1 (stores_indices texel1 texel1_indices),
    h0, h1, h2]
  unfold texel1
  split_ifs <;> rfl

end project1

namespace project1

/-- C24: procedural texture 1 is a red/white checkerboard of 4x4-texel blocks: for all
`0 ≤ x, y < 16` the texel at `(x, y)`, read from bytes `(y*16+x)*3 .. +2` of the buffer,
is `(255, 0, 0)` when `x/4 + y/4` is even and `(255, 255, 255)` otherwise; all texels of
one block have the colour of the block's first texel, and horizontally or vertically
adjacent blocks have different colours. -/
theorem texture1_checkerboard :
    (∀ x y : Fin 16, readTexel texData1 x.val y.val =
        if (x.val / 4 + y.val / 4) % 2 = 0 then (some 255, some 0, some 0)
        else (some 255, some 255, some 255)) ∧
    (∀ i j u v : Fin 4, readTexel texData1 (4 * i.val + u.val) (4 * j.val + v.val) =
        readTexel texData1 (4 * i.val) (4 * j.val)) ∧
    (∀ (i : Fin 3) (j : Fin 4), readTexel texData1 (4 * i.val) (4 * j.val) ≠
        readTexel texData1 (4 * (i.val + 1)) (4 * j.val)) ∧
    (∀ (i : Fin 4) (j : Fin 3), readTexel texData1 (4 * i.val) (4 * j.val) ≠
        readTexel texData1 (4 * i.val) (4 * (j.val + 1))) := by
  refine ⟨?_, ?_, ?_, ?_⟩
  · intro x y
    exact readTexel_texData1 x.val y.val x.isLt y.isLt
  · intro i j u v
    have hi := i.isLt
    have hj := j.isLt
    have hu := u.isLt
    have hv := v.isLt
    rw [readTexel_texData1 _ _ (by omega) (by omega),
      readTexel_texData1 _ _ (by omega) (by omega)]
    have e1 : (4 * i.val + u.val) / 4 = i.val := by omega
    have e2 : (4 * j.val + v.val) / 4 = j.val := by omega
    have e3 : 4 * i.val / 4 = i.val := by omega
    have e4 : 4 * j.val / 4 = j.val := by omega
    rw [e1, e2, e3, e4]
  · intro i j
    have hi := i.isLt
    have hj := j.isLt
    rw [readTexel_texData1 _ _ (by omega) (by omega),
      readTexel_texData1 _ _ (by omega) (by omega)]
    have e1 : 4 * (i.val + 1) / 4 = i.val + 1 := by omega
    have e3 : 4 * i.val / 4 = i.val := by omega
    have e4 : 4 * j.val / 4 = j.val := by omega
    rw [e1, e3, e4]
    split_ifs with h1 h2 h2
    · omega
    · simp
    · simp
    · omega
  · intro i j
    have hi := i.isLt
    have hj := j.isLt
    rw [readTexel_texData1 _ _ (by omega) (by omega),
      readTexel_texData1 _ _ (by omega) (by omega)]
    have e1 : 4 * (j.val + 1) / 4 = j.val + 1 := by omega
    have e3 : 4 * i.val / 4 = i.val := by omega
    have e4 : 4 * j.val / 4 = j.val := by omega
    rw [e1, e3, e4]
    split_ifs with h1 h2 h2
    · omega
    · simp
    · simp
    · omega

/-- C28: in each of the four texture loops the stores hit the byte indices 0 to 767 in
order, each exactly once and all inside the 768-byte buffer, so that no byte of the buffer
is left unwritten; the index map `(x, y, c) ↦ (y*16 + x)*3 + c` on `0 ≤ x, y < 16`,
`0 ≤ c < 3` is injective, stays below 768 and reaches every index below 768. -/
theorem texture_writes_bijective :
    ((loopStores texel1).map (fun w => w.1) = List.range 768 ∧
      (loopStores texel2).map (fun w => w.1) = List.range 768 ∧
      (loopStores texel3).map (fun w => w.1) = List.range 768 ∧
      (loopStores texel4).map (fun w => w.1) = List.range 768) ∧
    (texData texel1 = (loopStores texel1).map (fun w => some w.2) ∧
      texData texel2 = (loopStores texel2).map (fun w => some w.2) ∧
      texData texel3 = (loopStores texel3).map (fun w => some w.2) ∧
      texData texel4 = (loopStores texel4).map (fun w => some w.2)) ∧
    ((texData texel1).length = 768 ∧ (texData texel2).length = 768 ∧
      (texData texel3).length = 768 ∧ (texData texel4).length = 768) ∧
    Function.Injective
      (fun p : Fin 16 × Fin 16 × Fin 3 => byteIndex p.1.val p.2.1.val p.2.2.val) ∧
    (∀ p : Fin 16 × Fin 16 × Fin 3, byteIndex p.1.val p.2.1.val p.2.2.val < 768) ∧
    (∀ i : Fin 768, ∃ p : Fin 16 × Fin 16 × Fin 3,
      byteIndex p.1.val p.2.1.val p.2.2.val = i.val) := by
  have h1 := stores_indices texel1 texel1_indices
  have h2 := stores_indices texel2 texel2_indices
  have h3 := stores_indices texel3 texel3_indices
  have h4 := stores_indices texel4 texel4_indices
  have hl : ∀ body : Nat → Nat → List (Nat × Nat),
      (loopStores body).map (fun w => w.1) = List.range (TEX_SIZE * TEX_SIZE * 3) →
      (texData body).length = 768 := by
    intro body h
    rw [texData_eq body h]
    have := congrArg List.length h
    simpa [TEX_SIZE] using this
  refine ⟨⟨h1, h2, h3, h4⟩,
    ⟨texData_eq _ h1, texData_eq _ h2, texData_eq _ h3, texData_eq _ h4⟩,
    ⟨hl _ h1, hl _ h2, hl _ h3, hl _ h4⟩, ?_, ?_, ?_⟩
  · rintro ⟨x, y, c⟩ ⟨x', y', c'⟩ h
    simp only [byteIndex, TEX_SIZE] at h
    have hx := x.isLt
    have hy := y.isLt
    have hc := c.isLt
    have hx' := x'.isLt
    have hy' := y'.isLt
    have hc' := c'.isLt
    have e1 : x.val = x'.val := by omega
    have e2 : y.val = y'.val := by omega
    have e3 : c.val = c'.val := by omega
    simp [Fin.ext e1, Fin.ext e2, Fin.ext e3]
  · rintro ⟨x, y, c⟩
    simp only [byteIndex, TEX_SIZE]
    have hx := x.isLt
    have hy := y.isLt
    have hc := c.isLt
    omega
  · intro i
    have hi := i.isLt
    refine ⟨(⟨(i.val / 3) % 16, by omega⟩, ⟨i.val / 3 / 16, by omega⟩, ⟨i.val % 3, by omega⟩), ?_⟩
    simp only [byteIndex, TEX_SIZE]
    omega

end project1

/-! ## Robot arm: cube mesh -/

namespace project1

open glm

variable {K : Type} [LinearOrderedField K]

/-- C25, evaluated: the faces 0 to 3 and 5 have the index pattern
`(4k, 4k+1, 4k+2, 4k+2, 4k+3, 4k)`, but the six entries of the right face (`k = 4`) are
`(16, 17, 18, 18, 19, 17)`: the last one is 17, not 16, so its second triangle is
`(18, 19, 17)` and the two triangles share the edge 17/18 instead of the diagonal
16/18. -/
theorem right_face_indices_off_pattern :
    ((getCubeIndices.drop (6 * 0)).take 6 =
        [4 * 0, 4 * 0 + 1, 4 * 0 + 2, 4 * 0 + 2, 4 * 0 + 3, 4 * 0] ∧
      (getCubeIndices.drop (6 * 1)).take 6 =
        [4 * 1, 4 * 1 + 1, 4 * 1 + 2, 4 * 1 + 2, 4 * 1 + 3, 4 * 1] ∧
      (getCubeIndices.drop (6 * 2)).take 6 =
        [4 * 2, 4 * 2 + 1, 4 * 2 + 2, 4 * 2 + 2, 4 * 2 + 3, 4 * 2] ∧
      (getCubeIndices.drop (6 * 3)).take 6 =
        [4 * 3, 4 * 3 + 1, 4 * 3 + 2, 4 * 3 + 2, 4 * 3 + 3, 4 * 3] ∧
      (getCubeIndices.drop (6 * 5)).take 6 =
        [4 * 5, 4 * 5 + 1, 4 * 5 + 2, 4 * 5 + 2, 4 * 5 + 3, 4 * 5]) ∧
    (getCubeIndices.drop (6 * 4)).take 6 = [16, 17, 18, 18, 19, 17] ∧
    (getCubeIndices.drop (6 * 4)).take 6 ≠
      [4 * 4, 4 * 4 + 1, 4 * 4 + 2, 4 * 4 + 2, 4 * 4 + 3, 4 * 4] ∧
    getCubeIndices[29]? = some 17 := by
  decide

/-- C26: `getCubeIndices` has exactly 36 entries, the element count of every
`glDrawElements` call; every index is below 24, the length of `getCubeVertices`; and each
of the 12 consecutive index triples consists of three distinct indices whose vertices
carry one and the same normal. -/
theorem cube_indices_safe :
    getCubeIndices.length = 36 ∧ drawElementsCount = 36 ∧
    (getCubeVertices : List (Vertex K)).length = 24 ∧
    (∀ i ∈ getCubeIndices, i < (getCubeVertices : List (Vertex K)).length) ∧
    (∀ t : Fin 12, ∃ (a b c : Nat) (n : vec3 K),
      getCubeIndices[3 * t.val]? = some a ∧ getCubeIndices[3 * t.val + 1]? = some b ∧
      getCubeIndices[3 * t.val + 2]? = some c ∧
      a ≠ b ∧ b ≠ c ∧ a ≠ c ∧
      normalOf K a = some n ∧ normalOf K b = some n ∧ normalOf K c = some n) := by
  refine ⟨rfl, rfl, rfl, ?_, ?_⟩
  · have h : (getCubeVertices : List (Vertex K)).length = 24 := rfl
    rw [h]
    decide
  · intro t
    match t with
    | ⟨0, _⟩ =>
      exact ⟨0, 1, 2, ⟨0, 0, 1⟩, rfl, rfl, rfl, by decide, by decide, by decide,
        rfl, rfl, rfl⟩
    | ⟨1, _⟩ =>
      exact ⟨2, 3, 0, ⟨0, 0, 1⟩, rfl, rfl, rfl, by decide, by decide, by decide,
        rfl, rfl, rfl⟩
    | ⟨2, _⟩ =>
      exact ⟨4, 5, 6, ⟨0, 0, -1⟩, rfl, rfl, rfl, by decide, by decide, by decide,
        rfl, rfl, rfl⟩
    | ⟨3, _⟩ =>
      exact ⟨6, 7, 4, ⟨0, 0, -1⟩, rfl, rfl, rfl, by decide, by decide, by decide,
        rfl, rfl, rfl⟩
    | ⟨4, _⟩ =>
      exact ⟨8, 9, 10, ⟨0, 1, 0⟩, rfl, rfl, rfl, by decide, by decide, by decide,
        rfl, rfl, rfl⟩
    | ⟨5, _⟩ =>
      exact ⟨10, 11, 8, ⟨0, 1, 0⟩, rfl, rfl, rfl, by decide, by decide, by decide,
        rfl, rfl, rfl⟩
    | ⟨6, _⟩ =>
      exact ⟨12, 13, 14, ⟨0, -1, 0⟩, rfl, rfl, rfl, by decide, by decide, by decide,
        rfl, rfl, rfl⟩
    | ⟨7, _⟩ =>
      exact ⟨14, 15, 12, ⟨0, -1, 0⟩, rfl, rfl, rfl, by decide, by decide, by decide,
        rfl, rfl, rfl⟩
    | ⟨8, _⟩ =>
      exact ⟨16, 17, 18, ⟨1, 0, 0⟩, rfl, rfl, rfl, by decide, by decide, by decide,
        rfl, rfl, rfl⟩
    | ⟨9, _⟩ =>
      exact ⟨18, 19, 17, ⟨1, 0, 0⟩, rfl, rfl, rfl, by decide, by decide, by decide,
        rfl, rfl, rfl⟩
    | ⟨10, _⟩ =>
      exact ⟨20, 21, 22, ⟨-1, 0, 0⟩, rfl, rfl, rfl, by decide, by decide, by decide,
        rfl, rfl, rfl⟩
    | ⟨11, _⟩ =>
      exact ⟨22, 23, 20, ⟨-1, 0, 0⟩, rfl, rfl, rfl, by decide, by decide, by decide,
        rfl, rfl, rfl⟩

end project1

/-! ## Robot arm: model matrices -/

namespace project1

open glm

/-- A scale with equal x and z factors moves past a translation along y. -/
theorem S3_mul_T (a b y : ℝ) :
    Spec.S3 a b a * Spec.T 0 y 0 = Spec.T 0 (b * y) 0 * Spec.S3 a b a := by
  simp only [mat4_mul_def, Spec.T, Spec.S3, vec4_add_def, vec4_muls_def]
  ext <;> simp

/-- A scale with equal x and z factors commutes with a rotation about y. -/
theorem S3_mul_R_y (a b θ : ℝ) :
    Spec.S3 a b a * Spec.R_y realMath θ = Spec.R_y realMath θ * Spec.S3 a b a := by
  simp only [mat4_mul_def, Spec.R_y, Spec.S3, vec4_add_def, vec4_muls_def]
  ext <;> simp <;> ring

/-- The product of two scales. -/
theorem S3_mul_S3 (a b c p q r : ℝ) :
    Spec.S3 a b c * Spec.S3 p q r = Spec.S3 (a * p) (b * q) (c * r) := by
  simp only [mat4_mul_def, Spec.S3, vec4_add_def, vec4_muls_def]
  ext <;> simp

/-- A rotation about y commutes with a translation along y. -/
theorem R_y_mul_T (θ y : ℝ) :
    Spec.R_y realMath θ * Spec.T 0 y 0 = Spec.T 0 y 0 * Spec.R_y realMath θ := by
  simp only [mat4_mul_def, Spec.R_y, Spec.T, vec4_add_def, vec4_muls_def]
  ext <;> simp

/-- The product of two translations along y. -/
theorem T_mul_T (y1 y2 : ℝ) : Spec.T 0 y1 0 * Spec.T 0 y2 0 = Spec.T 0 (y1 + y2) 0 := by
  simp only [mat4_mul_def, Spec.T, vec4_add_def, vec4_muls_def]
  ext <;> simp
  ring

/-- The product of two rotations about y. -/
theorem R_y_mul_R_y (θ1 θ2 : ℝ) :
    Spec.R_y realMath θ1 * Spec.R_y realMath θ2 = Spec.R_y realMath (θ1 + θ2) := by
  simp only [mat4_mul_def, Spec.R_y, vec4_add_def, vec4_muls_def, realMath_cos, realMath_sin,
    Real.cos_add, Real.sin_add]
  ext <;> simp <;> ring

/-- The rule `S3_mul_T` inside a longer product. -/
theorem S3_mul_T_mul (a b y : ℝ) (X : mat4 ℝ) :
    Spec.S3 a b a * (Spec.T 0 y 0 * X) = Spec.T 0 (b * y) 0 * (Spec.S3 a b a * X) := by
  rw [← mat4_mul_assoc, S3_mul_T, mat4_mul_assoc]

/-- The rule `S3_mul_R_y` inside a longer product. -/
theorem S3_mul_R_y_mul (a b θ : ℝ) (X : mat4 ℝ) :
    Spec.S3 a b a * (Spec.R_y realMath θ * X) = Spec.R_y realMath θ * (Spec.S3 a b a * X) := by
  rw [← mat4_mul_assoc, S3_mul_R_y, mat4_mul_assoc]

/-- The rule `R_y_mul_T` inside a longer product. -/
theorem R_y_mul_T_mul (θ y : ℝ) (X : mat4 ℝ) :
    Spec.R_y realMath θ * (Spec.T 0 y 0 * X) = Spec.T 0 y 0 * (Spec.R_y realMath θ * X) := by
  rw [← mat4_mul_assoc, R_y_mul_T, mat4_mul_assoc]

/-- The rule `T_mul_T` inside a longer product. -/
theorem T_mul_T_mul (y1 y2 : ℝ) (X : mat4 ℝ) :
    Spec.T 0 y1 0 * (Spec.T 0 y2 0 * X) = Spec.T 0 (y1 + y2) 0 * X := by
  rw [← mat4_mul_assoc, T_mul_T]

/-- The rule `R_y_mul_R_y` inside a longer product. -/
theorem R_y_mul_R_y_mul (θ1 θ2 : ℝ) (X : mat4 ℝ) :
    Spec.R_y realMath θ1 * (Spec.R_y realMath θ2 * X) = Spec.R_y realMath (θ1 + θ2) * X := by
  rw [← mat4_mul_assoc, R_y_mul_R_y]

/-- A scale with equal x and z factors, a translation along y, a rotation about y and a
second scale, regrouped with the translation first. -/
theorem scale_translate_rotate_scale (a b y θ p q r : ℝ) :
    Spec.S3 a b a * Spec.T 0 y 0 * Spec.R_y realMath θ * Spec.S3 p q r =
      Spec.T 0 (b * y) 0 * Spec.R_y realMath θ * Spec.S3 (a * p) (b * q) (a * r) := by
  simp only [mat4_mul_assoc, S3_mul_T_mul, S3_mul_R_y_mul, S3_mul_S3]

/-- A child placed on a parent of the form translation, rotation about y, scale. -/
theorem child_of_arm (y1 θ1 a b y2 θ2 p q r : ℝ) :
    Spec.T 0 y1 0 * Spec.R_y realMath θ1 * Spec.S3 a b a * Spec.T 0 y2 0 *
        Spec.R_y realMath θ2 * Spec.S3 p q r =
      Spec.T 0 (y1 + b * y2) 0 * Spec.R_y realMath (θ1 + θ2) *
        Spec.S3 (a * p) (b * q) (a * r) := by
  simp only [mat4_mul_assoc, S3_mul_T_mul, S3_mul_R_y_mul, S3_mul_S3, R_y_mul_T_mul,
    T_mul_T_mul, R_y_mul_R_y_mul]

/-- The translation column of translation, rotation about y, scale. -/
theorem arm_position (y θ a b c : ℝ) :
    (Spec.T 0 y 0 * Spec.R_y realMath θ * Spec.S3 a b c).position = ⟨0, y, 0⟩ := by
  simp only [mat4_mul_c3, Spec.S3, Spec.R_y, Spec.T, mat4_mulVec_def, vec4_add_def,
    vec4_muls_def, mat4.position]
  ext <;> simp

/-- C27: for every time `t`, over the reals,
`modelArm1 = T(0, 0.5, 0) * R_y(t) * S(0.75, 0.5, 0.75)` and
`modelArm2 = T(0, 1, 0) * R_y(3t) * S(0.375, 0.5, 0.375)`: the arms inherit the base's
scale, their origins are the time-independent points `(0, 0.5, 0)` and `(0, 1, 0)`, and
arm 2 turns at three times the angle of arm 1. -/
theorem arm_model_matrices (t : ℝ) :
    modelArm1 realMath t = Spec.T 0 0.5 0 * Spec.R_y realMath t * Spec.S3 0.75 0.5 0.75 ∧
    modelArm2 realMath t =
      Spec.T 0 1 0 * Spec.R_y realMath (3 * t) * Spec.S3 0.375 0.5 0.375 ∧
    (modelArm1 realMath t).position = ⟨0, 0.5, 0⟩ ∧
    (modelArm2 realMath t).position = ⟨0, 1, 0⟩ := by
  have h1 : modelArm1 realMath t =
      Spec.T 0 0.5 0 * Spec.R_y realMath t * Spec.S3 0.75 0.5 0.75 := by
    simp only [modelArm1, modelBase, rotate_one_y, translate_one, scale_one, mul_one]
    rw [scale_translate_rotate_scale]
    norm_num
  have h2 : modelArm2 realMath t =
      Spec.T 0 1 0 * Spec.R_y realMath (3 * t) * Spec.S3 0.375 0.5 0.375 := by
    simp only [modelArm2, h1, rotate_one_y, translate_one, scale_one]
    rw [child_of_arm]
    have e : t + t * 2 = 3 * t := by ring
    rw [e]
    norm_num
  refine ⟨h1, h2, ?_, ?_⟩
  · rw [h1, arm_position]
  · rw [h2, arm_position]

end project1
